import Mathlib

/-!
# Voxel volume core: Region, RawVolume, RawVolume::Sampler, SceneGraphNode

A shallow embedding of `src/modules/voxel/polyvox/RawVolume.h`,
`src/modules/voxelformat/SceneGraphNode.cpp`, in namespace `io` of
`src/modules/io/FormatDescription.cpp` and `src/modules/core/io/File.cpp`, and in
namespace `glm` of `src/modules/core/GLM.h`.

Conventions of the embedding.

* `int32_t` coordinates are `Int`.  Signed overflow is undefined behaviour in
  C++, so every statement is about executions in which no coordinate
  computation overflows.
* A `Voxel*` into the volume buffer is the `Int` offset of the pointee from
  `m_pData`.  Reading or writing through a pointer is `RawVolume.load` /
  `RawVolume.store`, which return `none` when the offset is outside the
  buffer (undefined behaviour in the program).
* Member functions that mutate `this` return the new object.
* The bodies of `RawVolume.cpp` and the headers of `Region`, `Voxel` and
  `SceneGraphNode` are not among the embedded sources.  What is needed of them
  is written from the specification and marked `Modelled from the spec:`.
-/

namespace voxel

/-- Modelled from the spec: `Voxel` (Voxel.h is missing), "a small fixed-size
value (material/color index plus flags)", comparable for equality. -/
structure Voxel where
  material : Nat
  flags : Nat
deriving DecidableEq, Repr

/-- Modelled from the spec: the reserved "empty/air" voxel value. -/
def Voxel.empty : Voxel := ⟨0, 0⟩

/-- Modelled from the spec: `Region` (Region.h is missing), "six integers
(lowerX/Y/Z, upperX/Y/Z), inclusive on both ends". -/
structure Region where
  m_iLowerX : Int
  m_iLowerY : Int
  m_iLowerZ : Int
  m_iUpperX : Int
  m_iUpperY : Int
  m_iUpperZ : Int
deriving DecidableEq, Repr

namespace Region

/-- Modelled from the spec: "query lower/upper per axis". -/
def getLowerX (r : Region) : Int := r.m_iLowerX
/-- Modelled from the spec: "query lower/upper per axis". -/
def getLowerY (r : Region) : Int := r.m_iLowerY
/-- Modelled from the spec: "query lower/upper per axis". -/
def getLowerZ (r : Region) : Int := r.m_iLowerZ
/-- Modelled from the spec: "query lower/upper per axis". -/
def getUpperX (r : Region) : Int := r.m_iUpperX
/-- Modelled from the spec: "query lower/upper per axis". -/
def getUpperY (r : Region) : Int := r.m_iUpperY
/-- Modelled from the spec: "query lower/upper per axis". -/
def getUpperZ (r : Region) : Int := r.m_iUpperZ

/-- Modelled from the spec: "width/height/depth = upper − lower + 1 per axis". -/
def getWidthInVoxels (r : Region) : Int := r.getUpperX - r.getLowerX + 1
/-- Modelled from the spec: "width/height/depth = upper − lower + 1 per axis". -/
def getHeightInVoxels (r : Region) : Int := r.getUpperY - r.getLowerY + 1
/-- Modelled from the spec: "width/height/depth = upper − lower + 1 per axis". -/
def getDepthInVoxels (r : Region) : Int := r.getUpperZ - r.getLowerZ + 1

/-- Modelled from the spec: the per-axis "inside region" test on X (inclusive bounds). -/
def containsPointInX (r : Region) (x : Int) : Bool :=
  decide (r.getLowerX ≤ x) && decide (x ≤ r.getUpperX)
/-- Modelled from the spec: the per-axis "inside region" test on Y (inclusive bounds). -/
def containsPointInY (r : Region) (y : Int) : Bool :=
  decide (r.getLowerY ≤ y) && decide (y ≤ r.getUpperY)
/-- Modelled from the spec: the per-axis "inside region" test on Z (inclusive bounds). -/
def containsPointInZ (r : Region) (z : Int) : Bool :=
  decide (r.getLowerZ ≤ z) && decide (z ≤ r.getUpperZ)

/-- Modelled from the spec: `containsPoint(x,y,z) → bool` for an inclusive
axis-aligned box. -/
def containsPoint (r : Region) (x y z : Int) : Bool :=
  r.containsPointInX x && r.containsPointInY y && r.containsPointInZ z

/-- Modelled from the spec: the invariant "lower ≤ upper per axis". -/
def isValid (r : Region) : Bool :=
  decide (r.getLowerX ≤ r.getUpperX) && decide (r.getLowerY ≤ r.getUpperY)
    && decide (r.getLowerZ ≤ r.getUpperZ)

/-- Modelled from the spec: "an explicit translate operation that shifts both
bounds by a vector, preserving size". -/
def translate (r : Region) (vx vy vz : Int) : Region :=
  { m_iLowerX := r.m_iLowerX + vx, m_iLowerY := r.m_iLowerY + vy, m_iLowerZ := r.m_iLowerZ + vz,
    m_iUpperX := r.m_iUpperX + vx, m_iUpperY := r.m_iUpperY + vy, m_iUpperZ := r.m_iUpperZ + vz }

/-- Modelled from the spec: the static "invalid" sentinel region, 'e.g., lower > upper'. -/
def InvalidRegion : Region :=
  { m_iLowerX := 0, m_iLowerY := 0, m_iLowerZ := 0,
    m_iUpperX := -1, m_iUpperY := -1, m_iUpperZ := -1 }

end Region

/-- The data members of `RawVolume` (RawVolume.h, lines 138-145).  The buffer
`m_pData` is the list of its cells in address order. -/
structure RawVolume where
  m_regValidRegion : Region
  m_tBorderValue : Voxel
  m_pData : List Voxel
deriving DecidableEq, Repr

namespace RawVolume

/-- Modelled from the spec: `getEnclosingRegion()` "returns the bound Region". -/
def getEnclosingRegion (v : RawVolume) : Region := v.m_regValidRegion

/-- Modelled from the spec: `getWidth` (declared at RawVolume.h:107, defined in
the missing RawVolume.cpp) is the width of the bound region. -/
def getWidth (v : RawVolume) : Int := v.m_regValidRegion.getWidthInVoxels
/-- Modelled from the spec: `getHeight` is the height of the bound region. -/
def getHeight (v : RawVolume) : Int := v.m_regValidRegion.getHeightInVoxels
/-- Modelled from the spec: `getDepth` is the depth of the bound region. -/
def getDepth (v : RawVolume) : Int := v.m_regValidRegion.getDepthInVoxels

/-- Modelled from the spec: `getBorderValue` returns the configured border voxel. -/
def getBorderValue (v : RawVolume) : Voxel := v.m_tBorderValue

/-- Modelled from the spec: `setBorderValue(v)`, "configurable substitution for
all out-of-range reads". -/
def setBorderValue (v : RawVolume) (tBorder : Voxel) : RawVolume :=
  { v with m_tBorderValue := tBorder }

/-- Read through the pointer `m_pData + i`; `none` outside the buffer. -/
def load (v : RawVolume) (i : Int) : Option Voxel :=
  if 0 ≤ i then v.m_pData[i.toNat]? else none

/-- Write through the pointer `m_pData + i`; `none` outside the buffer. -/
def store (v : RawVolume) (i : Int) (tValue : Voxel) : Option RawVolume :=
  if 0 ≤ i ∧ i.toNat < v.m_pData.length then
    some { v with m_pData := v.m_pData.set i.toNat tValue }
  else none

/-- Modelled from the spec: the index mapping
`(x - lowerX) + width*(y - lowerY) + width*height*(z - lowerZ)`. -/
def voxelIndex (v : RawVolume) (x y z : Int) : Int :=
  (x - v.m_regValidRegion.getLowerX)
    + v.getWidth * (y - v.m_regValidRegion.getLowerY)
    + v.getWidth * v.getHeight * (z - v.m_regValidRegion.getLowerZ)

/-- Modelled from the spec: `getVoxel(x,y,z)` (declared at RawVolume.h:114,
defined in the missing RawVolume.cpp): "bounds-checked; returns the stored voxel
if (x,y,z) is inside the Region, otherwise returns the configured border voxel". -/
def getVoxel (v : RawVolume) (uXPos uYPos uZPos : Int) : Option Voxel :=
  if v.m_regValidRegion.containsPoint uXPos uYPos uZPos then
    v.load (v.voxelIndex uXPos uYPos uZPos)
  else
    some v.m_tBorderValue

/-- Modelled from the spec: `setVoxel(x,y,z,v)` (declared at RawVolume.h:121):
"if in-range, overwrite the stored cell; if out-of-range, no-op". -/
def setVoxel (v : RawVolume) (uXPos uYPos uZPos : Int) (tValue : Voxel) : Option RawVolume :=
  if v.m_regValidRegion.containsPoint uXPos uYPos uZPos then
    v.store (v.voxelIndex uXPos uYPos uZPos) tValue
  else
    some v

/-- Source: `RawVolume::getVoxel(const glm::ivec3&)` (RawVolume.h:154-156). -/
def getVoxelV (v : RawVolume) (v3dPos : Int × Int × Int) : Option Voxel :=
  v.getVoxel v3dPos.1 v3dPos.2.1 v3dPos.2.2

/-- Source: `RawVolume::setVoxel(const glm::ivec3&, Voxel)` (RawVolume.h:162-164). -/
def setVoxelV (v : RawVolume) (v3dPos : Int × Int × Int) (tValue : Voxel) : Option RawVolume :=
  v.setVoxel v3dPos.1 v3dPos.2.1 v3dPos.2.2 tValue

/-- Modelled from the spec: `translate(vector)`, "shifts the Region's bounds
without moving or reinterpreting the underlying buffer's contents". -/
def translate (v : RawVolume) (vx vy vz : Int) : RawVolume :=
  { v with m_regValidRegion := v.m_regValidRegion.translate vx vy vz }

/-- Modelled from the spec: the constructor, "created with a Region (allocates
and default-initializes the buffer)" of `width*height*depth` voxels; the default
border value is "empty". -/
def create (regValid : Region) : RawVolume :=
  { m_regValidRegion := regValid
    m_tBorderValue := Voxel.empty
    m_pData := List.replicate
      (regValid.getWidthInVoxels * regValid.getHeightInVoxels * regValid.getDepthInVoxels).toNat
      Voxel.empty }

/-- The buffer of a volume holds exactly `width*height*depth` voxels. -/
def WellFormed (v : RawVolume) : Prop :=
  (v.m_pData.length : Int) = v.getWidth * v.getHeight * v.getDepth

instance (v : RawVolume) : Decidable v.WellFormed :=
  inferInstanceAs (Decidable ((v.m_pData.length : Int) = v.getWidth * v.getHeight * v.getDepth))

end RawVolume

/-- The data members of `RawVolume::Sampler` (RawVolume.h:85-91) together with
those of its base class (`mVolume` and the current position).  `mVolume` is the
borrowed volume; `mCurrentVoxel` is the offset of the cached pointer from
`m_pData`. -/
structure Sampler where
  mVolume : RawVolume
  mXPosInVolume : Int
  mYPosInVolume : Int
  mZPosInVolume : Int
  mCurrentVoxel : Int
  m_bIsCurrentPositionValidInX : Bool
  m_bIsCurrentPositionValidInY : Bool
  m_bIsCurrentPositionValidInZ : Bool
deriving DecidableEq, Repr

namespace Sampler

/-- Source: the macro `CAN_GO_NEG_X` (RawVolume.h:166). -/
def CAN_GO_NEG_X (s : Sampler) (val : Int) : Bool :=
  decide (val > s.mVolume.getEnclosingRegion.getLowerX)
/-- Source: the macro `CAN_GO_POS_X` (RawVolume.h:167). -/
def CAN_GO_POS_X (s : Sampler) (val : Int) : Bool :=
  decide (val < s.mVolume.getEnclosingRegion.getUpperX)
/-- Source: the macro `CAN_GO_NEG_Y` (RawVolume.h:168). -/
def CAN_GO_NEG_Y (s : Sampler) (val : Int) : Bool :=
  decide (val > s.mVolume.getEnclosingRegion.getLowerY)
/-- Source: the macro `CAN_GO_POS_Y` (RawVolume.h:169). -/
def CAN_GO_POS_Y (s : Sampler) (val : Int) : Bool :=
  decide (val < s.mVolume.getEnclosingRegion.getUpperY)
/-- Source: the macro `CAN_GO_NEG_Z` (RawVolume.h:170). -/
def CAN_GO_NEG_Z (s : Sampler) (val : Int) : Bool :=
  decide (val > s.mVolume.getEnclosingRegion.getLowerZ)
/-- Source: the macro `CAN_GO_POS_Z` (RawVolume.h:171). -/
def CAN_GO_POS_Z (s : Sampler) (val : Int) : Bool :=
  decide (val < s.mVolume.getEnclosingRegion.getUpperZ)

/-- Source: `RawVolume::Sampler::isCurrentPositionValid` (RawVolume.h:180-182). -/
def isCurrentPositionValid (s : Sampler) : Bool :=
  s.m_bIsCurrentPositionValidInX && s.m_bIsCurrentPositionValidInY
    && s.m_bIsCurrentPositionValidInZ

/-- Source: `RawVolume::Sampler::getVoxel` (RawVolume.h:173-178). -/
def getVoxel (s : Sampler) : Option Voxel :=
  if s.isCurrentPositionValid then
    s.mVolume.load s.mCurrentVoxel
  else
    s.mVolume.getVoxel s.mXPosInVolume s.mYPosInVolume s.mZPosInVolume

/-- Source: `RawVolume::Sampler::setVoxel` (RawVolume.h:188-195).  The result is
the returned flag and the sampler, whose `mVolume` is the volume after the
write; `none` when the write goes outside the buffer. -/
def setVoxel (s : Sampler) (tValue : Voxel) : Option (Bool × Sampler) :=
  if s.m_bIsCurrentPositionValidInX && s.m_bIsCurrentPositionValidInY
      && s.m_bIsCurrentPositionValidInZ then
    (s.mVolume.store s.mCurrentVoxel tValue).map fun vol => (true, { s with mVolume := vol })
  else
    some (false, s)

/-- Modelled from the spec: `setPosition(x,y,z)` (declared at RawVolume.h:41,
defined in the missing RawVolume.cpp): "recompute each axis's inside-region flag
against the bound Volume's Region; if all three are true, compute and cache the
exact pointer/reference to that cell; otherwise the cache is stale/unused". -/
def setPosition (s : Sampler) (xPos yPos zPos : Int) : Sampler :=
  let bX := s.mVolume.getEnclosingRegion.containsPointInX xPos
  let bY := s.mVolume.getEnclosingRegion.containsPointInY yPos
  let bZ := s.mVolume.getEnclosingRegion.containsPointInZ zPos
  { s with
    mXPosInVolume := xPos
    mYPosInVolume := yPos
    mZPosInVolume := zPos
    m_bIsCurrentPositionValidInX := bX
    m_bIsCurrentPositionValidInY := bY
    m_bIsCurrentPositionValidInZ := bZ
    mCurrentVoxel := if bX && bY && bZ then s.mVolume.voxelIndex xPos yPos zPos
                     else s.mCurrentVoxel }

/-- Source: `RawVolume::Sampler::setPosition(const glm::ivec3&)` (RawVolume.h:184-186). -/
def setPositionV (s : Sampler) (v3dNewPos : Int × Int × Int) : Sampler :=
  s.setPosition v3dNewPos.1 v3dNewPos.2.1 v3dNewPos.2.2

/-- Source: `RawVolume::Sampler::peekVoxel1nx1ny1nz` (RawVolume.h:197-202). -/
def peekVoxel1nx1ny1nz (s : Sampler) : Option Voxel :=
  if s.isCurrentPositionValid && s.CAN_GO_NEG_X s.mXPosInVolume && s.CAN_GO_NEG_Y s.mYPosInVolume && s.CAN_GO_NEG_Z s.mZPosInVolume then
    s.mVolume.load (s.mCurrentVoxel - 1 - s.mVolume.getWidth - s.mVolume.getWidth * s.mVolume.getHeight)
  else
    s.mVolume.getVoxel (s.mXPosInVolume - 1) (s.mYPosInVolume - 1) (s.mZPosInVolume - 1)

/-- Source: `RawVolume::Sampler::peekVoxel1nx1ny0pz` (RawVolume.h:204-209). -/
def peekVoxel1nx1ny0pz (s : Sampler) : Option Voxel :=
  if s.isCurrentPositionValid && s.CAN_GO_NEG_X s.mXPosInVolume && s.CAN_GO_NEG_Y s.mYPosInVolume then
    s.mVolume.load (s.mCurrentVoxel - 1 - s.mVolume.getWidth)
  else
    s.mVolume.getVoxel (s.mXPosInVolume - 1) (s.mYPosInVolume - 1) (s.mZPosInVolume)

/-- Source: `RawVolume::Sampler::peekVoxel1nx1ny1pz` (RawVolume.h:211-216). -/
def peekVoxel1nx1ny1pz (s : Sampler) : Option Voxel :=
  if s.isCurrentPositionValid && s.CAN_GO_NEG_X s.mXPosInVolume && s.CAN_GO_NEG_Y s.mYPosInVolume && s.CAN_GO_POS_Z s.mZPosInVolume then
    s.mVolume.load (s.mCurrentVoxel - 1 - s.mVolume.getWidth + s.mVolume.getWidth * s.mVolume.getHeight)
  else
    s.mVolume.getVoxel (s.mXPosInVolume - 1) (s.mYPosInVolume - 1) (s.mZPosInVolume + 1)

/-- Source: `RawVolume::Sampler::peekVoxel1nx0py1nz` (RawVolume.h:218-223). -/
def peekVoxel1nx0py1nz (s : Sampler) : Option Voxel :=
  if s.isCurrentPositionValid && s.CAN_GO_NEG_X s.mXPosInVolume && s.CAN_GO_NEG_Z s.mZPosInVolume then
    s.mVolume.load (s.mCurrentVoxel - 1 - s.mVolume.getWidth * s.mVolume.getHeight)
  else
    s.mVolume.getVoxel (s.mXPosInVolume - 1) (s.mYPosInVolume) (s.mZPosInVolume - 1)

/-- Source: `RawVolume::Sampler::peekVoxel1nx0py0pz` (RawVolume.h:225-230). -/
def peekVoxel1nx0py0pz (s : Sampler) : Option Voxel :=
  if s.isCurrentPositionValid && s.CAN_GO_NEG_X s.mXPosInVolume then
    s.mVolume.load (s.mCurrentVoxel - 1)
  else
    s.mVolume.getVoxel (s.mXPosInVolume - 1) (s.mYPosInVolume) (s.mZPosInVolume)

/-- Source: `RawVolume::Sampler::peekVoxel1nx0py1pz` (RawVolume.h:232-237). -/
def peekVoxel1nx0py1pz (s : Sampler) : Option Voxel :=
  if s.isCurrentPositionValid && s.CAN_GO_NEG_X s.mXPosInVolume && s.CAN_GO_POS_Z s.mZPosInVolume then
    s.mVolume.load (s.mCurrentVoxel - 1 + s.mVolume.getWidth * s.mVolume.getHeight)
  else
    s.mVolume.getVoxel (s.mXPosInVolume - 1) (s.mYPosInVolume) (s.mZPosInVolume + 1)

/-- Source: `RawVolume::Sampler::peekVoxel1nx1py1nz` (RawVolume.h:239-244). -/
def peekVoxel1nx1py1nz (s : Sampler) : Option Voxel :=
  if s.isCurrentPositionValid && s.CAN_GO_NEG_X s.mXPosInVolume && s.CAN_GO_POS_Y s.mYPosInVolume && s.CAN_GO_NEG_Z s.mZPosInVolume then
    s.mVolume.load (s.mCurrentVoxel - 1 + s.mVolume.getWidth - s.mVolume.getWidth * s.mVolume.getHeight)
  else
    s.mVolume.getVoxel (s.mXPosInVolume - 1) (s.mYPosInVolume + 1) (s.mZPosInVolume - 1)

/-- Source: `RawVolume::Sampler::peekVoxel1nx1py0pz` (RawVolume.h:246-251). -/
def peekVoxel1nx1py0pz (s : Sampler) : Option Voxel :=
  if s.isCurrentPositionValid && s.CAN_GO_NEG_X s.mXPosInVolume && s.CAN_GO_POS_Y s.mYPosInVolume then
    s.mVolume.load (s.mCurrentVoxel - 1 + s.mVolume.getWidth)
  else
    s.mVolume.getVoxel (s.mXPosInVolume - 1) (s.mYPosInVolume + 1) (s.mZPosInVolume)

/-- Source: `RawVolume::Sampler::peekVoxel1nx1py1pz` (RawVolume.h:253-258). -/
def peekVoxel1nx1py1pz (s : Sampler) : Option Voxel :=
  if s.isCurrentPositionValid && s.CAN_GO_NEG_X s.mXPosInVolume && s.CAN_GO_POS_Y s.mYPosInVolume && s.CAN_GO_POS_Z s.mZPosInVolume then
    s.mVolume.load (s.mCurrentVoxel - 1 + s.mVolume.getWidth + s.mVolume.getWidth * s.mVolume.getHeight)
  else
    s.mVolume.getVoxel (s.mXPosInVolume - 1) (s.mYPosInVolume + 1) (s.mZPosInVolume + 1)

/-- Source: `RawVolume::Sampler::peekVoxel0px1ny1nz` (RawVolume.h:260-265). -/
def peekVoxel0px1ny1nz (s : Sampler) : Option Voxel :=
  if s.isCurrentPositionValid && s.CAN_GO_NEG_Y s.mYPosInVolume && s.CAN_GO_NEG_Z s.mZPosInVolume then
    s.mVolume.load (s.mCurrentVoxel - s.mVolume.getWidth - s.mVolume.getWidth * s.mVolume.getHeight)
  else
    s.mVolume.getVoxel (s.mXPosInVolume) (s.mYPosInVolume - 1) (s.mZPosInVolume - 1)

/-- Source: `RawVolume::Sampler::peekVoxel0px1ny0pz` (RawVolume.h:267-272). -/
def peekVoxel0px1ny0pz (s : Sampler) : Option Voxel :=
  if s.isCurrentPositionValid && s.CAN_GO_NEG_Y s.mYPosInVolume then
    s.mVolume.load (s.mCurrentVoxel - s.mVolume.getWidth)
  else
    s.mVolume.getVoxel (s.mXPosInVolume) (s.mYPosInVolume - 1) (s.mZPosInVolume)

/-- Source: `RawVolume::Sampler::peekVoxel0px1ny1pz` (RawVolume.h:274-279). -/
def peekVoxel0px1ny1pz (s : Sampler) : Option Voxel :=
  if s.isCurrentPositionValid && s.CAN_GO_NEG_Y s.mYPosInVolume && s.CAN_GO_POS_Z s.mZPosInVolume then
    s.mVolume.load (s.mCurrentVoxel - s.mVolume.getWidth + s.mVolume.getWidth * s.mVolume.getHeight)
  else
    s.mVolume.getVoxel (s.mXPosInVolume) (s.mYPosInVolume - 1) (s.mZPosInVolume + 1)

/-- Source: `RawVolume::Sampler::peekVoxel0px0py1nz` (RawVolume.h:281-286). -/
def peekVoxel0px0py1nz (s : Sampler) : Option Voxel :=
  if s.isCurrentPositionValid && s.CAN_GO_NEG_Z s.mZPosInVolume then
    s.mVolume.load (s.mCurrentVoxel - s.mVolume.getWidth * s.mVolume.getHeight)
  else
    s.mVolume.getVoxel (s.mXPosInVolume) (s.mYPosInVolume) (s.mZPosInVolume - 1)

/-- Source: `RawVolume::Sampler::peekVoxel0px0py0pz` (RawVolume.h:288-293). -/
def peekVoxel0px0py0pz (s : Sampler) : Option Voxel :=
  if s.isCurrentPositionValid then
    s.mVolume.load s.mCurrentVoxel
  else
    s.mVolume.getVoxel (s.mXPosInVolume) (s.mYPosInVolume) (s.mZPosInVolume)

/-- Source: `RawVolume::Sampler::peekVoxel0px0py1pz` (RawVolume.h:295-300). -/
def peekVoxel0px0py1pz (s : Sampler) : Option Voxel :=
  if s.isCurrentPositionValid && s.CAN_GO_POS_Z s.mZPosInVolume then
    s.mVolume.load (s.mCurrentVoxel + s.mVolume.getWidth * s.mVolume.getHeight)
  else
    s.mVolume.getVoxel (s.mXPosInVolume) (s.mYPosInVolume) (s.mZPosInVolume + 1)

/-- Source: `RawVolume::Sampler::peekVoxel0px1py1nz` (RawVolume.h:302-307). -/
def peekVoxel0px1py1nz (s : Sampler) : Option Voxel :=
  if s.isCurrentPositionValid && s.CAN_GO_POS_Y s.mYPosInVolume && s.CAN_GO_NEG_Z s.mZPosInVolume then
    s.mVolume.load (s.mCurrentVoxel + s.mVolume.getWidth - s.mVolume.getWidth * s.mVolume.getHeight)
  else
    s.mVolume.getVoxel (s.mXPosInVolume) (s.mYPosInVolume + 1) (s.mZPosInVolume - 1)

/-- Source: `RawVolume::Sampler::peekVoxel0px1py0pz` (RawVolume.h:309-314). -/
def peekVoxel0px1py0pz (s : Sampler) : Option Voxel :=
  if s.isCurrentPositionValid && s.CAN_GO_POS_Y s.mYPosInVolume then
    s.mVolume.load (s.mCurrentVoxel + s.mVolume.getWidth)
  else
    s.mVolume.getVoxel (s.mXPosInVolume) (s.mYPosInVolume + 1) (s.mZPosInVolume)

/-- Source: `RawVolume::Sampler::peekVoxel0px1py1pz` (RawVolume.h:316-321). -/
def peekVoxel0px1py1pz (s : Sampler) : Option Voxel :=
  if s.isCurrentPositionValid && s.CAN_GO_POS_Y s.mYPosInVolume && s.CAN_GO_POS_Z s.mZPosInVolume then
    s.mVolume.load (s.mCurrentVoxel + s.mVolume.getWidth + s.mVolume.getWidth * s.mVolume.getHeight)
  else
    s.mVolume.getVoxel (s.mXPosInVolume) (s.mYPosInVolume + 1) (s.mZPosInVolume + 1)

/-- Source: `RawVolume::Sampler::peekVoxel1px1ny1nz` (RawVolume.h:323-328). -/
def peekVoxel1px1ny1nz (s : Sampler) : Option Voxel :=
  if s.isCurrentPositionValid && s.CAN_GO_POS_X s.mXPosInVolume && s.CAN_GO_NEG_Y s.mYPosInVolume && s.CAN_GO_NEG_Z s.mZPosInVolume then
    s.mVolume.load (s.mCurrentVoxel + 1 - s.mVolume.getWidth - s.mVolume.getWidth * s.mVolume.getHeight)
  else
    s.mVolume.getVoxel (s.mXPosInVolume + 1) (s.mYPosInVolume - 1) (s.mZPosInVolume - 1)

/-- Source: `RawVolume::Sampler::peekVoxel1px1ny0pz` (RawVolume.h:330-335). -/
def peekVoxel1px1ny0pz (s : Sampler) : Option Voxel :=
  if s.isCurrentPositionValid && s.CAN_GO_POS_X s.mXPosInVolume && s.CAN_GO_NEG_Y s.mYPosInVolume then
    s.mVolume.load (s.mCurrentVoxel + 1 - s.mVolume.getWidth)
  else
    s.mVolume.getVoxel (s.mXPosInVolume + 1) (s.mYPosInVolume - 1) (s.mZPosInVolume)

/-- Source: `RawVolume::Sampler::peekVoxel1px1ny1pz` (RawVolume.h:337-342). -/
def peekVoxel1px1ny1pz (s : Sampler) : Option Voxel :=
  if s.isCurrentPositionValid && s.CAN_GO_POS_X s.mXPosInVolume && s.CAN_GO_NEG_Y s.mYPosInVolume && s.CAN_GO_POS_Z s.mZPosInVolume then
    s.mVolume.load (s.mCurrentVoxel + 1 - s.mVolume.getWidth + s.mVolume.getWidth * s.mVolume.getHeight)
  else
    s.mVolume.getVoxel (s.mXPosInVolume + 1) (s.mYPosInVolume - 1) (s.mZPosInVolume + 1)

/-- Source: `RawVolume::Sampler::peekVoxel1px0py1nz` (RawVolume.h:344-349). -/
def peekVoxel1px0py1nz (s : Sampler) : Option Voxel :=
  if s.isCurrentPositionValid && s.CAN_GO_POS_X s.mXPosInVolume && s.CAN_GO_NEG_Z s.mZPosInVolume then
    s.mVolume.load (s.mCurrentVoxel + 1 - s.mVolume.getWidth * s.mVolume.getHeight)
  else
    s.mVolume.getVoxel (s.mXPosInVolume + 1) (s.mYPosInVolume) (s.mZPosInVolume - 1)

/-- Source: `RawVolume::Sampler::peekVoxel1px0py0pz` (RawVolume.h:351-356). -/
def peekVoxel1px0py0pz (s : Sampler) : Option Voxel :=
  if s.isCurrentPositionValid && s.CAN_GO_POS_X s.mXPosInVolume then
    s.mVolume.load (s.mCurrentVoxel + 1)
  else
    s.mVolume.getVoxel (s.mXPosInVolume + 1) (s.mYPosInVolume) (s.mZPosInVolume)

/-- Source: `RawVolume::Sampler::peekVoxel1px0py1pz` (RawVolume.h:358-363). -/
def peekVoxel1px0py1pz (s : Sampler) : Option Voxel :=
  if s.isCurrentPositionValid && s.CAN_GO_POS_X s.mXPosInVolume && s.CAN_GO_POS_Z s.mZPosInVolume then
    s.mVolume.load (s.mCurrentVoxel + 1 + s.mVolume.getWidth * s.mVolume.getHeight)
  else
    s.mVolume.getVoxel (s.mXPosInVolume + 1) (s.mYPosInVolume) (s.mZPosInVolume + 1)

/-- Source: `RawVolume::Sampler::peekVoxel1px1py1nz` (RawVolume.h:365-370). -/
def peekVoxel1px1py1nz (s : Sampler) : Option Voxel :=
  if s.isCurrentPositionValid && s.CAN_GO_POS_X s.mXPosInVolume && s.CAN_GO_POS_Y s.mYPosInVolume && s.CAN_GO_NEG_Z s.mZPosInVolume then
    s.mVolume.load (s.mCurrentVoxel + 1 + s.mVolume.getWidth - s.mVolume.getWidth * s.mVolume.getHeight)
  else
    s.mVolume.getVoxel (s.mXPosInVolume + 1) (s.mYPosInVolume + 1) (s.mZPosInVolume - 1)

/-- Source: `RawVolume::Sampler::peekVoxel1px1py0pz` (RawVolume.h:372-377). -/
def peekVoxel1px1py0pz (s : Sampler) : Option Voxel :=
  if s.isCurrentPositionValid && s.CAN_GO_POS_X s.mXPosInVolume && s.CAN_GO_POS_Y s.mYPosInVolume then
    s.mVolume.load (s.mCurrentVoxel + 1 + s.mVolume.getWidth)
  else
    s.mVolume.getVoxel (s.mXPosInVolume + 1) (s.mYPosInVolume + 1) (s.mZPosInVolume)

/-- Source: `RawVolume::Sampler::peekVoxel1px1py1pz` (RawVolume.h:379-384). -/
def peekVoxel1px1py1pz (s : Sampler) : Option Voxel :=
  if s.isCurrentPositionValid && s.CAN_GO_POS_X s.mXPosInVolume && s.CAN_GO_POS_Y s.mYPosInVolume && s.CAN_GO_POS_Z s.mZPosInVolume then
    s.mVolume.load (s.mCurrentVoxel + 1 + s.mVolume.getWidth + s.mVolume.getWidth * s.mVolume.getHeight)
  else
    s.mVolume.getVoxel (s.mXPosInVolume + 1) (s.mYPosInVolume + 1) (s.mZPosInVolume + 1)

/-- Modelled from the spec: `movePositiveX` (declared at RawVolume.h:44, defined
in the missing RawVolume.cpp): it "increments/decrements one coordinate and
incrementally updates that axis's validity flag and, when still fully valid, the
cached reference by a fixed stride (±1, ±width, or ±width·height) instead of
recomputing the full index".  When the position was not valid before the move or
is not valid after it, the cache is re-established as `setPosition` does, which
the sampler invariant of the spec ("the cached reference is valid to dereference
iff all three flags are true") requires. -/
def movePositiveX (s : Sampler) : Sampler :=
  let bIsOldPositionValid := s.isCurrentPositionValid
  let s1 : Sampler :=
    { s with
      mXPosInVolume := s.mXPosInVolume + 1
      m_bIsCurrentPositionValidInX :=
        s.mVolume.getEnclosingRegion.containsPointInX (s.mXPosInVolume + 1) }
  if bIsOldPositionValid && s1.isCurrentPositionValid then
    { s1 with mCurrentVoxel := s.mCurrentVoxel + 1 }
  else
    s1.setPosition s1.mXPosInVolume s1.mYPosInVolume s1.mZPosInVolume

/-- Modelled from the spec: `moveNegativeX` (declared at RawVolume.h:48, defined
in the missing RawVolume.cpp): it "increments/decrements one coordinate and
incrementally updates that axis's validity flag and, when still fully valid, the
cached reference by a fixed stride (±1, ±width, or ±width·height) instead of
recomputing the full index".  When the position was not valid before the move or
is not valid after it, the cache is re-established as `setPosition` does, which
the sampler invariant of the spec ("the cached reference is valid to dereference
iff all three flags are true") requires. -/
def moveNegativeX (s : Sampler) : Sampler :=
  let bIsOldPositionValid := s.isCurrentPositionValid
  let s1 : Sampler :=
    { s with
      mXPosInVolume := s.mXPosInVolume - 1
      m_bIsCurrentPositionValidInX :=
        s.mVolume.getEnclosingRegion.containsPointInX (s.mXPosInVolume - 1) }
  if bIsOldPositionValid && s1.isCurrentPositionValid then
    { s1 with mCurrentVoxel := s.mCurrentVoxel - 1 }
  else
    s1.setPosition s1.mXPosInVolume s1.mYPosInVolume s1.mZPosInVolume

/-- Modelled from the spec: `movePositiveY` (declared at RawVolume.h:45, defined
in the missing RawVolume.cpp): it "increments/decrements one coordinate and
incrementally updates that axis's validity flag and, when still fully valid, the
cached reference by a fixed stride (±1, ±width, or ±width·height) instead of
recomputing the full index".  When the position was not valid before the move or
is not valid after it, the cache is re-established as `setPosition` does, which
the sampler invariant of the spec ("the cached reference is valid to dereference
iff all three flags are true") requires. -/
def movePositiveY (s : Sampler) : Sampler :=
  let bIsOldPositionValid := s.isCurrentPositionValid
  let s1 : Sampler :=
    { s with
      mYPosInVolume := s.mYPosInVolume + 1
      m_bIsCurrentPositionValidInY :=
        s.mVolume.getEnclosingRegion.containsPointInY (s.mYPosInVolume + 1) }
  if bIsOldPositionValid && s1.isCurrentPositionValid then
    { s1 with mCurrentVoxel := s.mCurrentVoxel + s.mVolume.getWidth }
  else
    s1.setPosition s1.mXPosInVolume s1.mYPosInVolume s1.mZPosInVolume

/-- Modelled from the spec: `moveNegativeY` (declared at RawVolume.h:49, defined
in the missing RawVolume.cpp): it "increments/decrements one coordinate and
incrementally updates that axis's validity flag and, when still fully valid, the
cached reference by a fixed stride (±1, ±width, or ±width·height) instead of
recomputing the full index".  When the position was not valid before the move or
is not valid after it, the cache is re-established as `setPosition` does, which
the sampler invariant of the spec ("the cached reference is valid to dereference
iff all three flags are true") requires. -/
def moveNegativeY (s : Sampler) : Sampler :=
  let bIsOldPositionValid := s.isCurrentPositionValid
  let s1 : Sampler :=
    { s with
      mYPosInVolume := s.mYPosInVolume - 1
      m_bIsCurrentPositionValidInY :=
        s.mVolume.getEnclosingRegion.containsPointInY (s.mYPosInVolume - 1) }
  if bIsOldPositionValid && s1.isCurrentPositionValid then
    { s1 with mCurrentVoxel := s.mCurrentVoxel - s.mVolume.getWidth }
  else
    s1.setPosition s1.mXPosInVolume s1.mYPosInVolume s1.mZPosInVolume

/-- Modelled from the spec: `movePositiveZ` (declared at RawVolume.h:46, defined
in the missing RawVolume.cpp): it "increments/decrements one coordinate and
incrementally updates that axis's validity flag and, when still fully valid, the
cached reference by a fixed stride (±1, ±width, or ±width·height) instead of
recomputing the full index".  When the position was not valid before the move or
is not valid after it, the cache is re-established as `setPosition` does, which
the sampler invariant of the spec ("the cached reference is valid to dereference
iff all three flags are true") requires. -/
def movePositiveZ (s : Sampler) : Sampler :=
  let bIsOldPositionValid := s.isCurrentPositionValid
  let s1 : Sampler :=
    { s with
      mZPosInVolume := s.mZPosInVolume + 1
      m_bIsCurrentPositionValidInZ :=
        s.mVolume.getEnclosingRegion.containsPointInZ (s.mZPosInVolume + 1) }
  if bIsOldPositionValid && s1.isCurrentPositionValid then
    { s1 with mCurrentVoxel := s.mCurrentVoxel + s.mVolume.getWidth * s.mVolume.getHeight }
  else
    s1.setPosition s1.mXPosInVolume s1.mYPosInVolume s1.mZPosInVolume

/-- Modelled from the spec: `moveNegativeZ` (declared at RawVolume.h:50, defined
in the missing RawVolume.cpp): it "increments/decrements one coordinate and
incrementally updates that axis's validity flag and, when still fully valid, the
cached reference by a fixed stride (±1, ±width, or ±width·height) instead of
recomputing the full index".  When the position was not valid before the move or
is not valid after it, the cache is re-established as `setPosition` does, which
the sampler invariant of the spec ("the cached reference is valid to dereference
iff all three flags are true") requires. -/
def moveNegativeZ (s : Sampler) : Sampler :=
  let bIsOldPositionValid := s.isCurrentPositionValid
  let s1 : Sampler :=
    { s with
      mZPosInVolume := s.mZPosInVolume - 1
      m_bIsCurrentPositionValidInZ :=
        s.mVolume.getEnclosingRegion.containsPointInZ (s.mZPosInVolume - 1) }
  if bIsOldPositionValid && s1.isCurrentPositionValid then
    { s1 with mCurrentVoxel := s.mCurrentVoxel - s.mVolume.getWidth * s.mVolume.getHeight }
  else
    s1.setPosition s1.mXPosInVolume s1.mYPosInVolume s1.mZPosInVolume

/-- The peek operation that matches the offset `(dx, dy, dz)`: in the name of a peek
operation `1n` is the offset -1, `0p` the offset 0 and `1p` the offset +1 on the axis
that follows. -/
def peekVoxel (s : Sampler) (dx dy dz : Int) : Option Voxel :=
  if dx = -1 then
    if dy = -1 then
      if dz = -1 then s.peekVoxel1nx1ny1nz else if dz = 0 then s.peekVoxel1nx1ny0pz
      else s.peekVoxel1nx1ny1pz
    else if dy = 0 then
      if dz = -1 then s.peekVoxel1nx0py1nz else if dz = 0 then s.peekVoxel1nx0py0pz
      else s.peekVoxel1nx0py1pz
    else
      if dz = -1 then s.peekVoxel1nx1py1nz else if dz = 0 then s.peekVoxel1nx1py0pz
      else s.peekVoxel1nx1py1pz
  else if dx = 0 then
    if dy = -1 then
      if dz = -1 then s.peekVoxel0px1ny1nz else if dz = 0 then s.peekVoxel0px1ny0pz
      else s.peekVoxel0px1ny1pz
    else if dy = 0 then
      if dz = -1 then s.peekVoxel0px0py1nz else if dz = 0 then s.peekVoxel0px0py0pz
      else s.peekVoxel0px0py1pz
    else
      if dz = -1 then s.peekVoxel0px1py1nz else if dz = 0 then s.peekVoxel0px1py0pz
      else s.peekVoxel0px1py1pz
  else
    if dy = -1 then
      if dz = -1 then s.peekVoxel1px1ny1nz else if dz = 0 then s.peekVoxel1px1ny0pz
      else s.peekVoxel1px1ny1pz
    else if dy = 0 then
      if dz = -1 then s.peekVoxel1px0py1nz else if dz = 0 then s.peekVoxel1px0py0pz
      else s.peekVoxel1px0py1pz
    else
      if dz = -1 then s.peekVoxel1px1py1nz else if dz = 0 then s.peekVoxel1px1py0pz
      else s.peekVoxel1px1py1pz

/-- The sampler invariant of the spec: each per-axis flag tells whether the current
coordinate is inside the region on that axis, and when all three flags are true the
cached pointer designates the cell of the current position. -/
def Consistent (t : Sampler) : Prop :=
  t.m_bIsCurrentPositionValidInX = t.mVolume.getEnclosingRegion.containsPointInX t.mXPosInVolume
    ∧ t.m_bIsCurrentPositionValidInY
        = t.mVolume.getEnclosingRegion.containsPointInY t.mYPosInVolume
    ∧ t.m_bIsCurrentPositionValidInZ
        = t.mVolume.getEnclosingRegion.containsPointInZ t.mZPosInVolume
    ∧ (t.isCurrentPositionValid = true →
        t.mCurrentVoxel = t.mVolume.voxelIndex t.mXPosInVolume t.mYPosInVolume t.mZPosInVolume)

/-- Two sampler states that no observer tells apart through the position, through
`isCurrentPositionValid()` or through `getVoxel()`. -/
def ObservablyEqual (a b : Sampler) : Prop :=
  a.mXPosInVolume = b.mXPosInVolume ∧ a.mYPosInVolume = b.mYPosInVolume
    ∧ a.mZPosInVolume = b.mZPosInVolume
    ∧ a.isCurrentPositionValid = b.isCurrentPositionValid
    ∧ a.getVoxel = b.getVoxel

instance (t : Sampler) : Decidable t.Consistent := by
  unfold Consistent; infer_instance

instance (a b : Sampler) : Decidable (a.ObservablyEqual b) := by
  unfold ObservablyEqual; infer_instance

end Sampler

/-! ### Sequences of volume operations and the scenario volume of the spec -/

/-- The two mutating operations of a volume that the spec names for reads
outside the region: a write and a change of the border value. -/
inductive VolumeOp where
  | setVoxel (x y z : Int) (tValue : Voxel)
  | setBorderValue (tBorder : Voxel)
deriving DecidableEq, Repr

/-- Run one operation on a volume. -/
def RawVolume.applyOp (v : RawVolume) : VolumeOp → Option RawVolume
  | .setVoxel x y z tValue => v.setVoxel x y z tValue
  | .setBorderValue tBorder => some (v.setBorderValue tBorder)

/-- Run a sequence of operations on a volume, first to last. -/
def RawVolume.run (v : RawVolume) : List VolumeOp → Option RawVolume
  | [] => some v
  | op :: ops => (v.applyOp op).bind fun v1 => v1.run ops

/-- The value last passed to `setBorderValue` in a sequence of operations, or
`b` when the sequence holds no `setBorderValue`. -/
def lastBorder (b : Voxel) : List VolumeOp → Voxel
  | [] => b
  | .setVoxel _ _ _ _ :: ops => lastBorder b ops
  | .setBorderValue tBorder :: ops => lastBorder tBorder ops

/-- The voxel value `A` of the spec's scenario. -/
def voxelA : Voxel := ⟨1, 0⟩
/-- The voxel value `B` of the spec's scenario. -/
def voxelB : Voxel := ⟨2, 0⟩

/-- The spec's scenario region with bounds (0,0,0)-(1,1,1). -/
def scenarioRegion : Region := ⟨0, 0, 0, 1, 1, 1⟩

/-- The writes of the spec's scenario: "fill all with voxel value A, set cell
(1,1,1) to value B". -/
def scenarioOps : List VolumeOp :=
  [.setVoxel 0 0 0 voxelA, .setVoxel 1 0 0 voxelA, .setVoxel 0 1 0 voxelA, .setVoxel 1 1 0 voxelA,
   .setVoxel 0 0 1 voxelA, .setVoxel 1 0 1 voxelA, .setVoxel 0 1 1 voxelA, .setVoxel 1 1 1 voxelA,
   .setVoxel 1 1 1 voxelB]

/-- The volume of the spec's scenario, as the writes leave it. -/
def scenarioVolume : RawVolume :=
  { m_regValidRegion := scenarioRegion
    m_tBorderValue := Voxel.empty
    m_pData := [voxelA, voxelA, voxelA, voxelA, voxelA, voxelA, voxelA, voxelB] }

/-- A sampler bound to the scenario volume, before any `setPosition`. -/
def scenarioSampler : Sampler :=
  { mVolume := scenarioVolume, mXPosInVolume := 0, mYPosInVolume := 0, mZPosInVolume := 0,
    mCurrentVoxel := 0, m_bIsCurrentPositionValidInX := false,
    m_bIsCurrentPositionValidInY := false, m_bIsCurrentPositionValidInZ := false }

/-! ### The free store and `SceneGraphNode` -/

/-- A `RawVolume*`: `none` is `nullptr`, `some a` is the address `a`. -/
abbrev VolumePtr := Option Nat

/-- The free store as far as volumes are concerned: the volume allocated at each
address, and the addresses handed to `delete` so far, oldest first. -/
structure Heap where
  vol : Nat → Option RawVolume
  freed : List Nat

namespace Heap

/-- The C++ `delete p`: nothing for `nullptr`, otherwise the volume at `p` is
destroyed and the address is recorded. -/
def delete (h : Heap) (p : VolumePtr) : Heap :=
  match p with
  | none => h
  | some a => { vol := fun b => if b = a then none else h.vol b, freed := h.freed ++ [a] }

/-- Replace the volume stored at address `a`. -/
def write (h : Heap) (a : Nat) (v : RawVolume) : Heap :=
  { h with vol := fun b => if b = a then some v else h.vol b }

end Heap

/-- Modelled from the spec: the node-type tag `SceneGraphNodeType` (its header is
missing); the source names only the enumerator `Max`. -/
inductive SceneGraphNodeType where
  | Other (tag : Nat)
  | Max
deriving DecidableEq, Repr

/-- The data members of `SceneGraphNode` that SceneGraphNode.cpp reads and writes.
The header is missing: the types of `_mat` and `_pivot` are the parameters `Mat` and
`Pivot`, `core::StringMap<core::String>` is a list of key/value pairs and
`core::Buffer<int, 32>` is a list. -/
structure SceneGraphNode (Mat Pivot : Type) where
  _volume : VolumePtr
  _volumeOwned : Bool
  _name : String
  _id : Int
  _parent : Int
  _modelId : Int
  _referencedNodeId : Int
  _mat : Mat
  _properties : List (String × String)
  _children : List Int
  _type : SceneGraphNodeType
  _visible : Bool
  _locked : Bool
  _pivot : Pivot

namespace SceneGraphNode

variable {Mat Pivot : Type}

/-- Source: the move constructor of `SceneGraphNode` (SceneGraphNode.cpp:10-32).
The result is the constructed node and the source node afterwards.  What
`core::move` leaves in the source's `_properties` and `_children` is decided by
the missing container classes and is taken as `movedProperties` and
`movedChildren`. -/
def moveConstruct (move : SceneGraphNode Mat Pivot)
    (movedProperties : List (String × String)) (movedChildren : List Int) :
    SceneGraphNode Mat Pivot × SceneGraphNode Mat Pivot :=
  ( { _volume := move._volume
      _name := move._name
      _id := move._id
      _parent := move._parent
      _modelId := move._modelId
      _mat := move._mat
      _referencedNodeId := move._referencedNodeId
      _properties := move._properties
      _children := move._children
      _type := move._type
      _visible := move._visible
      _locked := move._locked
      _pivot := move._pivot
      _volumeOwned := move._volumeOwned },
    { move with
      _volume := none
      _id := -1
      _parent := -1
      _modelId := -1
      _referencedNodeId := -1
      _properties := movedProperties
      _children := movedChildren
      _type := SceneGraphNodeType.Max
      _volumeOwned := false } )

/-- Source: `SceneGraphNode::release` (SceneGraphNode.cpp:60-65). -/
def release (n : SceneGraphNode Mat Pivot) (h : Heap) : SceneGraphNode Mat Pivot × Heap :=
  let h1 := if n._volumeOwned then h.delete n._volume else h
  ({ n with _volume := none }, h1)

/-- Source: `SceneGraphNode::releaseOwnership` (SceneGraphNode.cpp:67-69). -/
def releaseOwnership (n : SceneGraphNode Mat Pivot) : SceneGraphNode Mat Pivot :=
  { n with _volumeOwned := false }

/-- Source: `SceneGraphNode::setVolume(voxel::RawVolume *, bool)`
(SceneGraphNode.cpp:71-75). -/
def setVolume (n : SceneGraphNode Mat Pivot) (h : Heap) (volume : VolumePtr)
    (transferOwnership : Bool) : SceneGraphNode Mat Pivot × Heap :=
  let r := n.release h
  ({ r.1 with _volumeOwned := transferOwnership, _volume := volume }, r.2)

/-- Source: `SceneGraphNode::setVolume(const voxel::RawVolume *, bool)`
(SceneGraphNode.cpp:77-81). -/
def setVolumeConst (n : SceneGraphNode Mat Pivot) (h : Heap) (volume : VolumePtr)
    (transferOwnership : Bool) : SceneGraphNode Mat Pivot × Heap :=
  let r := n.release h
  ({ r.1 with _volumeOwned := transferOwnership, _volume := volume }, r.2)

/-- Source: `SceneGraphNode::region` (SceneGraphNode.cpp:83-88); `none` when
`_volume` is neither null nor the address of a live volume. -/
def region (n : SceneGraphNode Mat Pivot) (h : Heap) : Option Region :=
  match n._volume with
  | none => some Region.InvalidRegion
  | some a => (h.vol a).map fun v => v.getEnclosingRegion

/-- Source: `SceneGraphNode::translate` (SceneGraphNode.cpp:90-94); `none` when
`_volume` is neither null nor the address of a live volume. -/
def translate (n : SceneGraphNode Mat Pivot) (h : Heap) (vx vy vz : Int) :
    Option (SceneGraphNode Mat Pivot × Heap) :=
  match n._volume with
  | none => some (n, h)
  | some a => (h.vol a).map fun v => (n, h.write a (v.translate vx vy vz))

/-- Source: `SceneGraphNode::addChild` (SceneGraphNode.cpp:96-98). -/
def addChild (n : SceneGraphNode Mat Pivot) (id : Int) : SceneGraphNode Mat Pivot :=
  { n with _children := n._children ++ [id] }

/-- Source: `SceneGraphNode::children` (SceneGraphNode.cpp:100-102). -/
def children (n : SceneGraphNode Mat Pivot) : List Int := n._children

/-- Source: `SceneGraphNode::properties` (SceneGraphNode.cpp:104-110). -/
def properties (n : SceneGraphNode Mat Pivot) : List (String × String) := n._properties

end SceneGraphNode

/-- A node that owns the volume at address 7, for the worked examples. -/
def scenarioNode : SceneGraphNode Unit Unit :=
  { _volume := some 7, _volumeOwned := true, _name := "model", _id := 3, _parent := 0,
    _modelId := 2, _referencedNodeId := -1, _mat := (), _properties := [("k", "v")],
    _children := [4, 5], _type := SceneGraphNodeType.Other 1, _visible := true,
    _locked := false, _pivot := () }

/-- A free store whose only volume is the scenario volume, at address 7. -/
def scenarioHeap : Heap :=
  { vol := fun a => if a = 7 then some scenarioVolume else none, freed := [] }

/-! ### Move assignment, properties and the reference invariant of `SceneGraphNode` -/

namespace SceneGraphNode

variable {Mat Pivot : Type}

/-- Source: the body of `SceneGraphNode::operator=(SceneGraphNode &&)` after the
self-assignment guard (SceneGraphNode.cpp:38-57), for two distinct objects.  The
result is the assigned node, the source node afterwards and the free store.  What
`core::move` leaves in the source's `_properties` and `_children` is decided by the
missing container classes and is taken as `movedProperties` and `movedChildren`. -/
def moveAssignFrom (self move : SceneGraphNode Mat Pivot) (h : Heap)
    (movedProperties : List (String × String)) (movedChildren : List Int) :
    SceneGraphNode Mat Pivot × SceneGraphNode Mat Pivot × Heap :=
  let r := self.setVolume h move._volume move._volumeOwned
  ( { r.1 with
      _name := move._name
      _id := move._id
      _parent := move._parent
      _modelId := move._modelId
      _mat := move._mat
      _referencedNodeId := move._referencedNodeId
      _properties := move._properties
      _children := move._children
      _type := move._type
      _visible := move._visible
      _locked := move._locked
      _pivot := move._pivot },
    { move with
      _volume := none
      _id := -1
      _parent := -1
      _modelId := -1
      _referencedNodeId := -1
      _properties := movedProperties
      _children := movedChildren
      _volumeOwned := false },
    r.2 )

/-- Source: `SceneGraphNode::operator=(SceneGraphNode &&)` (SceneGraphNode.cpp:34-58).
Objects are told apart by their address: `nodes` gives the node stored at each address,
`thisAddr` is the address of `*this` and `moveAddr` the address of the argument. -/
def moveAssign (nodes : Nat → SceneGraphNode Mat Pivot) (h : Heap) (thisAddr moveAddr : Nat)
    (movedProperties : List (String × String)) (movedChildren : List Int) :
    (Nat → SceneGraphNode Mat Pivot) × Heap :=
  if moveAddr = thisAddr then
    (nodes, h)
  else
    let r := moveAssignFrom (nodes thisAddr) (nodes moveAddr) h movedProperties movedChildren
    (fun a => if a = thisAddr then r.1 else if a = moveAddr then r.2.1 else nodes a, r.2.2)

end SceneGraphNode

/-- Modelled from the spec: `core::StringMap<core::String>` (its header is missing), a
map from keys to strings, kept as the list of its entries. -/
abbrev StringMap := List (String × String)

namespace StringMap

/-- Modelled from the spec: `StringMap::get(key, value)`, which writes the value
stored for `key` to the out-parameter `value` and tells whether the key is present; an
absent key leaves `value` as it was ("returns the stored value or an empty value if
absent"). -/
def get (m : StringMap) (key : String) (value : String) : Bool × String :=
  match m with
  | [] => (false, value)
  | e :: rest => if e.1 = key then (true, e.2) else get rest key value

/-- Modelled from the spec: `StringMap::put(key, value)`, which stores `value` for
`key`, "later values overwriting earlier ones on key collision". -/
def put (m : StringMap) (key : String) (value : String) : StringMap :=
  match m with
  | [] => [(key, value)]
  | e :: rest => if e.1 = key then (key, value) :: rest else e :: put rest key value

/-- The keys of a map are pairwise different. -/
def UniqueKeys (m : StringMap) : Prop := (m.map Prod.fst).Nodup

instance (m : StringMap) : Decidable (UniqueKeys m) :=
  inferInstanceAs (Decidable (m.map Prod.fst).Nodup)

end StringMap

namespace SceneGraphNode

variable {Mat Pivot : Type}

/-- Modelled from the spec: `SceneGraphNode::setProperty(key, value)` (defined in the
missing SceneGraphNode.h) stores the value for the key in `_properties`. -/
def setProperty (n : SceneGraphNode Mat Pivot) (key value : String) : SceneGraphNode Mat Pivot :=
  { n with _properties := StringMap.put n._properties key value }

/-- Source: `SceneGraphNode::property` (SceneGraphNode.cpp:112-116), a `const` member
function: the node is not part of the result. -/
def property (n : SceneGraphNode Mat Pivot) (key : String) : String :=
  let value : String := ""
  (StringMap.get n._properties key value).2

/-- Source: `SceneGraphNode::addProperties` (SceneGraphNode.cpp:118-122); the entries
of `map` are visited in list order. -/
def addProperties (n : SceneGraphNode Mat Pivot) (map : StringMap) : SceneGraphNode Mat Pivot :=
  map.foldl (fun node entry => node.setProperty entry.1 entry.2) n

/-- A node owns a volume when a volume is bound and `_volumeOwned` is set. -/
def ownsVolume (n : SceneGraphNode Mat Pivot) : Bool :=
  n._volumeOwned && n._volume.isSome

/-- The spec's invariant: "a node with `_referencedNodeId != -1` must not
simultaneously own a Volume". -/
def ReferenceInvariant (n : SceneGraphNode Mat Pivot) : Prop :=
  n._referencedNodeId ≠ -1 → n.ownsVolume = false

instance (n : SceneGraphNode Mat Pivot) : Decidable n.ReferenceInvariant :=
  inferInstanceAs (Decidable (n._referencedNodeId ≠ -1 → n.ownsVolume = false))

end SceneGraphNode

/-- A node that refers to node 3 and has no volume, for the worked examples. -/
def scenarioReferenceNode : SceneGraphNode Unit Unit :=
  { _volume := none, _volumeOwned := false, _name := "reference", _id := 4, _parent := 0,
    _modelId := -1, _referencedNodeId := 3, _mat := (), _properties := [],
    _children := [], _type := SceneGraphNodeType.Other 2, _visible := true,
    _locked := false, _pivot := () }

/-- A store of nodes: the scenario node at address 1, the reference node elsewhere. -/
def scenarioNodes : Nat → SceneGraphNode Unit Unit :=
  fun a => if a = 1 then scenarioNode else scenarioReferenceNode

/-- A node bound to the volume at address 7 without owning it, for the worked
examples. -/
def scenarioAliasNode : SceneGraphNode Unit Unit :=
  { _volume := some 7, _volumeOwned := false, _name := "alias", _id := 5, _parent := 0,
    _modelId := 2, _referencedNodeId := 3, _mat := (), _properties := [],
    _children := [], _type := SceneGraphNodeType.Other 2, _visible := true,
    _locked := false, _pivot := () }

/-- The addresses that a step from the free store `h` to the free store `h1` handed to
`delete`. -/
def Heap.freedSince (h h1 : Heap) : List Nat := h1.freed.drop h.freed.length

/-! ### Sequences of sampler operations -/

/-- The operations that change the position of a sampler. -/
inductive SamplerOp where
  | setPosition (x y z : Int)
  | movePositiveX
  | movePositiveY
  | movePositiveZ
  | moveNegativeX
  | moveNegativeY
  | moveNegativeZ
deriving DecidableEq, Repr

/-- Run one positioning operation on a sampler. -/
def Sampler.applyOp (s : Sampler) : SamplerOp → Sampler
  | .setPosition x y z => s.setPosition x y z
  | .movePositiveX => s.movePositiveX
  | .movePositiveY => s.movePositiveY
  | .movePositiveZ => s.movePositiveZ
  | .moveNegativeX => s.moveNegativeX
  | .moveNegativeY => s.moveNegativeY
  | .moveNegativeZ => s.moveNegativeZ

/-- Run a sequence of positioning operations on a sampler, first to last. -/
def Sampler.runOps (s : Sampler) : List SamplerOp → Sampler
  | [] => s
  | op :: ops => (s.applyOp op).runOps ops

/-! ### The fast path of the peek operations, as the specification words it -/

namespace Sampler

/-- The guard of a peek's fast path in the words of the specification: the current
position is valid and, on each axis where the offset is not zero, the matching
`CAN_GO_*` test holds. -/
def fastPathGuard (s : Sampler) (dx dy dz : Int) : Bool :=
  s.isCurrentPositionValid
    && (if dx = -1 then s.CAN_GO_NEG_X s.mXPosInVolume
        else if dx = 1 then s.CAN_GO_POS_X s.mXPosInVolume else true)
    && (if dy = -1 then s.CAN_GO_NEG_Y s.mYPosInVolume
        else if dy = 1 then s.CAN_GO_POS_Y s.mYPosInVolume else true)
    && (if dz = -1 then s.CAN_GO_NEG_Z s.mZPosInVolume
        else if dz = 1 then s.CAN_GO_POS_Z s.mZPosInVolume else true)

/-- The cell that a peek's fast path dereferences, in the words of the specification:
the cached pointer moved by the fixed stride `dx + width*dy + width*height*dz`. -/
def fastPathIndex (s : Sampler) (dx dy dz : Int) : Int :=
  s.mCurrentVoxel + dx + s.mVolume.getWidth * dy + s.mVolume.getWidth * s.mVolume.getHeight * dz

/-- A peek in the words of the specification: the fast path when its guard holds, the
bounds-checked read at the offset position otherwise. -/
def peekBySpec (s : Sampler) (dx dy dz : Int) : Option Voxel :=
  if s.fastPathGuard dx dy dz then
    s.mVolume.load (s.fastPathIndex dx dy dz)
  else
    s.mVolume.getVoxel (s.mXPosInVolume + dx) (s.mYPosInVolume + dy) (s.mZPosInVolume + dz)

/-- The offsets of the peek operations on one axis. -/
def peekOffsets : List Int := [-1, 0, 1]

/-- Two sampler states with the same position, the same three validity flags, the same
`getVoxel()` and the same result of every peek operation. -/
def SameObservations (a b : Sampler) : Prop :=
  a.mXPosInVolume = b.mXPosInVolume ∧ a.mYPosInVolume = b.mYPosInVolume
    ∧ a.mZPosInVolume = b.mZPosInVolume
    ∧ a.m_bIsCurrentPositionValidInX = b.m_bIsCurrentPositionValidInX
    ∧ a.m_bIsCurrentPositionValidInY = b.m_bIsCurrentPositionValidInY
    ∧ a.m_bIsCurrentPositionValidInZ = b.m_bIsCurrentPositionValidInZ
    ∧ a.getVoxel = b.getVoxel
    ∧ ∀ dx ∈ peekOffsets, ∀ dy ∈ peekOffsets, ∀ dz ∈ peekOffsets,
        a.peekVoxel dx dy dz = b.peekVoxel dx dy dz

instance (a b : Sampler) : Decidable (a.SameObservations b) := by
  unfold SameObservations; infer_instance

end Sampler

end voxel

/-! ### Format descriptions (`src/modules/io/FormatDescription.cpp`)

`FormatDescription.h`, `core::String`, `core::string::extractExtension` and
`core::sort` are not among the embedded sources.  `FormatDescription::valid`,
`core::String::toLower`, `extractExtension` and `core::sort` are parameters of the
functions that call them; a `const FormatDescription *` is the list of the array cells
from the pointer on, and a loop that runs past the last cell gives `none`. -/

namespace io

/-- The data members of `io::FormatDescription` as FormatDescription.cpp uses them: the
name, the extensions, the function pointer `isA` (`none` is `nullptr`) and the flags. -/
structure FormatDescription where
  name : String
  exts : List String
  isA : Option Nat
  flags : Nat
deriving DecidableEq, Repr

/-- Source: the table of `io::format::images` (FormatDescription.cpp:15-29), with its
terminating entry. -/
def format.images : List FormatDescription :=
  [ ⟨"Portable Network Graphics", ["png"], none, 0⟩,
    ⟨"JPEG", ["jpeg", "jpg"], none, 0⟩,
    ⟨"Targa image file", ["tga"], none, 0⟩,
    ⟨"Bitmap", ["bmp"], none, 0⟩,
    ⟨"Photoshop", ["psd"], none, 0⟩,
    ⟨"Graphics Interchange Format", ["gif"], none, 0⟩,
    ⟨"Radiance rgbE", ["hdr"], none, 0⟩,
    ⟨"Softimage PIC", ["pic"], none, 0⟩,
    ⟨"Portable Anymap", ["pnm"], none, 0⟩,
    ⟨"", [], none, 0⟩ ]

namespace FormatDescription

/-- Source: `FormatDescription::matchesExtension` (FormatDescription.cpp:57-65). -/
def matchesExtension (toLower : String → String) (d : FormatDescription) (fileExt : String) :
    Bool :=
  let lowerExt := toLower fileExt
  d.exts.any fun ext => decide (lowerExt = ext)

/-- The order of `core::String::operator<` (its header is missing), taken as the
character by character order of the two texts. -/
def stringLess (a b : String) : Bool := decide (a.data < b.data)

/-- Source: `FormatDescription::operator<` (FormatDescription.cpp:67-69). -/
def less (d rhs : FormatDescription) : Bool := stringLess d.name rhs.name

/-- The loop of `FormatDescription::wildCard` (FormatDescription.cpp:73-78) from index
`i` on; `core::string::format("*.%s", ext)` is the text `*.` followed by `ext`. -/
def wildCardLoop : List String → Nat → String → String
  | [], _, pattern => pattern
  | ext :: rest, i, pattern =>
    wildCardLoop rest (i + 1) ((if i > 0 then pattern ++ "," else pattern) ++ ("*." ++ ext))

/-- Source: `FormatDescription::wildCard` (FormatDescription.cpp:71-80). -/
def wildCard (d : FormatDescription) : String := wildCardLoop d.exts 0 ""

end FormatDescription

/-- The loop of `io::isA` (FormatDescription.cpp:84-89). -/
def isALoop (valid : FormatDescription → Bool) (toLower : String → String) (ext : String) :
    List FormatDescription → Option Bool
  | [] => none
  | d :: rest =>
    if valid d then
      if d.matchesExtension toLower ext then some true else isALoop valid toLower ext rest
    else some false

/-- Source: `io::isA` (FormatDescription.cpp:82-90). -/
def isA (valid : FormatDescription → Bool) (toLower : String → String)
    (extractExtension : String → String) (file : String) (desc : List FormatDescription) :
    Option Bool :=
  isALoop valid toLower (toLower (extractExtension file)) desc

/-- The valid cells before the first cell that is not valid: what a loop
`for (; desc->valid(); ++desc)` visits. -/
def validCells (valid : FormatDescription → Bool) :
    List FormatDescription → Option (List FormatDescription)
  | [] => none
  | d :: rest => if valid d then (validCells valid rest).map (d :: ·) else some []

/-- The position that `core::String::find_first_of(" ")` returns: `none` is `npos`. -/
def find_first_of (s : String) (c : Char) : Option Nat :=
  if c ∈ s.data then some (s.data.takeWhile (· ≠ c)).length else none

/-- The text of `core::String::substr(pos, len)`. -/
def substr (s : String) (pos len : Nat) : String := String.mk ((s.data.drop pos).take len)

/-- Source: the first word of a name, as createGroupPatterns computes it
(FormatDescription.cpp:105-109). -/
def firstWord (name : String) : String :=
  match find_first_of name ' ' with
  | some iter => substr name 0 iter
  | none => name

/-- The extensions that the two nested loops of createGroupPatterns collect
(FormatDescription.cpp:112-117 and 127-132). -/
def collectExts : List FormatDescription → List String
  | [] => []
  | tmpDesc :: rest => tmpDesc.exts ++ collectExts rest

/-- Source: the block that createGroupPatterns runs on `temp` when the first word
changes and after the loop (FormatDescription.cpp:111-120 and 126-135). -/
def flushGroup (temp : List FormatDescription) (lastName : String)
    (groups : List FormatDescription) : List FormatDescription :=
  if temp.length ≥ 2 then
    groups ++ [{ name := lastName, exts := collectExts temp, isA := none, flags := 0 }]
  else groups

/-- The local variables of the second loop of createGroupPatterns and its output. -/
structure GroupState where
  temp : List FormatDescription
  lastName : String
  groups : List FormatDescription
deriving DecidableEq, Repr

/-- Source: one iteration of the second loop of createGroupPatterns
(FormatDescription.cpp:104-125). -/
def groupStep (st : GroupState) (desc : FormatDescription) : GroupState :=
  let word := firstWord desc.name
  if st.lastName ≠ word then
    { temp := [desc], lastName := word, groups := flushGroup st.temp st.lastName st.groups }
  else
    { st with temp := st.temp ++ [desc] }

/-- Source: `io::createGroupPatterns` (FormatDescription.cpp:96-136); the result is the
array `groups` afterwards. -/
def createGroupPatterns (valid : FormatDescription → Bool)
    (sort : List FormatDescription → List FormatDescription)
    (inputDesc : List FormatDescription) (groups : List FormatDescription) :
    Option (List FormatDescription) :=
  (validCells valid inputDesc).map fun cells =>
    let descs := sort cells
    let st := descs.foldl groupStep { temp := [], lastName := "", groups := groups }
    flushGroup st.temp st.lastName st.groups

/-- The loop of `io::convertToAllFilePattern` (FormatDescription.cpp:158-165); the
result is `j` and `pattern` after the loop. -/
def convertToAllFilePatternLoop (valid : FormatDescription → Bool) :
    List FormatDescription → Nat → String → Option (Nat × String)
  | [], _, _ => none
  | d :: rest, j, pattern =>
    if valid d then
      convertToAllFilePatternLoop valid rest (j + 1)
        ((if j > 0 then pattern ++ "," else pattern) ++ d.wildCard)
    else some (j, pattern)

/-- Source: `io::convertToAllFilePattern` (FormatDescription.cpp:155-167). -/
def convertToAllFilePattern (valid : FormatDescription → Bool)
    (desc : List FormatDescription) : Option String :=
  (convertToAllFilePatternLoop valid desc 0 "").map fun r => if r.1 > 1 then r.2 else ""

/-- The groups that the second loop of createGroupPatterns and the block after it
append, from the state `temp`, `lastName` on. -/
def newGroups (temp : List FormatDescription) (lastName : String) :
    List FormatDescription → List FormatDescription
  | [] => flushGroup temp lastName []
  | desc :: rest =>
    if lastName ≠ firstWord desc.name then
      flushGroup temp lastName [] ++ newGroups [desc] (firstWord desc.name) rest
    else newGroups (temp ++ [desc]) lastName rest

/-- A list of words in which equal words are next to each other: a word that is
followed by a different word does not occur again. -/
def adjacentRuns : List String → Bool
  | [] => true
  | w :: ws => (if ws.head? = some w then true else !ws.contains w) && adjacentRuns ws

/-- A description is valid when its name is not empty: the instance of
`FormatDescription::valid` used in the worked examples. -/
def nameNotEmpty (d : FormatDescription) : Bool := decide (d.name ≠ "")

/-- Insertion sort by `FormatDescription::operator<`: the instance of `core::sort` used
in the worked examples. -/
def sortByName (l : List FormatDescription) : List FormatDescription :=
  l.insertionSort fun a b => !(b.less a)

/-- The lower case of a text, letter by letter: the instance of
`core::String::toLower` used in the worked examples. -/
def lowerCase (s : String) : String := String.mk (s.data.map Char.toLower)

/-- The text after the last dot of a file name: the instance of `extractExtension`
used in the worked examples. -/
def extensionAfterDot (file : String) : String :=
  if '.' ∈ file.data then String.mk (file.data.reverse.takeWhile (· ≠ '.')).reverse else ""

/-! ### Files (`src/modules/core/io/File.cpp`)

`File.h`, the enumeration `FileMode` and the SDL library are not among the embedded
sources.  A `std::string` is the list of its `char`s.  `FileMode` and `SDL_RWops` are
type parameters of `File`; the enumerator `FileMode::Write` and the library call
`SDL_RWFromFile` are parameters of the functions that use them.  A pointer that may be
`nullptr` is an `Option`, and log output is left out. -/

/-- The position that `std::string::rfind(c)` returns: the largest index at which `c`
occurs; `none` is `npos`. -/
def rfind : List Char → Char → Option Nat
  | [], _ => none
  | a :: s, c =>
    match rfind s c with
    | some pos => some (pos + 1)
    | none => if a = c then some 0 else none

/-- The characters that `std::string::c_str()` shows to a C function: those before the
first NUL. -/
def c_str (s : List Char) : List Char := s.takeWhile (· ≠ Char.ofNat 0)

/-- The C library function `strrchr` under its SDL name, for a `c` other than NUL: the
offset of the last occurrence of `c` in the C string; `none` is `NULL`. -/
def SDL_strrchr (str : List Char) (c : Char) : Option Nat := rfind str c

/-- The conversion of an `int` to `bool` that a `return` of an `int` in a function
returning `bool` performs: zero is `false`, every other value is `true`. -/
def boolOfInt (i : Int) : Bool := i != 0

/-- The data members of `io::File` as File.cpp uses them: the raw path, the mode and the
handle (`none` is `nullptr`). -/
structure File (FileMode SDL_RWops : Type) where
  _rawPath : List Char
  _mode : FileMode
  _file : Option SDL_RWops
deriving DecidableEq, Repr

/-- Source: `File::name` (File.cpp:43-45). -/
def File.name {FileMode SDL_RWops : Type} (f : File FileMode SDL_RWops) : List Char :=
  f._rawPath

/-- Source: `File::path` (File.cpp:99-106); `substr(0, pos)` is `take pos`. -/
def File.path {FileMode SDL_RWops : Type} (f : File FileMode SDL_RWops) : List Char :=
  match rfind f.name '/' with
  | none => []
  | some pos => f.name.take pos

/-- Source: `File::fileName` (File.cpp:108-119); `substr(pathPos + 1)` is
`drop (pathPos + 1)`. -/
def File.fileName {FileMode SDL_RWops : Type} (f : File FileMode SDL_RWops) : List Char :=
  let name := f.name
  let name :=
    match rfind name '/' with
    | some pathPos => name.drop (pathPos + 1)
    | none => name
  match rfind name '.' with
  | some extPos => name.take extPos
  | none => name

/-- Source: `File::extension` (File.cpp:121-128); `ext` is the offset into the C string
of the name, and `std::string(ext)` after `++ext` is the rest of that C string. -/
def File.extension {FileMode SDL_RWops : Type} (f : File FileMode SDL_RWops) : List Char :=
  match SDL_strrchr (c_str f.name) '.' with
  | none => []
  | some ext => (c_str f.name).drop (ext + 1)

/-- Source: `File::createRWops` (File.cpp:58-68). -/
def File.createRWops {FileMode SDL_RWops : Type} [DecidableEq FileMode]
    (SDL_RWFromFile : List Char → List Char → Option SDL_RWops) (Write : FileMode)
    (f : File FileMode SDL_RWops) (mode : FileMode) : Option SDL_RWops :=
  let fmode := if mode = Write then "wb".toList else "rb".toList
  SDL_RWFromFile (c_str f._rawPath) fmode

/-- Source: `File::open` (File.cpp:212-220): the returned `bool` and the file after the
call.  The first `return` is `return -1;`. -/
def File.open {FileMode SDL_RWops : Type} [DecidableEq FileMode]
    (SDL_RWFromFile : List Char → List Char → Option SDL_RWops) (Write : FileMode)
    (f : File FileMode SDL_RWops) (mode : FileMode) : Bool × File FileMode SDL_RWops :=
  if f._file.isSome then (boolOfInt (-1), f)
  else
    let f1 := { f with _mode := mode }
    let f2 := { f1 with _file := f1.createRWops SDL_RWFromFile Write mode }
    (f2._file.isSome, f2)

/-- The text after the last occurrence of `c`; `none` when `c` does not occur. -/
def afterLast (c : Char) : List Char → Option (List Char)
  | [] => none
  | a :: s =>
    match afterLast c s with
    | some t => some t
    | none => if a = c then some s else none

/-- The last path component of a name, as the specification words it: the part after
the last '/', the whole name when it has none. -/
def lastComponent (name : List Char) : List Char := (afterLast '/' name).getD name

/-- The extension of a name, as the specification words it: the text after the last '.'
of the last path component, empty when that component has no '.'. -/
def extensionOfLastComponent (name : List Char) : List Char :=
  (afterLast '.' (lastComponent name)).getD []

/-- A closed file in mode 0 with the given path: the file of the worked examples, with
numbers for the modes (1 is `FileMode::Write`) and for the handles. -/
def exampleFile (path : String) : File Nat Nat := ⟨path.toList, 0, none⟩

/-- An instance of `SDL_RWFromFile` for the worked examples: every path can be opened,
and the handle is the length of the path. -/
def openAnyFile (file _fmode : List Char) : Option Nat := some file.length

end io

/-! ### Affine matrices (`src/modules/core/GLM.h`)

The GLM library is not among the embedded sources.  Of it the embedding has the vectors
`vec3` and `vec4`, the product of a `vec4` with a scalar and the sum of two `vec4`, both
component by component, and `mat3x4` as GLM stores it: three `vec4`, read by
`operator[]` and by `glm::column`.  The scalar type is a parameter; the statements are
about a commutative ring, not about `float`. -/

namespace glm

/-- The components of `glm::vec3`. -/
structure vec3 (T : Type) where
  x : T
  y : T
  z : T
deriving DecidableEq, Repr

/-- The components of `glm::vec4`. -/
structure vec4 (T : Type) where
  x : T
  y : T
  z : T
  w : T
deriving DecidableEq, Repr

/-- The product of a `vec4` with a scalar, component by component. -/
instance {T : Type} [Mul T] : HMul (vec4 T) T (vec4 T) :=
  ⟨fun v s => ⟨v.x * s, v.y * s, v.z * s, v.w * s⟩⟩

/-- The sum of two `vec4`, component by component. -/
instance {T : Type} [Add T] : Add (vec4 T) :=
  ⟨fun a b => ⟨a.x + b.x, a.y + b.y, a.z + b.z, a.w + b.w⟩⟩

/-- The member `col_type value[3]` of `glm::mat3x4`. -/
structure mat3x4 (T : Type) where
  value : Fin 3 → vec4 T

/-- The constructor `mat3x4(c1, c2, c3)` from three `vec4`. -/
def mat3x4.mk3 {T : Type} (c1 c2 c3 : vec4 T) : mat3x4 T := ⟨![c1, c2, c3]⟩

/-- The access `m[i]` of `glm::mat3x4`. -/
def mat3x4.get {T : Type} (m : mat3x4 T) (i : Fin 3) : vec4 T := m.value i

/-- The library function `glm::column(m, index)`, which returns `m[index]`. -/
def column {T : Type} (m : mat3x4 T) (index : Fin 3) : vec4 T := m.get index

/-- Source: `glm::transform(const mat3x4&, const glm::vec3&)` (GLM.h:118-126). -/
def transform {T : Type} [Mul T] [Add T] (mat : mat3x4 T) (v : vec3 T) : vec3 T :=
  let c1 := column mat 0
  let c2 := column mat 1
  let c3 := column mat 2
  let r : vec3 T :=
    ⟨c1.x * v.x + c1.y * v.y + c1.z * v.z + c1.w,
     c2.x * v.x + c2.y * v.y + c2.z * v.z + c2.w,
     c3.x * v.x + c3.y * v.y + c3.z * v.z + c3.w⟩
  r

/-- Source: `glm::operator*(const mat3x4&, const mat3x4&)` (GLM.h:155-163). -/
def mat3x4.mul {T : Type} [Mul T] [Add T] (lhs o : mat3x4 T) : mat3x4 T :=
  let c1 := o.get 0 * (lhs.get 0).x + o.get 1 * (lhs.get 0).y + o.get 2 * (lhs.get 0).z
  let c1 := { c1 with w := c1.w + (lhs.get 0).w }
  let c2 := o.get 0 * (lhs.get 1).x + o.get 1 * (lhs.get 1).y + o.get 2 * (lhs.get 1).z
  let c2 := { c2 with w := c2.w + (lhs.get 1).w }
  let c3 := o.get 0 * (lhs.get 2).x + o.get 1 * (lhs.get 2).y + o.get 2 * (lhs.get 2).z
  let c3 := { c3 with w := c3.w + (lhs.get 2).w }
  mat3x4.mk3 c1 c2 c3

/-- The product sign for `mat3x4.mul`. -/
instance {T : Type} [Mul T] [Add T] : Mul (mat3x4 T) := ⟨mat3x4.mul⟩

/-- A matrix of the worked examples: it sends `(x, y, z)` to
`(x + 2y + 3z + 4, y + 5, 2x + z + 6)`. -/
def exampleA : mat3x4 Int := mat3x4.mk3 ⟨1, 2, 3, 4⟩ ⟨0, 1, 0, 5⟩ ⟨2, 0, 1, 6⟩

/-- A matrix of the worked examples: it sends `(x, y, z)` to `(y + 1, x + 2, 2z + 3)`. -/
def exampleB : mat3x4 Int := mat3x4.mk3 ⟨0, 1, 0, 1⟩ ⟨1, 0, 0, 2⟩ ⟨0, 0, 2, 3⟩

end glm

namespace voxel

/-! # Theorems -/

/-! ## Region and index arithmetic -/

theorem Region.containsPoint_iff (r : Region) (x y z : Int) :
    r.containsPoint x y z = true ↔
      (r.m_iLowerX ≤ x ∧ x ≤ r.m_iUpperX) ∧ (r.m_iLowerY ≤ y ∧ y ≤ r.m_iUpperY)
        ∧ (r.m_iLowerZ ≤ z ∧ z ≤ r.m_iUpperZ) := by
  simp [Region.containsPoint, Region.containsPointInX, Region.containsPointInY,
    Region.containsPointInZ, Region.getLowerX, Region.getLowerY, Region.getLowerZ,
    Region.getUpperX, Region.getUpperY, Region.getUpperZ, and_assoc]

theorem RawVolume.getVoxel_of_contains (v : RawVolume) (x y z : Int)
    (h : v.m_regValidRegion.containsPoint x y z = true) :
    v.getVoxel x y z = v.load (v.voxelIndex x y z) := by
  simp [RawVolume.getVoxel, h]

theorem RawVolume.getVoxel_of_not_contains (v : RawVolume) (x y z : Int)
    (h : v.m_regValidRegion.containsPoint x y z = false) :
    v.getVoxel x y z = some v.m_tBorderValue := by
  simp [RawVolume.getVoxel, h]

/-- A point inside the region has its index inside `[0, width*height*depth)`. -/
theorem RawVolume.voxelIndex_bounds (v : RawVolume) (x y z : Int)
    (h : v.m_regValidRegion.containsPoint x y z = true) :
    0 ≤ v.voxelIndex x y z ∧ v.voxelIndex x y z < v.getWidth * v.getHeight * v.getDepth := by
  rw [Region.containsPoint_iff] at h
  obtain ⟨⟨hx1, hx2⟩, ⟨hy1, hy2⟩, ⟨hz1, hz2⟩⟩ := h
  simp only [RawVolume.voxelIndex, RawVolume.getWidth, RawVolume.getHeight, RawVolume.getDepth,
    Region.getWidthInVoxels, Region.getHeightInVoxels, Region.getDepthInVoxels,
    Region.getLowerX, Region.getLowerY, Region.getLowerZ,
    Region.getUpperX, Region.getUpperY, Region.getUpperZ]
  generalize hW : v.m_regValidRegion.m_iUpperX - v.m_regValidRegion.m_iLowerX + 1 = W
  generalize hH : v.m_regValidRegion.m_iUpperY - v.m_regValidRegion.m_iLowerY + 1 = H
  generalize hD : v.m_regValidRegion.m_iUpperZ - v.m_regValidRegion.m_iLowerZ + 1 = D
  generalize ha : x - v.m_regValidRegion.m_iLowerX = a
  generalize hb : y - v.m_regValidRegion.m_iLowerY = b
  generalize hc : z - v.m_regValidRegion.m_iLowerZ = c
  have ha0 : 0 ≤ a := by omega
  have ha1 : a + 1 ≤ W := by omega
  have hb0 : 0 ≤ b := by omega
  have hb1 : b + 1 ≤ H := by omega
  have hc0 : 0 ≤ c := by omega
  have hc1 : c + 1 ≤ D := by omega
  have hW0 : 0 ≤ W := by omega
  have hH0 : 0 ≤ H := by omega
  have hWb : 0 ≤ W * b := mul_nonneg hW0 hb0
  have hWH : 0 ≤ W * H := mul_nonneg hW0 hH0
  have hWHc : 0 ≤ W * H * c := mul_nonneg hWH hc0
  have h1 : W * (b + 1) ≤ W * H := mul_le_mul_of_nonneg_left hb1 hW0
  have h2 : W * H * (c + 1) ≤ W * H * D := mul_le_mul_of_nonneg_left hc1 hWH
  constructor
  · linarith
  · nlinarith

/-- In a well-formed volume the cell of every point inside the region is in the buffer. -/
theorem RawVolume.load_voxelIndex_isSome (v : RawVolume) (hwf : v.WellFormed) (x y z : Int)
    (h : v.m_regValidRegion.containsPoint x y z = true) :
    ∃ val, v.load (v.voxelIndex x y z) = some val
      ∧ v.m_pData[(v.voxelIndex x y z).toNat]? = some val := by
  obtain ⟨h0, h1⟩ := v.voxelIndex_bounds x y z h
  unfold RawVolume.WellFormed at hwf
  have hlt : (v.voxelIndex x y z).toNat < v.m_pData.length := by omega
  refine ⟨v.m_pData[(v.voxelIndex x y z).toNat], ?_, ?_⟩
  · simp [RawVolume.load, h0, List.getElem?_eq_getElem hlt]
  · simp [List.getElem?_eq_getElem hlt]

theorem RawVolume.voxelIndex_shift (v : RawVolume) (x y z dx dy dz : Int) :
    v.voxelIndex (x + dx) (y + dy) (z + dz)
      = v.voxelIndex x y z + dx + v.getWidth * dy + v.getWidth * v.getHeight * dz := by
  unfold RawVolume.voxelIndex
  ring

/-! ## The sampler after `setPosition` -/

/-- The sampler state that `setPosition` produces at a point inside the region. -/
theorem Sampler.setPosition_inside (s : Sampler) (x y z : Int)
    (h : s.mVolume.m_regValidRegion.containsPoint x y z = true) :
    s.setPosition x y z =
      { mVolume := s.mVolume, mXPosInVolume := x, mYPosInVolume := y, mZPosInVolume := z,
        mCurrentVoxel := s.mVolume.voxelIndex x y z,
        m_bIsCurrentPositionValidInX := true, m_bIsCurrentPositionValidInY := true,
        m_bIsCurrentPositionValidInZ := true } := by
  have h2 := h
  simp only [Region.containsPoint, Bool.and_eq_true] at h2
  obtain ⟨⟨hx, hy⟩, hz⟩ := h2
  simp [Sampler.setPosition, RawVolume.getEnclosingRegion, hx, hy, hz]

/-- A read through a pointer that designates the cell of an in-range point is the
bounds-checked read of that point. -/
theorem RawVolume.load_eq_getVoxel (v : RawVolume) (x y z p : Int)
    (hc : v.m_regValidRegion.containsPoint x y z = true)
    (hp : p = v.voxelIndex x y z) :
    v.load p = v.getVoxel x y z := by
  rw [RawVolume.getVoxel_of_contains v _ _ _ hc, hp]


theorem Sampler.peekVoxel1nx1ny1nz_setPosition (s : Sampler) (x y z : Int)
    (h : s.mVolume.m_regValidRegion.containsPoint x y z = true) :
    (s.setPosition x y z).peekVoxel1nx1ny1nz
      = s.mVolume.getVoxel (x + (-1)) (y + (-1)) (z + (-1)) := by
  rw [Sampler.setPosition_inside s x y z h]
  have hb := (Region.containsPoint_iff _ _ _ _).1 h
  simp only [Sampler.peekVoxel1nx1ny1nz, Sampler.isCurrentPositionValid, Sampler.CAN_GO_NEG_X,
    Sampler.CAN_GO_NEG_Y, Sampler.CAN_GO_NEG_Z, Sampler.CAN_GO_POS_X,
    Sampler.CAN_GO_POS_Y, Sampler.CAN_GO_POS_Z, RawVolume.getEnclosingRegion,
    Region.getLowerX, Region.getLowerY, Region.getLowerZ,
    Region.getUpperX, Region.getUpperY, Region.getUpperZ, Bool.and_eq_true, Bool.true_and,
    Bool.and_self, decide_eq_true_eq, gt_iff_lt, Int.sub_eq_add_neg, Int.add_zero]
  split
  · apply RawVolume.load_eq_getVoxel
    · rw [Region.containsPoint_iff]; omega
    · unfold RawVolume.voxelIndex; ring
  · rfl


theorem Sampler.peekVoxel1nx1ny0pz_setPosition (s : Sampler) (x y z : Int)
    (h : s.mVolume.m_regValidRegion.containsPoint x y z = true) :
    (s.setPosition x y z).peekVoxel1nx1ny0pz
      = s.mVolume.getVoxel (x + (-1)) (y + (-1)) (z + 0) := by
  rw [Sampler.setPosition_inside s x y z h]
  have hb := (Region.containsPoint_iff _ _ _ _).1 h
  simp only [Sampler.peekVoxel1nx1ny0pz, Sampler.isCurrentPositionValid, Sampler.CAN_GO_NEG_X,
    Sampler.CAN_GO_NEG_Y, Sampler.CAN_GO_NEG_Z, Sampler.CAN_GO_POS_X,
    Sampler.CAN_GO_POS_Y, Sampler.CAN_GO_POS_Z, RawVolume.getEnclosingRegion,
    Region.getLowerX, Region.getLowerY, Region.getLowerZ,
    Region.getUpperX, Region.getUpperY, Region.getUpperZ, Bool.and_eq_true, Bool.true_and,
    Bool.and_self, decide_eq_true_eq, gt_iff_lt, Int.sub_eq_add_neg, Int.add_zero]
  split
  · apply RawVolume.load_eq_getVoxel
    · rw [Region.containsPoint_iff]; omega
    · unfold RawVolume.voxelIndex; ring
  · rfl


theorem Sampler.peekVoxel1nx1ny1pz_setPosition (s : Sampler) (x y z : Int)
    (h : s.mVolume.m_regValidRegion.containsPoint x y z = true) :
    (s.setPosition x y z).peekVoxel1nx1ny1pz
      = s.mVolume.getVoxel (x + (-1)) (y + (-1)) (z + 1) := by
  rw [Sampler.setPosition_inside s x y z h]
  have hb := (Region.containsPoint_iff _ _ _ _).1 h
  simp only [Sampler.peekVoxel1nx1ny1pz, Sampler.isCurrentPositionValid, Sampler.CAN_GO_NEG_X,
    Sampler.CAN_GO_NEG_Y, Sampler.CAN_GO_NEG_Z, Sampler.CAN_GO_POS_X,
    Sampler.CAN_GO_POS_Y, Sampler.CAN_GO_POS_Z, RawVolume.getEnclosingRegion,
    Region.getLowerX, Region.getLowerY, Region.getLowerZ,
    Region.getUpperX, Region.getUpperY, Region.getUpperZ, Bool.and_eq_true, Bool.true_and,
    Bool.and_self, decide_eq_true_eq, gt_iff_lt, Int.sub_eq_add_neg, Int.add_zero]
  split
  · apply RawVolume.load_eq_getVoxel
    · rw [Region.containsPoint_iff]; omega
    · unfold RawVolume.voxelIndex; ring
  · rfl


theorem Sampler.peekVoxel1nx0py1nz_setPosition (s : Sampler) (x y z : Int)
    (h : s.mVolume.m_regValidRegion.containsPoint x y z = true) :
    (s.setPosition x y z).peekVoxel1nx0py1nz
      = s.mVolume.getVoxel (x + (-1)) (y + 0) (z + (-1)) := by
  rw [Sampler.setPosition_inside s x y z h]
  have hb := (Region.containsPoint_iff _ _ _ _).1 h
  simp only [Sampler.peekVoxel1nx0py1nz, Sampler.isCurrentPositionValid, Sampler.CAN_GO_NEG_X,
    Sampler.CAN_GO_NEG_Y, Sampler.CAN_GO_NEG_Z, Sampler.CAN_GO_POS_X,
    Sampler.CAN_GO_POS_Y, Sampler.CAN_GO_POS_Z, RawVolume.getEnclosingRegion,
    Region.getLowerX, Region.getLowerY, Region.getLowerZ,
    Region.getUpperX, Region.getUpperY, Region.getUpperZ, Bool.and_eq_true, Bool.true_and,
    Bool.and_self, decide_eq_true_eq, gt_iff_lt, Int.sub_eq_add_neg, Int.add_zero]
  split
  · apply RawVolume.load_eq_getVoxel
    · rw [Region.containsPoint_iff]; omega
    · unfold RawVolume.voxelIndex; ring
  · rfl


theorem Sampler.peekVoxel1nx0py0pz_setPosition (s : Sampler) (x y z : Int)
    (h : s.mVolume.m_regValidRegion.containsPoint x y z = true) :
    (s.setPosition x y z).peekVoxel1nx0py0pz
      = s.mVolume.getVoxel (x + (-1)) (y + 0) (z + 0) := by
  rw [Sampler.setPosition_inside s x y z h]
  have hb := (Region.containsPoint_iff _ _ _ _).1 h
  simp only [Sampler.peekVoxel1nx0py0pz, Sampler.isCurrentPositionValid, Sampler.CAN_GO_NEG_X,
    Sampler.CAN_GO_NEG_Y, Sampler.CAN_GO_NEG_Z, Sampler.CAN_GO_POS_X,
    Sampler.CAN_GO_POS_Y, Sampler.CAN_GO_POS_Z, RawVolume.getEnclosingRegion,
    Region.getLowerX, Region.getLowerY, Region.getLowerZ,
    Region.getUpperX, Region.getUpperY, Region.getUpperZ, Bool.and_eq_true, Bool.true_and,
    Bool.and_self, decide_eq_true_eq, gt_iff_lt, Int.sub_eq_add_neg, Int.add_zero]
  split
  · apply RawVolume.load_eq_getVoxel
    · rw [Region.containsPoint_iff]; omega
    · unfold RawVolume.voxelIndex; ring
  · rfl


theorem Sampler.peekVoxel1nx0py1pz_setPosition (s : Sampler) (x y z : Int)
    (h : s.mVolume.m_regValidRegion.containsPoint x y z = true) :
    (s.setPosition x y z).peekVoxel1nx0py1pz
      = s.mVolume.getVoxel (x + (-1)) (y + 0) (z + 1) := by
  rw [Sampler.setPosition_inside s x y z h]
  have hb := (Region.containsPoint_iff _ _ _ _).1 h
  simp only [Sampler.peekVoxel1nx0py1pz, Sampler.isCurrentPositionValid, Sampler.CAN_GO_NEG_X,
    Sampler.CAN_GO_NEG_Y, Sampler.CAN_GO_NEG_Z, Sampler.CAN_GO_POS_X,
    Sampler.CAN_GO_POS_Y, Sampler.CAN_GO_POS_Z, RawVolume.getEnclosingRegion,
    Region.getLowerX, Region.getLowerY, Region.getLowerZ,
    Region.getUpperX, Region.getUpperY, Region.getUpperZ, Bool.and_eq_true, Bool.true_and,
    Bool.and_self, decide_eq_true_eq, gt_iff_lt, Int.sub_eq_add_neg, Int.add_zero]
  split
  · apply RawVolume.load_eq_getVoxel
    · rw [Region.containsPoint_iff]; omega
    · unfold RawVolume.voxelIndex; ring
  · rfl


theorem Sampler.peekVoxel1nx1py1nz_setPosition (s : Sampler) (x y z : Int)
    (h : s.mVolume.m_regValidRegion.containsPoint x y z = true) :
    (s.setPosition x y z).peekVoxel1nx1py1nz
      = s.mVolume.getVoxel (x + (-1)) (y + 1) (z + (-1)) := by
  rw [Sampler.setPosition_inside s x y z h]
  have hb := (Region.containsPoint_iff _ _ _ _).1 h
  simp only [Sampler.peekVoxel1nx1py1nz, Sampler.isCurrentPositionValid, Sampler.CAN_GO_NEG_X,
    Sampler.CAN_GO_NEG_Y, Sampler.CAN_GO_NEG_Z, Sampler.CAN_GO_POS_X,
    Sampler.CAN_GO_POS_Y, Sampler.CAN_GO_POS_Z, RawVolume.getEnclosingRegion,
    Region.getLowerX, Region.getLowerY, Region.getLowerZ,
    Region.getUpperX, Region.getUpperY, Region.getUpperZ, Bool.and_eq_true, Bool.true_and,
    Bool.and_self, decide_eq_true_eq, gt_iff_lt, Int.sub_eq_add_neg, Int.add_zero]
  split
  · apply RawVolume.load_eq_getVoxel
    · rw [Region.containsPoint_iff]; omega
    · unfold RawVolume.voxelIndex; ring
  · rfl


theorem Sampler.peekVoxel1nx1py0pz_setPosition (s : Sampler) (x y z : Int)
    (h : s.mVolume.m_regValidRegion.containsPoint x y z = true) :
    (s.setPosition x y z).peekVoxel1nx1py0pz
      = s.mVolume.getVoxel (x + (-1)) (y + 1) (z + 0) := by
  rw [Sampler.setPosition_inside s x y z h]
  have hb := (Region.containsPoint_iff _ _ _ _).1 h
  simp only [Sampler.peekVoxel1nx1py0pz, Sampler.isCurrentPositionValid, Sampler.CAN_GO_NEG_X,
    Sampler.CAN_GO_NEG_Y, Sampler.CAN_GO_NEG_Z, Sampler.CAN_GO_POS_X,
    Sampler.CAN_GO_POS_Y, Sampler.CAN_GO_POS_Z, RawVolume.getEnclosingRegion,
    Region.getLowerX, Region.getLowerY, Region.getLowerZ,
    Region.getUpperX, Region.getUpperY, Region.getUpperZ, Bool.and_eq_true, Bool.true_and,
    Bool.and_self, decide_eq_true_eq, gt_iff_lt, Int.sub_eq_add_neg, Int.add_zero]
  split
  · apply RawVolume.load_eq_getVoxel
    · rw [Region.containsPoint_iff]; omega
    · unfold RawVolume.voxelIndex; ring
  · rfl


theorem Sampler.peekVoxel1nx1py1pz_setPosition (s : Sampler) (x y z : Int)
    (h : s.mVolume.m_regValidRegion.containsPoint x y z = true) :
    (s.setPosition x y z).peekVoxel1nx1py1pz
      = s.mVolume.getVoxel (x + (-1)) (y + 1) (z + 1) := by
  rw [Sampler.setPosition_inside s x y z h]
  have hb := (Region.containsPoint_iff _ _ _ _).1 h
  simp only [Sampler.peekVoxel1nx1py1pz, Sampler.isCurrentPositionValid, Sampler.CAN_GO_NEG_X,
    Sampler.CAN_GO_NEG_Y, Sampler.CAN_GO_NEG_Z, Sampler.CAN_GO_POS_X,
    Sampler.CAN_GO_POS_Y, Sampler.CAN_GO_POS_Z, RawVolume.getEnclosingRegion,
    Region.getLowerX, Region.getLowerY, Region.getLowerZ,
    Region.getUpperX, Region.getUpperY, Region.getUpperZ, Bool.and_eq_true, Bool.true_and,
    Bool.and_self, decide_eq_true_eq, gt_iff_lt, Int.sub_eq_add_neg, Int.add_zero]
  split
  · apply RawVolume.load_eq_getVoxel
    · rw [Region.containsPoint_iff]; omega
    · unfold RawVolume.voxelIndex; ring
  · rfl


theorem Sampler.peekVoxel0px1ny1nz_setPosition (s : Sampler) (x y z : Int)
    (h : s.mVolume.m_regValidRegion.containsPoint x y z = true) :
    (s.setPosition x y z).peekVoxel0px1ny1nz
      = s.mVolume.getVoxel (x + 0) (y + (-1)) (z + (-1)) := by
  rw [Sampler.setPosition_inside s x y z h]
  have hb := (Region.containsPoint_iff _ _ _ _).1 h
  simp only [Sampler.peekVoxel0px1ny1nz, Sampler.isCurrentPositionValid, Sampler.CAN_GO_NEG_X,
    Sampler.CAN_GO_NEG_Y, Sampler.CAN_GO_NEG_Z, Sampler.CAN_GO_POS_X,
    Sampler.CAN_GO_POS_Y, Sampler.CAN_GO_POS_Z, RawVolume.getEnclosingRegion,
    Region.getLowerX, Region.getLowerY, Region.getLowerZ,
    Region.getUpperX, Region.getUpperY, Region.getUpperZ, Bool.and_eq_true, Bool.true_and,
    Bool.and_self, decide_eq_true_eq, gt_iff_lt, Int.sub_eq_add_neg, Int.add_zero]
  split
  · apply RawVolume.load_eq_getVoxel
    · rw [Region.containsPoint_iff]; omega
    · unfold RawVolume.voxelIndex; ring
  · rfl


theorem Sampler.peekVoxel0px1ny0pz_setPosition (s : Sampler) (x y z : Int)
    (h : s.mVolume.m_regValidRegion.containsPoint x y z = true) :
    (s.setPosition x y z).peekVoxel0px1ny0pz
      = s.mVolume.getVoxel (x + 0) (y + (-1)) (z + 0) := by
  rw [Sampler.setPosition_inside s x y z h]
  have hb := (Region.containsPoint_iff _ _ _ _).1 h
  simp only [Sampler.peekVoxel0px1ny0pz, Sampler.isCurrentPositionValid, Sampler.CAN_GO_NEG_X,
    Sampler.CAN_GO_NEG_Y, Sampler.CAN_GO_NEG_Z, Sampler.CAN_GO_POS_X,
    Sampler.CAN_GO_POS_Y, Sampler.CAN_GO_POS_Z, RawVolume.getEnclosingRegion,
    Region.getLowerX, Region.getLowerY, Region.getLowerZ,
    Region.getUpperX, Region.getUpperY, Region.getUpperZ, Bool.and_eq_true, Bool.true_and,
    Bool.and_self, decide_eq_true_eq, gt_iff_lt, Int.sub_eq_add_neg, Int.add_zero]
  split
  · apply RawVolume.load_eq_getVoxel
    · rw [Region.containsPoint_iff]; omega
    · unfold RawVolume.voxelIndex; ring
  · rfl


theorem Sampler.peekVoxel0px1ny1pz_setPosition (s : Sampler) (x y z : Int)
    (h : s.mVolume.m_regValidRegion.containsPoint x y z = true) :
    (s.setPosition x y z).peekVoxel0px1ny1pz
      = s.mVolume.getVoxel (x + 0) (y + (-1)) (z + 1) := by
  rw [Sampler.setPosition_inside s x y z h]
  have hb := (Region.containsPoint_iff _ _ _ _).1 h
  simp only [Sampler.peekVoxel0px1ny1pz, Sampler.isCurrentPositionValid, Sampler.CAN_GO_NEG_X,
    Sampler.CAN_GO_NEG_Y, Sampler.CAN_GO_NEG_Z, Sampler.CAN_GO_POS_X,
    Sampler.CAN_GO_POS_Y, Sampler.CAN_GO_POS_Z, RawVolume.getEnclosingRegion,
    Region.getLowerX, Region.getLowerY, Region.getLowerZ,
    Region.getUpperX, Region.getUpperY, Region.getUpperZ, Bool.and_eq_true, Bool.true_and,
    Bool.and_self, decide_eq_true_eq, gt_iff_lt, Int.sub_eq_add_neg, Int.add_zero]
  split
  · apply RawVolume.load_eq_getVoxel
    · rw [Region.containsPoint_iff]; omega
    · unfold RawVolume.voxelIndex; ring
  · rfl


theorem Sampler.peekVoxel0px0py1nz_setPosition (s : Sampler) (x y z : Int)
    (h : s.mVolume.m_regValidRegion.containsPoint x y z = true) :
    (s.setPosition x y z).peekVoxel0px0py1nz
      = s.mVolume.getVoxel (x + 0) (y + 0) (z + (-1)) := by
  rw [Sampler.setPosition_inside s x y z h]
  have hb := (Region.containsPoint_iff _ _ _ _).1 h
  simp only [Sampler.peekVoxel0px0py1nz, Sampler.isCurrentPositionValid, Sampler.CAN_GO_NEG_X,
    Sampler.CAN_GO_NEG_Y, Sampler.CAN_GO_NEG_Z, Sampler.CAN_GO_POS_X,
    Sampler.CAN_GO_POS_Y, Sampler.CAN_GO_POS_Z, RawVolume.getEnclosingRegion,
    Region.getLowerX, Region.getLowerY, Region.getLowerZ,
    Region.getUpperX, Region.getUpperY, Region.getUpperZ, Bool.and_eq_true, Bool.true_and,
    Bool.and_self, decide_eq_true_eq, gt_iff_lt, Int.sub_eq_add_neg, Int.add_zero]
  split
  · apply RawVolume.load_eq_getVoxel
    · rw [Region.containsPoint_iff]; omega
    · unfold RawVolume.voxelIndex; ring
  · rfl


theorem Sampler.peekVoxel0px0py0pz_setPosition (s : Sampler) (x y z : Int)
    (h : s.mVolume.m_regValidRegion.containsPoint x y z = true) :
    (s.setPosition x y z).peekVoxel0px0py0pz
      = s.mVolume.getVoxel (x + 0) (y + 0) (z + 0) := by
  rw [Sampler.setPosition_inside s x y z h]
  have hb := (Region.containsPoint_iff _ _ _ _).1 h
  simp only [Sampler.peekVoxel0px0py0pz, Sampler.isCurrentPositionValid, Sampler.CAN_GO_NEG_X,
    Sampler.CAN_GO_NEG_Y, Sampler.CAN_GO_NEG_Z, Sampler.CAN_GO_POS_X,
    Sampler.CAN_GO_POS_Y, Sampler.CAN_GO_POS_Z, RawVolume.getEnclosingRegion,
    Region.getLowerX, Region.getLowerY, Region.getLowerZ,
    Region.getUpperX, Region.getUpperY, Region.getUpperZ, Bool.and_eq_true, Bool.true_and,
    Bool.and_self, decide_eq_true_eq, gt_iff_lt, Int.sub_eq_add_neg, Int.add_zero]
  split
  · apply RawVolume.load_eq_getVoxel
    · rw [Region.containsPoint_iff]; omega
    · unfold RawVolume.voxelIndex; ring
  · rfl


theorem Sampler.peekVoxel0px0py1pz_setPosition (s : Sampler) (x y z : Int)
    (h : s.mVolume.m_regValidRegion.containsPoint x y z = true) :
    (s.setPosition x y z).peekVoxel0px0py1pz
      = s.mVolume.getVoxel (x + 0) (y + 0) (z + 1) := by
  rw [Sampler.setPosition_inside s x y z h]
  have hb := (Region.containsPoint_iff _ _ _ _).1 h
  simp only [Sampler.peekVoxel0px0py1pz, Sampler.isCurrentPositionValid, Sampler.CAN_GO_NEG_X,
    Sampler.CAN_GO_NEG_Y, Sampler.CAN_GO_NEG_Z, Sampler.CAN_GO_POS_X,
    Sampler.CAN_GO_POS_Y, Sampler.CAN_GO_POS_Z, RawVolume.getEnclosingRegion,
    Region.getLowerX, Region.getLowerY, Region.getLowerZ,
    Region.getUpperX, Region.getUpperY, Region.getUpperZ, Bool.and_eq_true, Bool.true_and,
    Bool.and_self, decide_eq_true_eq, gt_iff_lt, Int.sub_eq_add_neg, Int.add_zero]
  split
  · apply RawVolume.load_eq_getVoxel
    · rw [Region.containsPoint_iff]; omega
    · unfold RawVolume.voxelIndex; ring
  · rfl


theorem Sampler.peekVoxel0px1py1nz_setPosition (s : Sampler) (x y z : Int)
    (h : s.mVolume.m_regValidRegion.containsPoint x y z = true) :
    (s.setPosition x y z).peekVoxel0px1py1nz
      = s.mVolume.getVoxel (x + 0) (y + 1) (z + (-1)) := by
  rw [Sampler.setPosition_inside s x y z h]
  have hb := (Region.containsPoint_iff _ _ _ _).1 h
  simp only [Sampler.peekVoxel0px1py1nz, Sampler.isCurrentPositionValid, Sampler.CAN_GO_NEG_X,
    Sampler.CAN_GO_NEG_Y, Sampler.CAN_GO_NEG_Z, Sampler.CAN_GO_POS_X,
    Sampler.CAN_GO_POS_Y, Sampler.CAN_GO_POS_Z, RawVolume.getEnclosingRegion,
    Region.getLowerX, Region.getLowerY, Region.getLowerZ,
    Region.getUpperX, Region.getUpperY, Region.getUpperZ, Bool.and_eq_true, Bool.true_and,
    Bool.and_self, decide_eq_true_eq, gt_iff_lt, Int.sub_eq_add_neg, Int.add_zero]
  split
  · apply RawVolume.load_eq_getVoxel
    · rw [Region.containsPoint_iff]; omega
    · unfold RawVolume.voxelIndex; ring
  · rfl


theorem Sampler.peekVoxel0px1py0pz_setPosition (s : Sampler) (x y z : Int)
    (h : s.mVolume.m_regValidRegion.containsPoint x y z = true) :
    (s.setPosition x y z).peekVoxel0px1py0pz
      = s.mVolume.getVoxel (x + 0) (y + 1) (z + 0) := by
  rw [Sampler.setPosition_inside s x y z h]
  have hb := (Region.containsPoint_iff _ _ _ _).1 h
  simp only [Sampler.peekVoxel0px1py0pz, Sampler.isCurrentPositionValid, Sampler.CAN_GO_NEG_X,
    Sampler.CAN_GO_NEG_Y, Sampler.CAN_GO_NEG_Z, Sampler.CAN_GO_POS_X,
    Sampler.CAN_GO_POS_Y, Sampler.CAN_GO_POS_Z, RawVolume.getEnclosingRegion,
    Region.getLowerX, Region.getLowerY, Region.getLowerZ,
    Region.getUpperX, Region.getUpperY, Region.getUpperZ, Bool.and_eq_true, Bool.true_and,
    Bool.and_self, decide_eq_true_eq, gt_iff_lt, Int.sub_eq_add_neg, Int.add_zero]
  split
  · apply RawVolume.load_eq_getVoxel
    · rw [Region.containsPoint_iff]; omega
    · unfold RawVolume.voxelIndex; ring
  · rfl


theorem Sampler.peekVoxel0px1py1pz_setPosition (s : Sampler) (x y z : Int)
    (h : s.mVolume.m_regValidRegion.containsPoint x y z = true) :
    (s.setPosition x y z).peekVoxel0px1py1pz
      = s.mVolume.getVoxel (x + 0) (y + 1) (z + 1) := by
  rw [Sampler.setPosition_inside s x y z h]
  have hb := (Region.containsPoint_iff _ _ _ _).1 h
  simp only [Sampler.peekVoxel0px1py1pz, Sampler.isCurrentPositionValid, Sampler.CAN_GO_NEG_X,
    Sampler.CAN_GO_NEG_Y, Sampler.CAN_GO_NEG_Z, Sampler.CAN_GO_POS_X,
    Sampler.CAN_GO_POS_Y, Sampler.CAN_GO_POS_Z, RawVolume.getEnclosingRegion,
    Region.getLowerX, Region.getLowerY, Region.getLowerZ,
    Region.getUpperX, Region.getUpperY, Region.getUpperZ, Bool.and_eq_true, Bool.true_and,
    Bool.and_self, decide_eq_true_eq, gt_iff_lt, Int.sub_eq_add_neg, Int.add_zero]
  split
  · apply RawVolume.load_eq_getVoxel
    · rw [Region.containsPoint_iff]; omega
    · unfold RawVolume.voxelIndex; ring
  · rfl


theorem Sampler.peekVoxel1px1ny1nz_setPosition (s : Sampler) (x y z : Int)
    (h : s.mVolume.m_regValidRegion.containsPoint x y z = true) :
    (s.setPosition x y z).peekVoxel1px1ny1nz
      = s.mVolume.getVoxel (x + 1) (y + (-1)) (z + (-1)) := by
  rw [Sampler.setPosition_inside s x y z h]
  have hb := (Region.containsPoint_iff _ _ _ _).1 h
  simp only [Sampler.peekVoxel1px1ny1nz, Sampler.isCurrentPositionValid, Sampler.CAN_GO_NEG_X,
    Sampler.CAN_GO_NEG_Y, Sampler.CAN_GO_NEG_Z, Sampler.CAN_GO_POS_X,
    Sampler.CAN_GO_POS_Y, Sampler.CAN_GO_POS_Z, RawVolume.getEnclosingRegion,
    Region.getLowerX, Region.getLowerY, Region.getLowerZ,
    Region.getUpperX, Region.getUpperY, Region.getUpperZ, Bool.and_eq_true, Bool.true_and,
    Bool.and_self, decide_eq_true_eq, gt_iff_lt, Int.sub_eq_add_neg, Int.add_zero]
  split
  · apply RawVolume.load_eq_getVoxel
    · rw [Region.containsPoint_iff]; omega
    · unfold RawVolume.voxelIndex; ring
  · rfl


theorem Sampler.peekVoxel1px1ny0pz_setPosition (s : Sampler) (x y z : Int)
    (h : s.mVolume.m_regValidRegion.containsPoint x y z = true) :
    (s.setPosition x y z).peekVoxel1px1ny0pz
      = s.mVolume.getVoxel (x + 1) (y + (-1)) (z + 0) := by
  rw [Sampler.setPosition_inside s x y z h]
  have hb := (Region.containsPoint_iff _ _ _ _).1 h
  simp only [Sampler.peekVoxel1px1ny0pz, Sampler.isCurrentPositionValid, Sampler.CAN_GO_NEG_X,
    Sampler.CAN_GO_NEG_Y, Sampler.CAN_GO_NEG_Z, Sampler.CAN_GO_POS_X,
    Sampler.CAN_GO_POS_Y, Sampler.CAN_GO_POS_Z, RawVolume.getEnclosingRegion,
    Region.getLowerX, Region.getLowerY, Region.getLowerZ,
    Region.getUpperX, Region.getUpperY, Region.getUpperZ, Bool.and_eq_true, Bool.true_and,
    Bool.and_self, decide_eq_true_eq, gt_iff_lt, Int.sub_eq_add_neg, Int.add_zero]
  split
  · apply RawVolume.load_eq_getVoxel
    · rw [Region.containsPoint_iff]; omega
    · unfold RawVolume.voxelIndex; ring
  · rfl


theorem Sampler.peekVoxel1px1ny1pz_setPosition (s : Sampler) (x y z : Int)
    (h : s.mVolume.m_regValidRegion.containsPoint x y z = true) :
    (s.setPosition x y z).peekVoxel1px1ny1pz
      = s.mVolume.getVoxel (x + 1) (y + (-1)) (z + 1) := by
  rw [Sampler.setPosition_inside s x y z h]
  have hb := (Region.containsPoint_iff _ _ _ _).1 h
  simp only [Sampler.peekVoxel1px1ny1pz, Sampler.isCurrentPositionValid, Sampler.CAN_GO_NEG_X,
    Sampler.CAN_GO_NEG_Y, Sampler.CAN_GO_NEG_Z, Sampler.CAN_GO_POS_X,
    Sampler.CAN_GO_POS_Y, Sampler.CAN_GO_POS_Z, RawVolume.getEnclosingRegion,
    Region.getLowerX, Region.getLowerY, Region.getLowerZ,
    Region.getUpperX, Region.getUpperY, Region.getUpperZ, Bool.and_eq_true, Bool.true_and,
    Bool.and_self, decide_eq_true_eq, gt_iff_lt, Int.sub_eq_add_neg, Int.add_zero]
  split
  · apply RawVolume.load_eq_getVoxel
    · rw [Region.containsPoint_iff]; omega
    · unfold RawVolume.voxelIndex; ring
  · rfl


theorem Sampler.peekVoxel1px0py1nz_setPosition (s : Sampler) (x y z : Int)
    (h : s.mVolume.m_regValidRegion.containsPoint x y z = true) :
    (s.setPosition x y z).peekVoxel1px0py1nz
      = s.mVolume.getVoxel (x + 1) (y + 0) (z + (-1)) := by
  rw [Sampler.setPosition_inside s x y z h]
  have hb := (Region.containsPoint_iff _ _ _ _).1 h
  simp only [Sampler.peekVoxel1px0py1nz, Sampler.isCurrentPositionValid, Sampler.CAN_GO_NEG_X,
    Sampler.CAN_GO_NEG_Y, Sampler.CAN_GO_NEG_Z, Sampler.CAN_GO_POS_X,
    Sampler.CAN_GO_POS_Y, Sampler.CAN_GO_POS_Z, RawVolume.getEnclosingRegion,
    Region.getLowerX, Region.getLowerY, Region.getLowerZ,
    Region.getUpperX, Region.getUpperY, Region.getUpperZ, Bool.and_eq_true, Bool.true_and,
    Bool.and_self, decide_eq_true_eq, gt_iff_lt, Int.sub_eq_add_neg, Int.add_zero]
  split
  · apply RawVolume.load_eq_getVoxel
    · rw [Region.containsPoint_iff]; omega
    · unfold RawVolume.voxelIndex; ring
  · rfl


theorem Sampler.peekVoxel1px0py0pz_setPosition (s : Sampler) (x y z : Int)
    (h : s.mVolume.m_regValidRegion.containsPoint x y z = true) :
    (s.setPosition x y z).peekVoxel1px0py0pz
      = s.mVolume.getVoxel (x + 1) (y + 0) (z + 0) := by
  rw [Sampler.setPosition_inside s x y z h]
  have hb := (Region.containsPoint_iff _ _ _ _).1 h
  simp only [Sampler.peekVoxel1px0py0pz, Sampler.isCurrentPositionValid, Sampler.CAN_GO_NEG_X,
    Sampler.CAN_GO_NEG_Y, Sampler.CAN_GO_NEG_Z, Sampler.CAN_GO_POS_X,
    Sampler.CAN_GO_POS_Y, Sampler.CAN_GO_POS_Z, RawVolume.getEnclosingRegion,
    Region.getLowerX, Region.getLowerY, Region.getLowerZ,
    Region.getUpperX, Region.getUpperY, Region.getUpperZ, Bool.and_eq_true, Bool.true_and,
    Bool.and_self, decide_eq_true_eq, gt_iff_lt, Int.sub_eq_add_neg, Int.add_zero]
  split
  · apply RawVolume.load_eq_getVoxel
    · rw [Region.containsPoint_iff]; omega
    · unfold RawVolume.voxelIndex; ring
  · rfl


theorem Sampler.peekVoxel1px0py1pz_setPosition (s : Sampler) (x y z : Int)
    (h : s.mVolume.m_regValidRegion.containsPoint x y z = true) :
    (s.setPosition x y z).peekVoxel1px0py1pz
      = s.mVolume.getVoxel (x + 1) (y + 0) (z + 1) := by
  rw [Sampler.setPosition_inside s x y z h]
  have hb := (Region.containsPoint_iff _ _ _ _).1 h
  simp only [Sampler.peekVoxel1px0py1pz, Sampler.isCurrentPositionValid, Sampler.CAN_GO_NEG_X,
    Sampler.CAN_GO_NEG_Y, Sampler.CAN_GO_NEG_Z, Sampler.CAN_GO_POS_X,
    Sampler.CAN_GO_POS_Y, Sampler.CAN_GO_POS_Z, RawVolume.getEnclosingRegion,
    Region.getLowerX, Region.getLowerY, Region.getLowerZ,
    Region.getUpperX, Region.getUpperY, Region.getUpperZ, Bool.and_eq_true, Bool.true_and,
    Bool.and_self, decide_eq_true_eq, gt_iff_lt, Int.sub_eq_add_neg, Int.add_zero]
  split
  · apply RawVolume.load_eq_getVoxel
    · rw [Region.containsPoint_iff]; omega
    · unfold RawVolume.voxelIndex; ring
  · rfl


theorem Sampler.peekVoxel1px1py1nz_setPosition (s : Sampler) (x y z : Int)
    (h : s.mVolume.m_regValidRegion.containsPoint x y z = true) :
    (s.setPosition x y z).peekVoxel1px1py1nz
      = s.mVolume.getVoxel (x + 1) (y + 1) (z + (-1)) := by
  rw [Sampler.setPosition_inside s x y z h]
  have hb := (Region.containsPoint_iff _ _ _ _).1 h
  simp only [Sampler.peekVoxel1px1py1nz, Sampler.isCurrentPositionValid, Sampler.CAN_GO_NEG_X,
    Sampler.CAN_GO_NEG_Y, Sampler.CAN_GO_NEG_Z, Sampler.CAN_GO_POS_X,
    Sampler.CAN_GO_POS_Y, Sampler.CAN_GO_POS_Z, RawVolume.getEnclosingRegion,
    Region.getLowerX, Region.getLowerY, Region.getLowerZ,
    Region.getUpperX, Region.getUpperY, Region.getUpperZ, Bool.and_eq_true, Bool.true_and,
    Bool.and_self, decide_eq_true_eq, gt_iff_lt, Int.sub_eq_add_neg, Int.add_zero]
  split
  · apply RawVolume.load_eq_getVoxel
    · rw [Region.containsPoint_iff]; omega
    · unfold RawVolume.voxelIndex; ring
  · rfl


theorem Sampler.peekVoxel1px1py0pz_setPosition (s : Sampler) (x y z : Int)
    (h : s.mVolume.m_regValidRegion.containsPoint x y z = true) :
    (s.setPosition x y z).peekVoxel1px1py0pz
      = s.mVolume.getVoxel (x + 1) (y + 1) (z + 0) := by
  rw [Sampler.setPosition_inside s x y z h]
  have hb := (Region.containsPoint_iff _ _ _ _).1 h
  simp only [Sampler.peekVoxel1px1py0pz, Sampler.isCurrentPositionValid, Sampler.CAN_GO_NEG_X,
    Sampler.CAN_GO_NEG_Y, Sampler.CAN_GO_NEG_Z, Sampler.CAN_GO_POS_X,
    Sampler.CAN_GO_POS_Y, Sampler.CAN_GO_POS_Z, RawVolume.getEnclosingRegion,
    Region.getLowerX, Region.getLowerY, Region.getLowerZ,
    Region.getUpperX, Region.getUpperY, Region.getUpperZ, Bool.and_eq_true, Bool.true_and,
    Bool.and_self, decide_eq_true_eq, gt_iff_lt, Int.sub_eq_add_neg, Int.add_zero]
  split
  · apply RawVolume.load_eq_getVoxel
    · rw [Region.containsPoint_iff]; omega
    · unfold RawVolume.voxelIndex; ring
  · rfl


theorem Sampler.peekVoxel1px1py1pz_setPosition (s : Sampler) (x y z : Int)
    (h : s.mVolume.m_regValidRegion.containsPoint x y z = true) :
    (s.setPosition x y z).peekVoxel1px1py1pz
      = s.mVolume.getVoxel (x + 1) (y + 1) (z + 1) := by
  rw [Sampler.setPosition_inside s x y z h]
  have hb := (Region.containsPoint_iff _ _ _ _).1 h
  simp only [Sampler.peekVoxel1px1py1pz, Sampler.isCurrentPositionValid, Sampler.CAN_GO_NEG_X,
    Sampler.CAN_GO_NEG_Y, Sampler.CAN_GO_NEG_Z, Sampler.CAN_GO_POS_X,
    Sampler.CAN_GO_POS_Y, Sampler.CAN_GO_POS_Z, RawVolume.getEnclosingRegion,
    Region.getLowerX, Region.getLowerY, Region.getLowerZ,
    Region.getUpperX, Region.getUpperY, Region.getUpperZ, Bool.and_eq_true, Bool.true_and,
    Bool.and_self, decide_eq_true_eq, gt_iff_lt, Int.sub_eq_add_neg, Int.add_zero]
  split
  · apply RawVolume.load_eq_getVoxel
    · rw [Region.containsPoint_iff]; omega
    · unfold RawVolume.voxelIndex; ring
  · rfl


/-- After `setPosition` at a point inside the region every peek operation, the one
with the zero offset included, agrees with the bounds-checked read at the offset point. -/
theorem Sampler.peekVoxel_setPosition_inside (s : Sampler) (x y z dx dy dz : Int)
    (h : s.mVolume.m_regValidRegion.containsPoint x y z = true)
    (hdx : dx = -1 ∨ dx = 0 ∨ dx = 1) (hdy : dy = -1 ∨ dy = 0 ∨ dy = 1)
    (hdz : dz = -1 ∨ dz = 0 ∨ dz = 1) :
    (s.setPosition x y z).peekVoxel dx dy dz
      = s.mVolume.getVoxel (x + dx) (y + dy) (z + dz) := by
  rcases hdx with rfl | rfl | rfl <;> rcases hdy with rfl | rfl | rfl <;>
    rcases hdz with rfl | rfl | rfl
  · exact Sampler.peekVoxel1nx1ny1nz_setPosition s x y z h
  · exact Sampler.peekVoxel1nx1ny0pz_setPosition s x y z h
  · exact Sampler.peekVoxel1nx1ny1pz_setPosition s x y z h
  · exact Sampler.peekVoxel1nx0py1nz_setPosition s x y z h
  · exact Sampler.peekVoxel1nx0py0pz_setPosition s x y z h
  · exact Sampler.peekVoxel1nx0py1pz_setPosition s x y z h
  · exact Sampler.peekVoxel1nx1py1nz_setPosition s x y z h
  · exact Sampler.peekVoxel1nx1py0pz_setPosition s x y z h
  · exact Sampler.peekVoxel1nx1py1pz_setPosition s x y z h
  · exact Sampler.peekVoxel0px1ny1nz_setPosition s x y z h
  · exact Sampler.peekVoxel0px1ny0pz_setPosition s x y z h
  · exact Sampler.peekVoxel0px1ny1pz_setPosition s x y z h
  · exact Sampler.peekVoxel0px0py1nz_setPosition s x y z h
  · exact Sampler.peekVoxel0px0py0pz_setPosition s x y z h
  · exact Sampler.peekVoxel0px0py1pz_setPosition s x y z h
  · exact Sampler.peekVoxel0px1py1nz_setPosition s x y z h
  · exact Sampler.peekVoxel0px1py0pz_setPosition s x y z h
  · exact Sampler.peekVoxel0px1py1pz_setPosition s x y z h
  · exact Sampler.peekVoxel1px1ny1nz_setPosition s x y z h
  · exact Sampler.peekVoxel1px1ny0pz_setPosition s x y z h
  · exact Sampler.peekVoxel1px1ny1pz_setPosition s x y z h
  · exact Sampler.peekVoxel1px0py1nz_setPosition s x y z h
  · exact Sampler.peekVoxel1px0py0pz_setPosition s x y z h
  · exact Sampler.peekVoxel1px0py1pz_setPosition s x y z h
  · exact Sampler.peekVoxel1px1py1nz_setPosition s x y z h
  · exact Sampler.peekVoxel1px1py0pz_setPosition s x y z h
  · exact Sampler.peekVoxel1px1py1pz_setPosition s x y z h

/-! ## Shared facts about reads and writes -/

theorem RawVolume.load_store (v v1 : RawVolume) (i : Int) (tValue : Voxel)
    (h : v.store i tValue = some v1) : v1.load i = some tValue := by
  unfold RawVolume.store at h
  split at h
  · rename_i hi
    cases h
    simp [RawVolume.load, hi.1, List.getElem?_set_self hi.2]
  · cases h

theorem RawVolume.store_frame (v v1 : RawVolume) (i : Int) (tValue : Voxel)
    (h : v.store i tValue = some v1) :
    v1.m_regValidRegion = v.m_regValidRegion ∧ v1.m_tBorderValue = v.m_tBorderValue
      ∧ v1.m_pData.length = v.m_pData.length := by
  unfold RawVolume.store at h
  split at h
  · cases h
    simp
  · cases h

/-- In a well-formed volume a write to the cell of an in-range point succeeds. -/
theorem RawVolume.store_voxelIndex_isSome (v : RawVolume) (hwf : v.WellFormed) (x y z : Int)
    (h : v.m_regValidRegion.containsPoint x y z = true) (tValue : Voxel) :
    ∃ v1, v.store (v.voxelIndex x y z) tValue = some v1 := by
  obtain ⟨h0, h1⟩ := v.voxelIndex_bounds x y z h
  unfold RawVolume.WellFormed at hwf
  have hlt : (v.voxelIndex x y z).toNat < v.m_pData.length := by omega
  exact ⟨{ v with m_pData := v.m_pData.set (v.voxelIndex x y z).toNat tValue },
    by simp [RawVolume.store, h0, hlt]⟩

theorem RawVolume.voxelIndex_congr (v v1 : RawVolume)
    (h : v1.m_regValidRegion = v.m_regValidRegion) (x y z : Int) :
    v1.voxelIndex x y z = v.voxelIndex x y z := by
  simp [RawVolume.voxelIndex, RawVolume.getWidth, RawVolume.getHeight, h]

/-- Every volume operation keeps the region and the buffer size, and succeeds on a
well-formed volume. -/
theorem RawVolume.applyOp_frame (v : RawVolume) (hwf : v.WellFormed) (op : VolumeOp) :
    ∃ v1, v.applyOp op = some v1 ∧ v1.m_regValidRegion = v.m_regValidRegion
      ∧ v1.WellFormed ∧ v1.m_tBorderValue = lastBorder v.m_tBorderValue [op] := by
  cases op with
  | setVoxel x y z tValue =>
    simp only [RawVolume.applyOp, RawVolume.setVoxel, lastBorder]
    by_cases hc : v.m_regValidRegion.containsPoint x y z = true
    · obtain ⟨v1, hv1⟩ := v.store_voxelIndex_isSome hwf x y z hc tValue
      obtain ⟨hr, hb, hl⟩ := v.store_frame v1 _ _ hv1
      refine ⟨v1, by simp [hc, hv1], hr, ?_, hb⟩
      unfold RawVolume.WellFormed at hwf ⊢
      simp only [RawVolume.getWidth, RawVolume.getHeight, RawVolume.getDepth, hr, hl] at hwf ⊢
      exact hwf
    · exact ⟨v, by simp [hc], rfl, hwf, rfl⟩
  | setBorderValue tBorder =>
    exact ⟨v.setBorderValue tBorder, rfl, rfl, hwf, rfl⟩

theorem lastBorder_cons (b : Voxel) (op : VolumeOp) (ops : List VolumeOp) :
    lastBorder b (op :: ops) = lastBorder (lastBorder b [op]) ops := by
  cases op <;> rfl

/-- A sequence of volume operations succeeds on a well-formed volume, keeps the
region, and leaves as border value the one last passed to `setBorderValue`. -/
theorem RawVolume.run_frame (ops : List VolumeOp) :
    ∀ v : RawVolume, v.WellFormed →
      ∃ v1, v.run ops = some v1 ∧ v1.m_regValidRegion = v.m_regValidRegion
        ∧ v1.WellFormed ∧ v1.m_tBorderValue = lastBorder v.m_tBorderValue ops := by
  induction ops with
  | nil => intro v hwf; exact ⟨v, rfl, rfl, hwf, rfl⟩
  | cons op ops ih =>
    intro v hwf
    obtain ⟨v1, h1, hr1, hwf1, hb1⟩ := v.applyOp_frame hwf op
    obtain ⟨v2, h2, hr2, hwf2, hb2⟩ := ih v1 hwf1
    refine ⟨v2, by simp [RawVolume.run, h1, h2], hr2.trans hr1, hwf2, ?_⟩
    rw [hb2, hb1, ← lastBorder_cons]

theorem RawVolume.create_wellFormed (r : Region) (hr : r.isValid = true) :
    (RawVolume.create r).WellFormed := by
  simp only [Region.isValid, Bool.and_eq_true, decide_eq_true_eq, Region.getLowerX,
    Region.getLowerY, Region.getLowerZ, Region.getUpperX, Region.getUpperY,
    Region.getUpperZ] at hr
  obtain ⟨⟨hx, hy⟩, hz⟩ := hr
  simp only [RawVolume.WellFormed, RawVolume.create, List.length_replicate, RawVolume.getWidth,
    RawVolume.getHeight, RawVolume.getDepth, Region.getWidthInVoxels, Region.getHeightInVoxels,
    Region.getDepthInVoxels, Region.getLowerX,
    Region.getLowerY, Region.getLowerZ, Region.getUpperX, Region.getUpperY,
    Region.getUpperZ]
  apply Int.toNat_of_nonneg
  have hW : 0 ≤ r.m_iUpperX - r.m_iLowerX + 1 := by omega
  have hH : 0 ≤ r.m_iUpperY - r.m_iLowerY + 1 := by omega
  have hD : 0 ≤ r.m_iUpperZ - r.m_iLowerZ + 1 := by omega
  exact mul_nonneg (mul_nonneg hW hH) hD

/-- The bounds-checked read of a well-formed volume always returns a voxel: the
stored one inside the region, the border value outside. -/
theorem RawVolume.getVoxel_spec (v : RawVolume) (hwf : v.WellFormed) (x y z : Int) :
    ∃ val, v.getVoxel x y z = some val
      ∧ (v.getEnclosingRegion.containsPoint x y z = true →
          v.m_pData[(v.voxelIndex x y z).toNat]? = some val)
      ∧ (v.getEnclosingRegion.containsPoint x y z = false → val = v.getBorderValue) := by
  by_cases hc : v.m_regValidRegion.containsPoint x y z = true
  · obtain ⟨val, h1, h2⟩ := v.load_voxelIndex_isSome hwf x y z hc
    refine ⟨val, ?_, fun _ => h2, fun hf => ?_⟩
    · rw [RawVolume.getVoxel_of_contains v x y z hc, h1]
    · simp [RawVolume.getEnclosingRegion, hc] at hf
  · have hc2 : v.m_regValidRegion.containsPoint x y z = false := by simpa using hc
    refine ⟨v.m_tBorderValue, RawVolume.getVoxel_of_not_contains v x y z hc2, fun ht => ?_,
      fun _ => rfl⟩
    simp [RawVolume.getEnclosingRegion, hc2] at ht

/-- The fields that `setPosition` always sets: the volume, the position and the
three per-axis flags. -/
theorem Sampler.setPosition_fields (s : Sampler) (x y z : Int) :
    (s.setPosition x y z).mVolume = s.mVolume
      ∧ (s.setPosition x y z).mXPosInVolume = x
      ∧ (s.setPosition x y z).mYPosInVolume = y
      ∧ (s.setPosition x y z).mZPosInVolume = z
      ∧ (s.setPosition x y z).isCurrentPositionValid
          = s.mVolume.m_regValidRegion.containsPoint x y z := by
  simp [Sampler.setPosition, Sampler.isCurrentPositionValid, Region.containsPoint,
    RawVolume.getEnclosingRegion]

/-- The sampler's `getVoxel` after `setPosition` is the volume's bounds-checked read. -/
theorem Sampler.getVoxel_setPosition (s : Sampler) (x y z : Int) :
    (s.setPosition x y z).getVoxel = s.mVolume.getVoxel x y z := by
  by_cases hc : s.mVolume.m_regValidRegion.containsPoint x y z = true
  · rw [Sampler.setPosition_inside s x y z hc]
    simp only [Sampler.getVoxel, Sampler.isCurrentPositionValid, Bool.and_self, if_true]
    exact RawVolume.load_eq_getVoxel _ _ _ _ _ hc rfl
  · obtain ⟨h1, h2, h3, h4, h5⟩ := s.setPosition_fields x y z
    have hc2 : s.mVolume.m_regValidRegion.containsPoint x y z = false := by simpa using hc
    unfold Sampler.getVoxel
    rw [h5, hc2, h1, h2, h3, h4]
    simp

/-! ## The claims -/

/-- C1: for every well-formed volume, every position P inside its region and every
offset d in {-1,0,+1}^3 (the 26 non-zero ones and the zero offset), a sampler set to P
returns from the matching peek operation exactly `volume.getVoxel(P + d)`, which is
the stored voxel when P + d is inside the region and the border value otherwise. -/
theorem C1_peek_agrees_with_getVoxel (s : Sampler) (x y z dx dy dz : Int)
    (hwf : s.mVolume.WellFormed)
    (hin : s.mVolume.getEnclosingRegion.containsPoint x y z = true)
    (hdx : dx = -1 ∨ dx = 0 ∨ dx = 1) (hdy : dy = -1 ∨ dy = 0 ∨ dy = 1)
    (hdz : dz = -1 ∨ dz = 0 ∨ dz = 1) :
    (s.setPosition x y z).peekVoxel dx dy dz
        = s.mVolume.getVoxel (x + dx) (y + dy) (z + dz)
      ∧ ∃ val, s.mVolume.getVoxel (x + dx) (y + dy) (z + dz) = some val
          ∧ (s.mVolume.getEnclosingRegion.containsPoint (x + dx) (y + dy) (z + dz) = true →
              s.mVolume.m_pData[(s.mVolume.voxelIndex (x + dx) (y + dy) (z + dz)).toNat]?
                = some val)
          ∧ (s.mVolume.getEnclosingRegion.containsPoint (x + dx) (y + dy) (z + dz) = false →
              val = s.mVolume.getBorderValue) :=
  ⟨Sampler.peekVoxel_setPosition_inside s x y z dx dy dz hin hdx hdy hdz,
    RawVolume.getVoxel_spec s.mVolume hwf (x + dx) (y + dy) (z + dz)⟩

/-- The scenario of the spec for C1: in the 2x2x2 volume filled with A whose cell
(1,1,1) is B, a sampler at (0,0,0) peeks B toward (+1,+1,+1) and the border value
toward (-1,0,0). -/
theorem C1_peek_agrees_with_getVoxel_witness :
    (RawVolume.create scenarioRegion).run scenarioOps = some scenarioVolume
      ∧ (scenarioSampler.setPosition 0 0 0).peekVoxel 1 1 1 = some voxelB
      ∧ (scenarioSampler.setPosition 0 0 0).peekVoxel (-1) 0 0
          = some scenarioVolume.getBorderValue
      ∧ (scenarioSampler.setPosition 0 0 0).peekVoxel 1 1 1
          = scenarioSampler.mVolume.getVoxel (0 + 1) (0 + 1) (0 + 1)
      ∧ (scenarioSampler.setPosition 0 0 0).peekVoxel (-1) 0 0
          = scenarioSampler.mVolume.getVoxel (0 + -1) (0 + 0) (0 + 0) :=
  ⟨by decide, by decide, by decide,
    (C1_peek_agrees_with_getVoxel scenarioSampler 0 0 0 1 1 1 (by decide) (by decide)
      (by decide) (by decide) (by decide)).1,
    (C1_peek_agrees_with_getVoxel scenarioSampler 0 0 0 (-1) 0 0 (by decide) (by decide)
      (by decide) (by decide) (by decide)).1⟩

/-- C2: for every well-formed volume, every point (x,y,z) inside its region and every
voxel v, `setVoxel(x,y,z,v)` succeeds and a following `getVoxel(x,y,z)` returns v; the
same holds for the overloads that take the position as a vector. -/
theorem C2_setVoxel_then_getVoxel (v : RawVolume) (x y z : Int) (tValue : Voxel)
    (hwf : v.WellFormed)
    (hin : v.getEnclosingRegion.containsPoint x y z = true) :
    (∃ v1, v.setVoxel x y z tValue = some v1 ∧ v1.getVoxel x y z = some tValue)
      ∧ ∃ v1, v.setVoxelV (x, y, z) tValue = some v1 ∧ v1.getVoxelV (x, y, z) = some tValue := by
  have hin2 : v.m_regValidRegion.containsPoint x y z = true := hin
  obtain ⟨v1, hv1⟩ := v.store_voxelIndex_isSome hwf x y z hin2 tValue
  obtain ⟨hr, _, _⟩ := v.store_frame v1 _ _ hv1
  have hset : v.setVoxel x y z tValue = some v1 := by simp [RawVolume.setVoxel, hin2, hv1]
  have hget : v1.getVoxel x y z = some tValue := by
    rw [RawVolume.getVoxel_of_contains v1 x y z (by rw [hr]; exact hin2),
      RawVolume.voxelIndex_congr v v1 hr]
    exact v.load_store v1 _ _ hv1
  exact ⟨⟨v1, hset, hget⟩, ⟨v1, hset, hget⟩⟩

/-- Worked instance of C2: writing B at (1,0,1) of the scenario volume and reading it back. -/
theorem C2_setVoxel_then_getVoxel_witness :
    scenarioVolume.WellFormed
      ∧ scenarioVolume.getEnclosingRegion.containsPoint 1 0 1 = true
      ∧ ((∃ v1, scenarioVolume.setVoxel 1 0 1 voxelB = some v1
            ∧ v1.getVoxel 1 0 1 = some voxelB)
          ∧ ∃ v1, scenarioVolume.setVoxelV (1, 0, 1) voxelB = some v1
            ∧ v1.getVoxelV (1, 0, 1) = some voxelB) :=
  ⟨by decide, by decide,
    C2_setVoxel_then_getVoxel scenarioVolume 1 0 1 voxelB (by decide) (by decide)⟩

/-- C3: for every well-formed volume and every point (x,y,z) outside its region,
after any sequence of `setVoxel` and `setBorderValue` calls (all of which succeed and
keep the region) `getVoxel(x,y,z)` returns the current border value, which is the
value last passed to `setBorderValue` whatever `setVoxel` calls were made. -/
theorem C3_getVoxel_outside_is_border (v : RawVolume) (ops : List VolumeOp) (x y z : Int)
    (hwf : v.WellFormed)
    (hout : v.getEnclosingRegion.containsPoint x y z = false) :
    ∃ v1, v.run ops = some v1
      ∧ v1.getEnclosingRegion = v.getEnclosingRegion
      ∧ v1.getVoxel x y z = some v1.getBorderValue
      ∧ v1.getBorderValue = lastBorder v.getBorderValue ops := by
  obtain ⟨v1, h1, hr, _, hb⟩ := RawVolume.run_frame ops v hwf
  refine ⟨v1, h1, hr, ?_, hb⟩
  apply RawVolume.getVoxel_of_not_contains
  rw [hr]
  exact hout

/-- Worked instance of C3: on the scenario volume, a border change to B followed by a
write of A inside the region, read at the outside point (2,0,0). -/
theorem C3_getVoxel_outside_is_border_witness :
    scenarioVolume.WellFormed
      ∧ scenarioVolume.getEnclosingRegion.containsPoint 2 0 0 = false
      ∧ lastBorder scenarioVolume.getBorderValue
          [VolumeOp.setBorderValue voxelB, VolumeOp.setVoxel 1 0 0 voxelA] = voxelB
      ∧ ∃ v1, scenarioVolume.run [VolumeOp.setBorderValue voxelB, VolumeOp.setVoxel 1 0 0 voxelA]
            = some v1
          ∧ v1.getEnclosingRegion = scenarioVolume.getEnclosingRegion
          ∧ v1.getVoxel 2 0 0 = some v1.getBorderValue
          ∧ v1.getBorderValue = lastBorder scenarioVolume.getBorderValue
              [VolumeOp.setBorderValue voxelB, VolumeOp.setVoxel 1 0 0 voxelA] :=
  ⟨by decide, by decide, by decide,
    C3_getVoxel_outside_is_border scenarioVolume
      [VolumeOp.setBorderValue voxelB, VolumeOp.setVoxel 1 0 0 voxelA] 2 0 0
      (by decide) (by decide)⟩

/-- C4: for every volume, every point (x,y,z) outside its region and every voxel v,
`setVoxel(x,y,z,v)` is a no-op: it returns the volume it was given, so `getVoxel`
returns the same value as before at every point and the region, the border value and
the buffer are unchanged. -/
theorem C4_setVoxel_outside_is_noop (v : RawVolume) (x y z : Int) (tValue : Voxel)
    (hout : v.getEnclosingRegion.containsPoint x y z = false) :
    ∃ v1, v.setVoxel x y z tValue = some v1
      ∧ (∀ px py pz : Int, v1.getVoxel px py pz = v.getVoxel px py pz)
      ∧ v1.getEnclosingRegion = v.getEnclosingRegion
      ∧ v1.getBorderValue = v.getBorderValue
      ∧ v1.m_pData = v.m_pData := by
  have hout2 : v.m_regValidRegion.containsPoint x y z = false := hout
  exact ⟨v, by simp [RawVolume.setVoxel, hout2], fun _ _ _ => rfl, rfl, rfl, rfl⟩

/-- Worked instance of C4: a write at the outside point (0,0,2) of the scenario volume. -/
theorem C4_setVoxel_outside_is_noop_witness :
    scenarioVolume.getEnclosingRegion.containsPoint 0 0 2 = false
      ∧ scenarioVolume.setVoxel 0 0 2 voxelB = some scenarioVolume
      ∧ ∃ v1, scenarioVolume.setVoxel 0 0 2 voxelB = some v1
          ∧ (∀ px py pz : Int, v1.getVoxel px py pz = scenarioVolume.getVoxel px py pz)
          ∧ v1.getEnclosingRegion = scenarioVolume.getEnclosingRegion
          ∧ v1.getBorderValue = scenarioVolume.getBorderValue
          ∧ v1.m_pData = scenarioVolume.m_pData :=
  ⟨by decide, by decide,
    C4_setVoxel_outside_is_noop scenarioVolume 0 0 2 voxelB (by decide)⟩

/-- C5: for every well-formed volume and every position P, inside or outside the
region, after `Sampler::setPosition(P)` the call `Sampler::getVoxel()` returns exactly
`volume.getVoxel(P)`: the stored voxel when P is inside the region and the border
value otherwise. -/
theorem C5_sampler_getVoxel_after_setPosition (s : Sampler) (x y z : Int)
    (hwf : s.mVolume.WellFormed) :
    (s.setPosition x y z).getVoxel = s.mVolume.getVoxel x y z
      ∧ ∃ val, (s.setPosition x y z).getVoxel = some val
          ∧ (s.mVolume.getEnclosingRegion.containsPoint x y z = true →
              s.mVolume.m_pData[(s.mVolume.voxelIndex x y z).toNat]? = some val)
          ∧ (s.mVolume.getEnclosingRegion.containsPoint x y z = false →
              val = s.mVolume.getBorderValue) := by
  refine ⟨Sampler.getVoxel_setPosition s x y z, ?_⟩
  rw [Sampler.getVoxel_setPosition s x y z]
  exact RawVolume.getVoxel_spec s.mVolume hwf x y z

/-- Worked instance of C5: the scenario sampler at the inside point (1,1,1) reads B
and at the outside point (1,1,2) reads the border value. -/
theorem C5_sampler_getVoxel_after_setPosition_witness :
    scenarioSampler.mVolume.WellFormed
      ∧ (scenarioSampler.setPosition 1 1 1).getVoxel = some voxelB
      ∧ (scenarioSampler.setPosition 1 1 2).getVoxel = some Voxel.empty
      ∧ (scenarioSampler.setPosition 1 1 2).getVoxel = scenarioSampler.mVolume.getVoxel 1 1 2 :=
  ⟨by decide, by decide, by decide,
    (C5_sampler_getVoxel_after_setPosition scenarioSampler 1 1 2 (by decide)).1⟩

/-- C6: for every well-formed volume, every sampler position P (reached by
`setPosition`) and every voxel v, `Sampler::setVoxel(v)` returns true if and only if P
is inside the volume's region, which is when all three axis flags are true; when it
returns true, `volume.getVoxel(P)` afterwards equals v; when it returns false, the
sampler and its volume (contents, region and border value) are unchanged. -/
theorem C6_sampler_setVoxel (s : Sampler) (x y z : Int) (tValue : Voxel)
    (hwf : s.mVolume.WellFormed) :
    ∃ b s1, (s.setPosition x y z).setVoxel tValue = some (b, s1)
      ∧ (b = true ↔ s.mVolume.getEnclosingRegion.containsPoint x y z = true)
      ∧ (b = true ↔ ((s.setPosition x y z).m_bIsCurrentPositionValidInX = true
            ∧ (s.setPosition x y z).m_bIsCurrentPositionValidInY = true
            ∧ (s.setPosition x y z).m_bIsCurrentPositionValidInZ = true))
      ∧ (b = true → s1.mVolume.getVoxel x y z = some tValue)
      ∧ (b = false → s1 = s.setPosition x y z ∧ s1.mVolume = s.mVolume) := by
  by_cases hc : s.mVolume.m_regValidRegion.containsPoint x y z = true
  · obtain ⟨v1, hv1⟩ := s.mVolume.store_voxelIndex_isSome hwf x y z hc tValue
    obtain ⟨hr, _, _⟩ := s.mVolume.store_frame v1 _ _ hv1
    refine ⟨true, { s.setPosition x y z with mVolume := v1 }, ?_, ?_, ?_, ?_, ?_⟩
    · rw [Sampler.setPosition_inside s x y z hc]
      simp [Sampler.setVoxel, hv1]
    · simpa [RawVolume.getEnclosingRegion] using hc
    · rw [Sampler.setPosition_inside s x y z hc]
      simp
    · intro _
      show v1.getVoxel x y z = some tValue
      rw [RawVolume.getVoxel_of_contains v1 x y z (by rw [hr]; exact hc),
        RawVolume.voxelIndex_congr s.mVolume v1 hr]
      exact s.mVolume.load_store v1 _ _ hv1
    · intro hf
      cases hf
  · have hc2 : s.mVolume.m_regValidRegion.containsPoint x y z = false := by simpa using hc
    obtain ⟨h1, _, _, _, h5⟩ := s.setPosition_fields x y z
    have hflags : ((s.setPosition x y z).m_bIsCurrentPositionValidInX
        && (s.setPosition x y z).m_bIsCurrentPositionValidInY
        && (s.setPosition x y z).m_bIsCurrentPositionValidInZ) = false := by
      rw [← hc2, ← h5]
      rfl
    refine ⟨false, s.setPosition x y z, ?_, ?_, ?_, ?_, ?_⟩
    · simp [Sampler.setVoxel, hflags]
    · simp [RawVolume.getEnclosingRegion, hc2]
    · simp only [Bool.and_eq_false_iff] at hflags
      constructor
      · intro hf
        cases hf
      · rintro ⟨hx, hy, hz⟩
        rw [hx, hy, hz] at hflags
        simp at hflags
    · intro hf
      cases hf
    · intro _
      exact ⟨rfl, h1⟩

/-- Worked instance of C6: on the scenario sampler a write at (0,1,0) returns true and
is read back, a write at (0,2,0) returns false and changes nothing. -/
theorem C6_sampler_setVoxel_witness :
    scenarioSampler.mVolume.WellFormed
      ∧ ((scenarioSampler.setPosition 0 1 0).setVoxel voxelB).map Prod.fst = some true
      ∧ ((scenarioSampler.setPosition 0 2 0).setVoxel voxelB)
          = some (false, scenarioSampler.setPosition 0 2 0)
      ∧ ∃ b s1, (scenarioSampler.setPosition 0 1 0).setVoxel voxelB = some (b, s1)
          ∧ (b = true ↔ scenarioSampler.mVolume.getEnclosingRegion.containsPoint 0 1 0 = true)
          ∧ (b = true ↔ ((scenarioSampler.setPosition 0 1 0).m_bIsCurrentPositionValidInX = true
                ∧ (scenarioSampler.setPosition 0 1 0).m_bIsCurrentPositionValidInY = true
                ∧ (scenarioSampler.setPosition 0 1 0).m_bIsCurrentPositionValidInZ = true))
          ∧ (b = true → s1.mVolume.getVoxel 0 1 0 = some voxelB)
          ∧ (b = false → s1 = scenarioSampler.setPosition 0 1 0
              ∧ s1.mVolume = scenarioSampler.mVolume) :=
  ⟨by decide, by decide, by decide,
    C6_sampler_setVoxel scenarioSampler 0 1 0 voxelB (by decide)⟩

/-! ## The sampler invariant and the move operations -/

theorem Sampler.setPosition_consistent (s : Sampler) (x y z : Int) :
    (s.setPosition x y z).Consistent := by
  refine ⟨rfl, rfl, rfl, ?_⟩
  intro hv
  simp only [Sampler.setPosition, Sampler.isCurrentPositionValid] at hv ⊢
  rw [if_pos hv]

/-- In a consistent state `isCurrentPositionValid()` tells whether the region contains
the current position. -/
theorem Sampler.Consistent.valid_eq (t : Sampler) (h : t.Consistent) :
    t.isCurrentPositionValid
      = t.mVolume.m_regValidRegion.containsPoint t.mXPosInVolume t.mYPosInVolume
          t.mZPosInVolume := by
  obtain ⟨hx, hy, hz, _⟩ := h
  simp only [Sampler.isCurrentPositionValid, hx, hy, hz, Region.containsPoint,
    RawVolume.getEnclosingRegion]

/-- In a consistent state `getVoxel()` is the bounds-checked read at the current position. -/
theorem Sampler.Consistent.getVoxel_eq (t : Sampler) (h : t.Consistent) :
    t.getVoxel = t.mVolume.getVoxel t.mXPosInVolume t.mYPosInVolume t.mZPosInVolume := by
  have hv := Sampler.Consistent.valid_eq t h
  obtain ⟨_, _, _, hc⟩ := h
  unfold Sampler.getVoxel
  split
  · rename_i hg
    exact RawVolume.load_eq_getVoxel _ _ _ _ _ (by rw [← hv]; exact hg) (hc hg)
  · rfl

/-- Two consistent samplers on the same volume at the same position are observably equal. -/
theorem Sampler.observablyEqual_of_consistent (a b : Sampler) (ha : a.Consistent)
    (hb : b.Consistent) (hv : a.mVolume = b.mVolume) (hx : a.mXPosInVolume = b.mXPosInVolume)
    (hy : a.mYPosInVolume = b.mYPosInVolume) (hz : a.mZPosInVolume = b.mZPosInVolume) :
    a.ObservablyEqual b := by
  refine ⟨hx, hy, hz, ?_, ?_⟩
  · rw [Sampler.Consistent.valid_eq a ha, Sampler.Consistent.valid_eq b hb, hv, hx, hy, hz]
  · rw [Sampler.Consistent.getVoxel_eq a ha, Sampler.Consistent.getVoxel_eq b hb, hv, hx, hy, hz]

/-- The step `movePositiveX` keeps the sampler invariant and the volume and changes
only the X coordinate, by one. -/
theorem Sampler.movePositiveX_spec (t : Sampler) (h : t.Consistent) :
    t.movePositiveX.Consistent ∧ t.movePositiveX.mVolume = t.mVolume
      ∧ t.movePositiveX.mXPosInVolume = t.mXPosInVolume + 1
      ∧ t.movePositiveX.mYPosInVolume = t.mYPosInVolume
      ∧ t.movePositiveX.mZPosInVolume = t.mZPosInVolume := by
  obtain ⟨hx, hy, hz, hc⟩ := h
  unfold Sampler.movePositiveX
  simp only []
  split
  · rename_i hg
    simp only [Bool.and_eq_true] at hg
    refine ⟨⟨rfl, hy, hz, ?_⟩, rfl, rfl, rfl, rfl⟩
    intro _
    simp only []
    rw [hc hg.1]
    unfold RawVolume.voxelIndex
    ring
  · exact ⟨Sampler.setPosition_consistent _ _ _ _, rfl, rfl, rfl, rfl⟩

/-- The step `moveNegativeX` keeps the sampler invariant and the volume and changes
only the X coordinate, by one. -/
theorem Sampler.moveNegativeX_spec (t : Sampler) (h : t.Consistent) :
    t.moveNegativeX.Consistent ∧ t.moveNegativeX.mVolume = t.mVolume
      ∧ t.moveNegativeX.mXPosInVolume = t.mXPosInVolume - 1
      ∧ t.moveNegativeX.mYPosInVolume = t.mYPosInVolume
      ∧ t.moveNegativeX.mZPosInVolume = t.mZPosInVolume := by
  obtain ⟨hx, hy, hz, hc⟩ := h
  unfold Sampler.moveNegativeX
  simp only []
  split
  · rename_i hg
    simp only [Bool.and_eq_true] at hg
    refine ⟨⟨rfl, hy, hz, ?_⟩, rfl, rfl, rfl, rfl⟩
    intro _
    simp only []
    rw [hc hg.1]
    unfold RawVolume.voxelIndex
    ring
  · exact ⟨Sampler.setPosition_consistent _ _ _ _, rfl, rfl, rfl, rfl⟩

/-- The step `movePositiveY` keeps the sampler invariant and the volume and changes
only the Y coordinate, by one. -/
theorem Sampler.movePositiveY_spec (t : Sampler) (h : t.Consistent) :
    t.movePositiveY.Consistent ∧ t.movePositiveY.mVolume = t.mVolume
      ∧ t.movePositiveY.mXPosInVolume = t.mXPosInVolume
      ∧ t.movePositiveY.mYPosInVolume = t.mYPosInVolume + 1
      ∧ t.movePositiveY.mZPosInVolume = t.mZPosInVolume := by
  obtain ⟨hx, hy, hz, hc⟩ := h
  unfold Sampler.movePositiveY
  simp only []
  split
  · rename_i hg
    simp only [Bool.and_eq_true] at hg
    refine ⟨⟨hx, rfl, hz, ?_⟩, rfl, rfl, rfl, rfl⟩
    intro _
    simp only []
    rw [hc hg.1]
    unfold RawVolume.voxelIndex
    ring
  · exact ⟨Sampler.setPosition_consistent _ _ _ _, rfl, rfl, rfl, rfl⟩

/-- The step `moveNegativeY` keeps the sampler invariant and the volume and changes
only the Y coordinate, by one. -/
theorem Sampler.moveNegativeY_spec (t : Sampler) (h : t.Consistent) :
    t.moveNegativeY.Consistent ∧ t.moveNegativeY.mVolume = t.mVolume
      ∧ t.moveNegativeY.mXPosInVolume = t.mXPosInVolume
      ∧ t.moveNegativeY.mYPosInVolume = t.mYPosInVolume - 1
      ∧ t.moveNegativeY.mZPosInVolume = t.mZPosInVolume := by
  obtain ⟨hx, hy, hz, hc⟩ := h
  unfold Sampler.moveNegativeY
  simp only []
  split
  · rename_i hg
    simp only [Bool.and_eq_true] at hg
    refine ⟨⟨hx, rfl, hz, ?_⟩, rfl, rfl, rfl, rfl⟩
    intro _
    simp only []
    rw [hc hg.1]
    unfold RawVolume.voxelIndex
    ring
  · exact ⟨Sampler.setPosition_consistent _ _ _ _, rfl, rfl, rfl, rfl⟩

/-- The step `movePositiveZ` keeps the sampler invariant and the volume and changes
only the Z coordinate, by one. -/
theorem Sampler.movePositiveZ_spec (t : Sampler) (h : t.Consistent) :
    t.movePositiveZ.Consistent ∧ t.movePositiveZ.mVolume = t.mVolume
      ∧ t.movePositiveZ.mXPosInVolume = t.mXPosInVolume
      ∧ t.movePositiveZ.mYPosInVolume = t.mYPosInVolume
      ∧ t.movePositiveZ.mZPosInVolume = t.mZPosInVolume + 1 := by
  obtain ⟨hx, hy, hz, hc⟩ := h
  unfold Sampler.movePositiveZ
  simp only []
  split
  · rename_i hg
    simp only [Bool.and_eq_true] at hg
    refine ⟨⟨hx, hy, rfl, ?_⟩, rfl, rfl, rfl, rfl⟩
    intro _
    simp only []
    rw [hc hg.1]
    unfold RawVolume.voxelIndex
    ring
  · exact ⟨Sampler.setPosition_consistent _ _ _ _, rfl, rfl, rfl, rfl⟩

/-- The step `moveNegativeZ` keeps the sampler invariant and the volume and changes
only the Z coordinate, by one. -/
theorem Sampler.moveNegativeZ_spec (t : Sampler) (h : t.Consistent) :
    t.moveNegativeZ.Consistent ∧ t.moveNegativeZ.mVolume = t.mVolume
      ∧ t.moveNegativeZ.mXPosInVolume = t.mXPosInVolume
      ∧ t.moveNegativeZ.mYPosInVolume = t.mYPosInVolume
      ∧ t.moveNegativeZ.mZPosInVolume = t.mZPosInVolume - 1 := by
  obtain ⟨hx, hy, hz, hc⟩ := h
  unfold Sampler.moveNegativeZ
  simp only []
  split
  · rename_i hg
    simp only [Bool.and_eq_true] at hg
    refine ⟨⟨hx, hy, rfl, ?_⟩, rfl, rfl, rfl, rfl⟩
    intro _
    simp only []
    rw [hc hg.1]
    unfold RawVolume.voxelIndex
    ring
  · exact ⟨Sampler.setPosition_consistent _ _ _ _, rfl, rfl, rfl, rfl⟩

/-- A step followed by the opposite step, from a consistent state, gives a state
observably equal to the first one. -/
theorem Sampler.roundTrip_observablyEqual (t : Sampler) (h : t.Consistent) :
    t.movePositiveX.moveNegativeX.ObservablyEqual t
      ∧ t.moveNegativeX.movePositiveX.ObservablyEqual t
      ∧ t.movePositiveY.moveNegativeY.ObservablyEqual t
      ∧ t.moveNegativeY.movePositiveY.ObservablyEqual t
      ∧ t.movePositiveZ.moveNegativeZ.ObservablyEqual t
      ∧ t.moveNegativeZ.movePositiveZ.ObservablyEqual t := by
  refine ⟨?_, ?_, ?_, ?_, ?_, ?_⟩
  · obtain ⟨c1, v1, x1, y1, z1⟩ := Sampler.movePositiveX_spec t h
    obtain ⟨c2, v2, x2, y2, z2⟩ := Sampler.moveNegativeX_spec _ c1
    exact Sampler.observablyEqual_of_consistent _ _ c2 h (v2.trans v1)
      (by omega) (by omega) (by omega)
  · obtain ⟨c1, v1, x1, y1, z1⟩ := Sampler.moveNegativeX_spec t h
    obtain ⟨c2, v2, x2, y2, z2⟩ := Sampler.movePositiveX_spec _ c1
    exact Sampler.observablyEqual_of_consistent _ _ c2 h (v2.trans v1)
      (by omega) (by omega) (by omega)
  · obtain ⟨c1, v1, x1, y1, z1⟩ := Sampler.movePositiveY_spec t h
    obtain ⟨c2, v2, x2, y2, z2⟩ := Sampler.moveNegativeY_spec _ c1
    exact Sampler.observablyEqual_of_consistent _ _ c2 h (v2.trans v1)
      (by omega) (by omega) (by omega)
  · obtain ⟨c1, v1, x1, y1, z1⟩ := Sampler.moveNegativeY_spec t h
    obtain ⟨c2, v2, x2, y2, z2⟩ := Sampler.movePositiveY_spec _ c1
    exact Sampler.observablyEqual_of_consistent _ _ c2 h (v2.trans v1)
      (by omega) (by omega) (by omega)
  · obtain ⟨c1, v1, x1, y1, z1⟩ := Sampler.movePositiveZ_spec t h
    obtain ⟨c2, v2, x2, y2, z2⟩ := Sampler.moveNegativeZ_spec _ c1
    exact Sampler.observablyEqual_of_consistent _ _ c2 h (v2.trans v1)
      (by omega) (by omega) (by omega)
  · obtain ⟨c1, v1, x1, y1, z1⟩ := Sampler.moveNegativeZ_spec t h
    obtain ⟨c2, v2, x2, y2, z2⟩ := Sampler.movePositiveZ_spec _ c1
    exact Sampler.observablyEqual_of_consistent _ _ c2 h (v2.trans v1)
      (by omega) (by omega) (by omega)

/-- C7: for every sampler state reached by `setPosition` (at any position, inside or
outside the region) and each of the three axes, one step in the positive direction
followed by one step in the negative direction, and likewise negative then positive,
yields a state with the same position, the same `isCurrentPositionValid()` result and
the same `getVoxel()` result as before the two moves. -/
theorem C7_move_and_back (s : Sampler) (x y z : Int) :
    (s.setPosition x y z).movePositiveX.moveNegativeX.ObservablyEqual (s.setPosition x y z)
      ∧ (s.setPosition x y z).moveNegativeX.movePositiveX.ObservablyEqual (s.setPosition x y z)
      ∧ (s.setPosition x y z).movePositiveY.moveNegativeY.ObservablyEqual (s.setPosition x y z)
      ∧ (s.setPosition x y z).moveNegativeY.movePositiveY.ObservablyEqual (s.setPosition x y z)
      ∧ (s.setPosition x y z).movePositiveZ.moveNegativeZ.ObservablyEqual (s.setPosition x y z)
      ∧ (s.setPosition x y z).moveNegativeZ.movePositiveZ.ObservablyEqual (s.setPosition x y z) :=
  Sampler.roundTrip_observablyEqual _ (Sampler.setPosition_consistent s x y z)

/-! ## Translation -/

theorem Region.containsPoint_translate (r : Region) (vx vy vz x y z : Int) :
    (r.translate vx vy vz).containsPoint (x + vx) (y + vy) (z + vz) = r.containsPoint x y z := by
  rw [Bool.eq_iff_iff, Region.containsPoint_iff, Region.containsPoint_iff]
  simp only [Region.translate]
  omega

theorem RawVolume.voxelIndex_translate (v : RawVolume) (vx vy vz x y z : Int) :
    (v.translate vx vy vz).voxelIndex (x + vx) (y + vy) (z + vz) = v.voxelIndex x y z := by
  simp only [RawVolume.voxelIndex, RawVolume.translate, RawVolume.getWidth, RawVolume.getHeight,
    Region.translate, Region.getWidthInVoxels, Region.getHeightInVoxels, Region.getLowerX,
    Region.getLowerY, Region.getLowerZ, Region.getUpperX, Region.getUpperY]
  ring

/-- A translated volume reads at `p + v` what the volume read at `p`. -/
theorem RawVolume.getVoxel_translate (v : RawVolume) (vx vy vz x y z : Int) :
    (v.translate vx vy vz).getVoxel (x + vx) (y + vy) (z + vz) = v.getVoxel x y z := by
  unfold RawVolume.getVoxel
  rw [RawVolume.voxelIndex_translate]
  have hc : (v.translate vx vy vz).m_regValidRegion.containsPoint (x + vx) (y + vy) (z + vz)
      = v.m_regValidRegion.containsPoint x y z := Region.containsPoint_translate _ _ _ _ _ _ _
  rw [hc]
  rfl

/-- C8: for every region r and every integer vector v, the translated region has the
same width, height and depth as r, its lower and upper bounds are those of r plus v,
and for every point p it contains p + v if and only if r contains p; the region
(0,0,0)-(3,0,0) translated by (5,0,0) is (5,0,0)-(8,0,0) with width 4. -/
theorem C8_region_translate (r : Region) (vx vy vz : Int) :
    ((r.translate vx vy vz).getWidthInVoxels = r.getWidthInVoxels
        ∧ (r.translate vx vy vz).getHeightInVoxels = r.getHeightInVoxels
        ∧ (r.translate vx vy vz).getDepthInVoxels = r.getDepthInVoxels)
      ∧ ((r.translate vx vy vz).getLowerX = r.getLowerX + vx
        ∧ (r.translate vx vy vz).getLowerY = r.getLowerY + vy
        ∧ (r.translate vx vy vz).getLowerZ = r.getLowerZ + vz
        ∧ (r.translate vx vy vz).getUpperX = r.getUpperX + vx
        ∧ (r.translate vx vy vz).getUpperY = r.getUpperY + vy
        ∧ (r.translate vx vy vz).getUpperZ = r.getUpperZ + vz)
      ∧ (∀ x y z : Int,
          (r.translate vx vy vz).containsPoint (x + vx) (y + vy) (z + vz) = true
            ↔ r.containsPoint x y z = true)
      ∧ ((Region.mk 0 0 0 3 0 0).translate 5 0 0 = Region.mk 5 0 0 8 0 0
        ∧ (Region.mk 0 0 0 3 0 0).getWidthInVoxels = 4
        ∧ ((Region.mk 0 0 0 3 0 0).translate 5 0 0).getWidthInVoxels = 4) := by
  refine ⟨⟨?_, ?_, ?_⟩, ⟨rfl, rfl, rfl, rfl, rfl, rfl⟩, ?_, ⟨by decide, by decide, by decide⟩⟩
  · simp only [Region.getWidthInVoxels, Region.translate, Region.getUpperX, Region.getLowerX]
    ring
  · simp only [Region.getHeightInVoxels, Region.translate, Region.getUpperY, Region.getLowerY]
    ring
  · simp only [Region.getDepthInVoxels, Region.translate, Region.getUpperZ, Region.getLowerZ]
    ring
  · intro x y z
    rw [Region.containsPoint_translate]

/-- C9: for every volume and every integer vector v, translating the volume, directly
or through `SceneGraphNode::translate` on a node bound to it, leaves the voxel buffer
and the border value unchanged and shifts only the coordinates: for every point p,
`getVoxel(p + v)` after the translation equals `getVoxel(p)` before it; through the
node no other volume changes and nothing is freed; `SceneGraphNode::translate` on a
node with no volume changes nothing. -/
theorem C9_translate_shifts_coordinates {Mat Pivot : Type} (vol : RawVolume) (vx vy vz : Int)
    (n : SceneGraphNode Mat Pivot) (h : Heap) :
    ((vol.translate vx vy vz).m_pData = vol.m_pData
        ∧ (vol.translate vx vy vz).getBorderValue = vol.getBorderValue
        ∧ ∀ x y z : Int,
            (vol.translate vx vy vz).getVoxel (x + vx) (y + vy) (z + vz) = vol.getVoxel x y z)
      ∧ (∀ a : Nat, n._volume = some a → h.vol a = some vol →
          ∃ h1 vol1, n.translate h vx vy vz = some (n, h1)
            ∧ h1.vol a = some vol1
            ∧ vol1.m_pData = vol.m_pData
            ∧ vol1.getBorderValue = vol.getBorderValue
            ∧ (∀ x y z : Int, vol1.getVoxel (x + vx) (y + vy) (z + vz) = vol.getVoxel x y z)
            ∧ (∀ b : Nat, b ≠ a → h1.vol b = h.vol b)
            ∧ h1.freed = h.freed)
      ∧ (n._volume = none → n.translate h vx vy vz = some (n, h)) := by
  refine ⟨⟨rfl, rfl, fun x y z => RawVolume.getVoxel_translate vol vx vy vz x y z⟩, ?_, ?_⟩
  · intro a ha hv
    refine ⟨h.write a (vol.translate vx vy vz), vol.translate vx vy vz, ?_, ?_, rfl, rfl,
      fun x y z => RawVolume.getVoxel_translate vol vx vy vz x y z, ?_, rfl⟩
    · simp [SceneGraphNode.translate, ha, hv]
    · simp [Heap.write]
    · intro b hb
      simp [Heap.write, hb]
  · intro hn
    simp [SceneGraphNode.translate, hn]

/-- Worked instance of C9: the scenario node, bound to the scenario volume at address
7, translated by (5,0,0): the cell B is then read at (6,1,1). -/
theorem C9_translate_shifts_coordinates_witness :
    scenarioNode._volume = some 7 ∧ scenarioHeap.vol 7 = some scenarioVolume
      ∧ (scenarioVolume.translate 5 0 0).getVoxel 6 1 1 = some voxelB
      ∧ ∃ h1 vol1, scenarioNode.translate scenarioHeap 5 0 0 = some (scenarioNode, h1)
          ∧ h1.vol 7 = some vol1
          ∧ vol1.m_pData = scenarioVolume.m_pData
          ∧ vol1.getBorderValue = scenarioVolume.getBorderValue
          ∧ (∀ x y z : Int, vol1.getVoxel (x + 5) (y + 0) (z + 0) = scenarioVolume.getVoxel x y z)
          ∧ (∀ b : Nat, b ≠ 7 → h1.vol b = scenarioHeap.vol b)
          ∧ h1.freed = scenarioHeap.freed :=
  ⟨rfl, rfl, by decide,
    (C9_translate_shifts_coordinates scenarioVolume 5 0 0 scenarioNode scenarioHeap).2.1 7
      rfl rfl⟩

/-- C10: for every node s, move-constructing a node n from s gives n exactly s's
previous volume pointer, volumeOwned flag, name, id, parent, modelId, referencedNodeId,
transform, properties, children, type, visible, locked and pivot, and leaves s with a
null volume, volumeOwned false and id, parent, modelId and referencedNodeId all equal
to -1, so that `release()` on s frees nothing: it leaves the free store as it was. -/
theorem C10_move_constructor {Mat Pivot : Type} (s : SceneGraphNode Mat Pivot)
    (movedProperties : List (String × String)) (movedChildren : List Int) (h : Heap) :
    ((s.moveConstruct movedProperties movedChildren).1._volume = s._volume
        ∧ (s.moveConstruct movedProperties movedChildren).1._volumeOwned = s._volumeOwned
        ∧ (s.moveConstruct movedProperties movedChildren).1._name = s._name
        ∧ (s.moveConstruct movedProperties movedChildren).1._id = s._id
        ∧ (s.moveConstruct movedProperties movedChildren).1._parent = s._parent
        ∧ (s.moveConstruct movedProperties movedChildren).1._modelId = s._modelId
        ∧ (s.moveConstruct movedProperties movedChildren).1._referencedNodeId
            = s._referencedNodeId
        ∧ (s.moveConstruct movedProperties movedChildren).1._mat = s._mat
        ∧ (s.moveConstruct movedProperties movedChildren).1._properties = s._properties
        ∧ (s.moveConstruct movedProperties movedChildren).1._children = s._children
        ∧ (s.moveConstruct movedProperties movedChildren).1._type = s._type
        ∧ (s.moveConstruct movedProperties movedChildren).1._visible = s._visible
        ∧ (s.moveConstruct movedProperties movedChildren).1._locked = s._locked
        ∧ (s.moveConstruct movedProperties movedChildren).1._pivot = s._pivot)
      ∧ ((s.moveConstruct movedProperties movedChildren).2._volume = none
        ∧ (s.moveConstruct movedProperties movedChildren).2._volumeOwned = false
        ∧ (s.moveConstruct movedProperties movedChildren).2._id = -1
        ∧ (s.moveConstruct movedProperties movedChildren).2._parent = -1
        ∧ (s.moveConstruct movedProperties movedChildren).2._modelId = -1
        ∧ (s.moveConstruct movedProperties movedChildren).2._referencedNodeId = -1)
      ∧ (((s.moveConstruct movedProperties movedChildren).2.release h).2 = h
        ∧ ((s.moveConstruct movedProperties movedChildren).2.release h).2.freed = h.freed
        ∧ ((s.moveConstruct movedProperties movedChildren).2.release h).1._volume = none) :=
  ⟨⟨rfl, rfl, rfl, rfl, rfl, rfl, rfl, rfl, rfl, rfl, rfl, rfl, rfl, rfl⟩,
    ⟨rfl, rfl, rfl, rfl, rfl, rfl⟩, ⟨rfl, rfl, rfl⟩⟩

/-! ## Ownership of the volume in `SceneGraphNode` -/

/-- What `release` does to the free store: `delete` on the volume pointer when the node
owns its volume, nothing otherwise. -/
theorem SceneGraphNode.release_heap {Mat Pivot : Type} (n : SceneGraphNode Mat Pivot)
    (h : Heap) :
    (n._volumeOwned = true → (n.release h).2 = h.delete n._volume)
      ∧ (n._volumeOwned = false → (n.release h).2 = h) := by
  constructor <;> intro ho <;> simp [SceneGraphNode.release, ho]

/-- Deleting a bound volume appends its address to the log of freed addresses. -/
theorem Heap.delete_some_freed (h : Heap) (p : Nat) :
    (h.delete (some p)).freed = h.freed ++ [p] ∧ (h.delete (some p)).vol p = none := by
  simp [Heap.delete]

/-- The freed log tells whether `release` deleted the bound volume `p`. -/
theorem SceneGraphNode.release_frees_iff {Mat Pivot : Type} (n : SceneGraphNode Mat Pivot)
    (h : Heap) (p : Nat) (hp : n._volume = some p) :
    (n.release h).2.freed = h.freed ++ [p] ↔ n._volumeOwned = true := by
  cases ho : n._volumeOwned
  · simp [SceneGraphNode.release, ho]
  · simp [SceneGraphNode.release, ho, hp, Heap.delete]

/-- C11: for every two distinct nodes a (at `thisAddr`) and s (at `moveAddr`), the move
assignment a = move(s) gives a exactly s's previous volume pointer and volumeOwned flag
(and id, parent, modelId, referencedNodeId, name, transform, properties, children, type,
visible, locked, pivot), frees a's previously bound volume (when there is one) if and
only if a owned it, leaves every other node alone, and leaves s with a null volume and
volumeOwned false so that `release()` on s frees nothing; when a and s are the same
node the assignment changes nothing. -/
theorem C11_move_assignment {Mat Pivot : Type} (nodes : Nat → SceneGraphNode Mat Pivot)
    (h : Heap) (thisAddr moveAddr : Nat) (movedProperties : List (String × String))
    (movedChildren : List Int) (r : (Nat → SceneGraphNode Mat Pivot) × Heap)
    (hr : r = SceneGraphNode.moveAssign nodes h thisAddr moveAddr movedProperties movedChildren)
    (hne : thisAddr ≠ moveAddr) :
    ((r.1 thisAddr)._volume = (nodes moveAddr)._volume
        ∧ (r.1 thisAddr)._volumeOwned = (nodes moveAddr)._volumeOwned
        ∧ (r.1 thisAddr)._id = (nodes moveAddr)._id
        ∧ (r.1 thisAddr)._parent = (nodes moveAddr)._parent
        ∧ (r.1 thisAddr)._modelId = (nodes moveAddr)._modelId
        ∧ (r.1 thisAddr)._referencedNodeId = (nodes moveAddr)._referencedNodeId
        ∧ (r.1 thisAddr)._name = (nodes moveAddr)._name
        ∧ (r.1 thisAddr)._mat = (nodes moveAddr)._mat
        ∧ (r.1 thisAddr)._properties = (nodes moveAddr)._properties
        ∧ (r.1 thisAddr)._children = (nodes moveAddr)._children
        ∧ (r.1 thisAddr)._type = (nodes moveAddr)._type
        ∧ (r.1 thisAddr)._visible = (nodes moveAddr)._visible
        ∧ (r.1 thisAddr)._locked = (nodes moveAddr)._locked
        ∧ (r.1 thisAddr)._pivot = (nodes moveAddr)._pivot)
      ∧ (((nodes thisAddr)._volumeOwned = true → r.2 = h.delete (nodes thisAddr)._volume)
        ∧ ((nodes thisAddr)._volumeOwned = false → r.2 = h)
        ∧ ∀ p : Nat, (nodes thisAddr)._volume = some p →
            (r.2.freed = h.freed ++ [p] ↔ (nodes thisAddr)._volumeOwned = true))
      ∧ ((r.1 moveAddr)._volume = none
        ∧ (r.1 moveAddr)._volumeOwned = false
        ∧ ∀ h1 : Heap, ((r.1 moveAddr).release h1).2 = h1)
      ∧ (∀ a : Nat, a ≠ thisAddr → a ≠ moveAddr → r.1 a = nodes a)
      ∧ SceneGraphNode.moveAssign nodes h thisAddr thisAddr movedProperties movedChildren
          = (nodes, h) := by
  subst hr
  have hne2 : ¬ moveAddr = thisAddr := fun e => hne e.symm
  have hA : (SceneGraphNode.moveAssign nodes h thisAddr moveAddr movedProperties movedChildren).1
      thisAddr = (SceneGraphNode.moveAssignFrom (nodes thisAddr) (nodes moveAddr) h
        movedProperties movedChildren).1 := by
    simp [SceneGraphNode.moveAssign, hne2]
  have hS : (SceneGraphNode.moveAssign nodes h thisAddr moveAddr movedProperties movedChildren).1
      moveAddr = (SceneGraphNode.moveAssignFrom (nodes thisAddr) (nodes moveAddr) h
        movedProperties movedChildren).2.1 := by
    simp [SceneGraphNode.moveAssign, hne2]
  have hH : (SceneGraphNode.moveAssign nodes h thisAddr moveAddr movedProperties movedChildren).2
      = ((nodes thisAddr).release h).2 := by
    simp [SceneGraphNode.moveAssign, hne2, SceneGraphNode.moveAssignFrom,
      SceneGraphNode.setVolume]
  rw [hA, hS, hH]
  refine ⟨⟨rfl, rfl, rfl, rfl, rfl, rfl, rfl, rfl, rfl, rfl, rfl, rfl, rfl, rfl⟩,
    ⟨(SceneGraphNode.release_heap _ h).1, (SceneGraphNode.release_heap _ h).2,
      fun p hp => SceneGraphNode.release_frees_iff _ h p hp⟩,
    ⟨rfl, rfl, fun h1 => rfl⟩, ?_, by simp [SceneGraphNode.moveAssign]⟩
  intro a ha1 ha2
  simp [SceneGraphNode.moveAssign, hne2, ha1, ha2]

/-- Worked instance of C11: the scenario node at address 1, which owns the volume at
address 7, is assigned from the reference node at address 2, which has no volume: the
volume at 7 is freed and the assigned node has no volume. -/
theorem C11_move_assignment_witness :
    (1 : Nat) ≠ 2
      ∧ (SceneGraphNode.moveAssign scenarioNodes scenarioHeap 1 2 [] []).2.freed = [7]
      ∧ ((SceneGraphNode.moveAssign scenarioNodes scenarioHeap 1 2 [] []).1 1)._volume = none
      ∧ ((SceneGraphNode.moveAssign scenarioNodes scenarioHeap 1 2 [] []).1 1)._volume
          = (scenarioNodes 2)._volume
      ∧ ((SceneGraphNode.moveAssign scenarioNodes scenarioHeap 1 2 [] []).2.freed
            = scenarioHeap.freed ++ [7]
          ↔ (scenarioNodes 1)._volumeOwned = true) :=
  ⟨by decide, by decide, by decide,
    (C11_move_assignment scenarioNodes scenarioHeap 1 2 [] [] _ rfl (by decide)).1.1,
    (C11_move_assignment scenarioNodes scenarioHeap 1 2 [] [] _ rfl (by decide)).2.1.2.2 7 rfl⟩

/-- C12: for every node state, volume v and flag t, `setVolume(v, t)` frees the
previously bound volume (when there is one) if and only if the node owned it, and afterwards the node's
volume is v and its volumeOwned flag is t, every other field being as before; the const
and non-const overloads produce the same resulting node state and free the same volume. -/
theorem C12_setVolume {Mat Pivot : Type} (n : SceneGraphNode Mat Pivot) (h : Heap)
    (volume : VolumePtr) (transferOwnership : Bool) :
    ((n.setVolume h volume transferOwnership).1._volume = volume
        ∧ (n.setVolume h volume transferOwnership).1._volumeOwned = transferOwnership)
      ∧ ((n._volumeOwned = true →
            (n.setVolume h volume transferOwnership).2 = h.delete n._volume)
        ∧ (n._volumeOwned = false → (n.setVolume h volume transferOwnership).2 = h)
        ∧ ∀ p : Nat, n._volume = some p →
            ((n.setVolume h volume transferOwnership).2.freed = h.freed ++ [p]
              ↔ n._volumeOwned = true))
      ∧ ((n.setVolume h volume transferOwnership).1._name = n._name
        ∧ (n.setVolume h volume transferOwnership).1._id = n._id
        ∧ (n.setVolume h volume transferOwnership).1._parent = n._parent
        ∧ (n.setVolume h volume transferOwnership).1._modelId = n._modelId
        ∧ (n.setVolume h volume transferOwnership).1._referencedNodeId = n._referencedNodeId
        ∧ (n.setVolume h volume transferOwnership).1._mat = n._mat
        ∧ (n.setVolume h volume transferOwnership).1._properties = n._properties
        ∧ (n.setVolume h volume transferOwnership).1._children = n._children
        ∧ (n.setVolume h volume transferOwnership).1._type = n._type
        ∧ (n.setVolume h volume transferOwnership).1._visible = n._visible
        ∧ (n.setVolume h volume transferOwnership).1._locked = n._locked
        ∧ (n.setVolume h volume transferOwnership).1._pivot = n._pivot)
      ∧ n.setVolumeConst h volume transferOwnership = n.setVolume h volume transferOwnership :=
  ⟨⟨rfl, rfl⟩,
    ⟨(SceneGraphNode.release_heap n h).1, (SceneGraphNode.release_heap n h).2,
      fun p hp => SceneGraphNode.release_frees_iff n h p hp⟩,
    ⟨rfl, rfl, rfl, rfl, rfl, rfl, rfl, rfl, rfl, rfl, rfl, rfl⟩, rfl⟩

/-- Worked instance of C12: the scenario node, which owns the volume at address 7, is
bound to the volume at address 9 without ownership: 7 is freed. -/
theorem C12_setVolume_witness :
    scenarioNode._volume = some 7
      ∧ (scenarioNode.setVolume scenarioHeap (some 9) false).2.freed = [7]
      ∧ ((scenarioNode.setVolume scenarioHeap (some 9) false).2.freed
            = scenarioHeap.freed ++ [7]
          ↔ scenarioNode._volumeOwned = true) :=
  ⟨rfl, by decide,
    (C12_setVolume scenarioNode scenarioHeap (some 9) false).2.1.2.2 7 rfl⟩

/-- C13: for every node state, `release()` frees the bound volume (when there is one)
if and only if volumeOwned is true (a non-owning node leaves the free store as it was), always leaves
the volume pointer null, and is idempotent: a second `release()` frees nothing and
leaves the node in the same state as the first. -/
theorem C13_release {Mat Pivot : Type} (n : SceneGraphNode Mat Pivot) (h : Heap) :
    ((n._volumeOwned = true → (n.release h).2 = h.delete n._volume)
        ∧ (n._volumeOwned = false → (n.release h).2 = h)
        ∧ ∀ p : Nat, n._volume = some p →
            ((n.release h).2.freed = h.freed ++ [p] ∧ (n.release h).2.vol p = none
              ↔ n._volumeOwned = true))
      ∧ (n.release h).1._volume = none
      ∧ (((n.release h).1.release (n.release h).2).2 = (n.release h).2
        ∧ ((n.release h).1.release (n.release h).2).1 = (n.release h).1) := by
  refine ⟨⟨(SceneGraphNode.release_heap n h).1, (SceneGraphNode.release_heap n h).2, ?_⟩,
    rfl, ?_, rfl⟩
  · intro p hp
    constructor
    · intro hf
      exact (SceneGraphNode.release_frees_iff n h p hp).1 hf.1
    · intro ho
      rw [(SceneGraphNode.release_heap n h).1 ho, hp]
      exact Heap.delete_some_freed h p
  · cases ho : n._volumeOwned <;> simp [SceneGraphNode.release, ho, Heap.delete]

/-- Worked instance of C13: releasing the scenario node frees the volume at address 7,
and a second release frees nothing more. -/
theorem C13_release_witness :
    scenarioNode._volume = some 7
      ∧ (scenarioNode.release scenarioHeap).2.freed = [7]
      ∧ ((scenarioNode.release scenarioHeap).1.release
            (scenarioNode.release scenarioHeap).2).2.freed = [7]
      ∧ ((scenarioNode.release scenarioHeap).2.freed = scenarioHeap.freed ++ [7]
            ∧ (scenarioNode.release scenarioHeap).2.vol 7 = none
          ↔ scenarioNode._volumeOwned = true) :=
  ⟨rfl, by decide, by decide, (C13_release scenarioNode scenarioHeap).1.2.2 7 rfl⟩

/-- C14: for every node state, `releaseOwnership()` sets volumeOwned to false, frees
nothing (it does not touch the free store) and leaves the volume pointer and every
other field unchanged; a `release()` made afterwards frees nothing: it leaves the free
store as it was. -/
theorem C14_releaseOwnership {Mat Pivot : Type} (n : SceneGraphNode Mat Pivot) (h : Heap) :
    n.releaseOwnership._volumeOwned = false
      ∧ (n.releaseOwnership._volume = n._volume
        ∧ n.releaseOwnership._name = n._name
        ∧ n.releaseOwnership._id = n._id
        ∧ n.releaseOwnership._parent = n._parent
        ∧ n.releaseOwnership._modelId = n._modelId
        ∧ n.releaseOwnership._referencedNodeId = n._referencedNodeId
        ∧ n.releaseOwnership._mat = n._mat
        ∧ n.releaseOwnership._properties = n._properties
        ∧ n.releaseOwnership._children = n._children
        ∧ n.releaseOwnership._type = n._type
        ∧ n.releaseOwnership._visible = n._visible
        ∧ n.releaseOwnership._locked = n._locked
        ∧ n.releaseOwnership._pivot = n._pivot)
      ∧ (n.releaseOwnership.release h).2 = h :=
  ⟨rfl, ⟨rfl, rfl, rfl, rfl, rfl, rfl, rfl, rfl, rfl, rfl, rfl, rfl, rfl⟩, rfl⟩

/-- C15: for every node, `region()` returns the region of the bound volume when a
volume is bound and the invalid sentinel region `Region::InvalidRegion` when the volume
pointer is null; in particular it returns the sentinel after `release()` and for a
node that was moved from, by the move constructor or by the move assignment. -/
theorem C15_region {Mat Pivot : Type} (n other : SceneGraphNode Mat Pivot) (h : Heap)
    (movedProperties : List (String × String)) (movedChildren : List Int) :
    (∀ (a : Nat) (vol : RawVolume), n._volume = some a → h.vol a = some vol →
        n.region h = some vol.getEnclosingRegion)
      ∧ (n._volume = none → n.region h = some Region.InvalidRegion)
      ∧ (n.release h).1.region (n.release h).2 = some Region.InvalidRegion
      ∧ (n.moveConstruct movedProperties movedChildren).2.region h
          = some Region.InvalidRegion
      ∧ (SceneGraphNode.moveAssignFrom other n h movedProperties movedChildren).2.1.region
            (SceneGraphNode.moveAssignFrom other n h movedProperties movedChildren).2.2
          = some Region.InvalidRegion := by
  refine ⟨?_, ?_, rfl, rfl, rfl⟩
  · intro a vol ha hv
    simp [SceneGraphNode.region, ha, hv]
  · intro hn
    simp [SceneGraphNode.region, hn]

/-- Worked instance of C15: the scenario node is bound to the scenario volume, whose
region is (0,0,0)-(1,1,1); the reference node has no volume. -/
theorem C15_region_witness :
    scenarioNode._volume = some 7 ∧ scenarioHeap.vol 7 = some scenarioVolume
      ∧ scenarioNode.region scenarioHeap = some scenarioVolume.getEnclosingRegion
      ∧ scenarioNode.region scenarioHeap = some scenarioRegion
      ∧ scenarioReferenceNode.region scenarioHeap = some Region.InvalidRegion :=
  ⟨rfl, rfl,
    (C15_region scenarioNode scenarioNode scenarioHeap [] []).1 7 scenarioVolume rfl rfl,
    by decide, by decide⟩

/-! ## The property map -/

theorem StringMap.get_put_same (m : StringMap) (key value d : String) :
    StringMap.get (StringMap.put m key value) key d = (true, value) := by
  induction m with
  | nil => simp [StringMap.put, StringMap.get]
  | cons e rest ih =>
    by_cases he : e.1 = key
    · simp [StringMap.put, StringMap.get, he]
    · simp [StringMap.put, StringMap.get, he, ih]

theorem StringMap.get_put_ne (m : StringMap) (key value other d : String)
    (hne : other ≠ key) :
    StringMap.get (StringMap.put m key value) other d = StringMap.get m other d := by
  induction m with
  | nil => simp [StringMap.put, StringMap.get, Ne.symm hne]
  | cons e rest ih =>
    by_cases he : e.1 = key
    · have h1 : ¬ e.1 = other := fun h => hne (h.symm.trans he)
      simp [StringMap.put, StringMap.get, he, h1, Ne.symm hne]
    · by_cases ho : e.1 = other
      · simp [StringMap.put, StringMap.get, he, ho, hne]
      · simp [StringMap.put, StringMap.get, he, ho, ih]

/-- A key without an entry is reported absent and leaves the out-parameter alone. -/
theorem StringMap.get_of_not_mem (m : StringMap) (key d : String)
    (h : ∀ value, (key, value) ∉ m) : StringMap.get m key d = (false, d) := by
  induction m with
  | nil => rfl
  | cons e rest ih =>
    have he : ¬ e.1 = key := by
      intro hk
      apply h e.2
      rw [← hk]
      exact List.mem_cons_self _ _
    have hr : ∀ value, (key, value) ∉ rest := fun value hm =>
      h value (List.mem_cons_of_mem _ hm)
    simp [StringMap.get, he, ih hr]

/-- In a map with pairwise different keys an entry is what `get` finds for its key. -/
theorem StringMap.get_of_mem (m : StringMap) (hm : StringMap.UniqueKeys m)
    (key value d : String) (h : (key, value) ∈ m) :
    StringMap.get m key d = (true, value) := by
  induction m with
  | nil => cases h
  | cons e rest ih =>
    unfold StringMap.UniqueKeys at hm ih
    rw [List.map_cons, List.nodup_cons] at hm
    rcases List.mem_cons.1 h with heq | hin
    · subst heq
      simp [StringMap.get]
    · have he : ¬ e.1 = key := by
        intro hk
        apply hm.1
        rw [hk]
        exact List.mem_map_of_mem Prod.fst hin
      simp only [StringMap.get, he, if_false]
      exact ih hm.2 hin

theorem StringMap.mem_keys_put (m : StringMap) (key value other : String)
    (h : other ∈ (StringMap.put m key value).map Prod.fst) :
    other ∈ m.map Prod.fst ∨ other = key := by
  induction m with
  | nil =>
    right
    simpa [StringMap.put] using h
  | cons e rest ih =>
    by_cases he : e.1 = key
    · simp only [StringMap.put, he, if_true, List.map_cons, List.mem_cons] at h
      rcases h with h1 | h2
      · exact Or.inr h1
      · exact Or.inl (by simp [h2])
    · simp only [StringMap.put, he, if_false, List.map_cons, List.mem_cons] at h
      rcases h with h1 | h2
      · exact Or.inl (by simp [h1])
      · rcases ih h2 with h3 | h4
        · exact Or.inl (by simp [h3])
        · exact Or.inr h4

/-- The modelled `put` keeps the keys of a map pairwise different. -/
theorem StringMap.put_uniqueKeys (m : StringMap) (key value : String)
    (hm : StringMap.UniqueKeys m) : StringMap.UniqueKeys (StringMap.put m key value) := by
  induction m with
  | nil => simp [StringMap.UniqueKeys, StringMap.put]
  | cons e rest ih =>
    unfold StringMap.UniqueKeys at hm ih ⊢
    rw [List.map_cons, List.nodup_cons] at hm
    by_cases he : e.1 = key
    · simp only [StringMap.put, he, if_true, List.map_cons, List.nodup_cons]
      exact ⟨he ▸ hm.1, hm.2⟩
    · simp only [StringMap.put, he, if_false, List.map_cons, List.nodup_cons]
      refine ⟨fun hin => ?_, ih hm.2⟩
      rcases StringMap.mem_keys_put rest key value e.1 hin with h1 | h2
      · exact hm.1 h1
      · exact he h2

theorem SceneGraphNode.property_setProperty_same {Mat Pivot : Type}
    (n : SceneGraphNode Mat Pivot) (key value : String) :
    (n.setProperty key value).property key = value := by
  simp [SceneGraphNode.property, SceneGraphNode.setProperty, StringMap.get_put_same]

theorem SceneGraphNode.property_setProperty_ne {Mat Pivot : Type}
    (n : SceneGraphNode Mat Pivot) (key value other : String) (hne : other ≠ key) :
    (n.setProperty key value).property other = n.property other := by
  simp [SceneGraphNode.property, SceneGraphNode.setProperty,
    StringMap.get_put_ne _ _ _ _ _ hne]

/-- Adding a map leaves the property of every key that the map does not hold. -/
theorem SceneGraphNode.property_addProperties_of_not_mem {Mat Pivot : Type}
    (map : StringMap) (key : String) (h : ∀ value, (key, value) ∉ map) :
    ∀ n : SceneGraphNode Mat Pivot, (n.addProperties map).property key = n.property key := by
  induction map with
  | nil => intro n; rfl
  | cons e rest ih =>
    intro n
    have he : key ≠ e.1 := by
      intro hk
      apply h e.2
      rw [hk]
      exact List.mem_cons_self _ _
    have hr : ∀ value, (key, value) ∉ rest := fun value hm =>
      h value (List.mem_cons_of_mem _ hm)
    show ((n.setProperty e.1 e.2).addProperties rest).property key = n.property key
    rw [ih hr, SceneGraphNode.property_setProperty_ne n e.1 e.2 key he]

/-- Adding a map with pairwise different keys sets the property of each of its keys. -/
theorem SceneGraphNode.property_addProperties_of_mem {Mat Pivot : Type}
    (map : StringMap) (key value : String) :
    StringMap.UniqueKeys map → (key, value) ∈ map →
      ∀ n : SceneGraphNode Mat Pivot, (n.addProperties map).property key = value := by
  induction map with
  | nil => intro _ h; cases h
  | cons e rest ih =>
    intro hm h n
    unfold StringMap.UniqueKeys at hm ih
    rw [List.map_cons, List.nodup_cons] at hm
    show ((n.setProperty e.1 e.2).addProperties rest).property key = value
    rcases List.mem_cons.1 h with heq | hin
    · subst heq
      have hr : ∀ v, (key, v) ∉ rest := fun v hv =>
        hm.1 (List.mem_map.2 ⟨(key, v), hv, rfl⟩)
      rw [SceneGraphNode.property_addProperties_of_not_mem rest key hr,
        SceneGraphNode.property_setProperty_same]
    · exact ih hm.2 hin _

/-- C16: for every node and every property map m (a map: its keys are pairwise
different), after `addProperties(m)` the call `property(k)` returns m's value for every
key k present in m, whatever value the node held for k before, and returns the node's
previous value for every key not present in m. -/
theorem C16_addProperties {Mat Pivot : Type} (n : SceneGraphNode Mat Pivot) (map : StringMap)
    (hmap : StringMap.UniqueKeys map) (key : String) :
    (∀ value, (key, value) ∈ map → (n.addProperties map).property key = value)
      ∧ ((∀ value, (key, value) ∉ map) →
          (n.addProperties map).property key = n.property key) :=
  ⟨fun value hm => SceneGraphNode.property_addProperties_of_mem map key value hmap hm n,
    fun hn => SceneGraphNode.property_addProperties_of_not_mem map key hn n⟩

/-- Worked instance of C16: the scenario node holds "k" = "v"; adding the map
"k" = "w", "n" = "1" overwrites "k", sets "n" and leaves the absent key "z" empty. -/
theorem C16_addProperties_witness :
    StringMap.UniqueKeys [("k", "w"), ("n", "1")]
      ∧ scenarioNode.property "k" = "v"
      ∧ (scenarioNode.addProperties [("k", "w"), ("n", "1")]).property "k" = "w"
      ∧ (scenarioNode.addProperties [("k", "w"), ("n", "1")]).property "n" = "1"
      ∧ (scenarioNode.addProperties [("k", "w"), ("n", "1")]).property "z"
          = scenarioNode.property "z" :=
  ⟨by decide, by decide,
    (C16_addProperties scenarioNode [("k", "w"), ("n", "1")] (by decide) "k").1 "w"
      (by decide),
    (C16_addProperties scenarioNode [("k", "w"), ("n", "1")] (by decide) "n").1 "1"
      (by decide),
    (C16_addProperties scenarioNode [("k", "w"), ("n", "1")] (by decide) "z").2
      (by intro value hm; simp at hm)⟩

/-- C17: for every node (whose property map has pairwise different keys) and every key,
`property(key)` returns the stored value when the key is present in the property map
and the empty string when it is absent; it is a `const` member function whose only
result is the returned string, so the map is as before. -/
theorem C17_property {Mat Pivot : Type} (n : SceneGraphNode Mat Pivot) (key : String)
    (hprops : StringMap.UniqueKeys n._properties) :
    (∀ value, (key, value) ∈ n._properties → n.property key = value)
      ∧ ((∀ value, (key, value) ∉ n._properties) → n.property key = "") := by
  constructor
  · intro value hm
    simp [SceneGraphNode.property, StringMap.get_of_mem n._properties hprops key value "" hm]
  · intro hn
    simp [SceneGraphNode.property, StringMap.get_of_not_mem n._properties key "" hn]

/-- Worked instance of C17: the scenario node holds "k" = "v" and nothing for "z". -/
theorem C17_property_witness :
    StringMap.UniqueKeys scenarioNode._properties
      ∧ scenarioNode.property "k" = "v"
      ∧ scenarioNode.property "z" = "" :=
  ⟨by decide,
    (C17_property scenarioNode "k" (by decide)).1 "v" (by decide),
    (C17_property scenarioNode "z" (by decide)).2 (by intro value hm; simp [scenarioNode] at hm)⟩

/-- C18: for every node and every id, `addChild(id)` makes `children()` equal to the
previous child list with id appended at the end, whether or not id was already in the
list (adding the same id twice yields two entries), and leaves every other field
unchanged. -/
theorem C18_addChild {Mat Pivot : Type} (n : SceneGraphNode Mat Pivot) (id : Int) :
    (n.addChild id).children = n.children ++ [id]
      ∧ ((n.addChild id).addChild id).children = n.children ++ [id, id]
      ∧ ((n.addChild id).children.count id = n.children.count id + 1)
      ∧ ((n.addChild id)._volume = n._volume
        ∧ (n.addChild id)._volumeOwned = n._volumeOwned
        ∧ (n.addChild id)._name = n._name
        ∧ (n.addChild id)._id = n._id
        ∧ (n.addChild id)._parent = n._parent
        ∧ (n.addChild id)._modelId = n._modelId
        ∧ (n.addChild id)._referencedNodeId = n._referencedNodeId
        ∧ (n.addChild id)._mat = n._mat
        ∧ (n.addChild id)._properties = n._properties
        ∧ (n.addChild id)._type = n._type
        ∧ (n.addChild id)._visible = n._visible
        ∧ (n.addChild id)._locked = n._locked
        ∧ (n.addChild id)._pivot = n._pivot) := by
  refine ⟨rfl, ?_, ?_, ⟨rfl, rfl, rfl, rfl, rfl, rfl, rfl, rfl, rfl, rfl, rfl, rfl, rfl⟩⟩
  · simp [SceneGraphNode.addChild, SceneGraphNode.children]
  · simp [SceneGraphNode.addChild, SceneGraphNode.children]

/-! ## The reference invariant -/

theorem SceneGraphNode.referenceInvariant_of_fields {Mat Pivot : Type}
    (a b : SceneGraphNode Mat Pivot) (hb : b.ReferenceInvariant)
    (hr : a._referencedNodeId = b._referencedNodeId) (ho : a._volumeOwned = b._volumeOwned)
    (hv : a._volume = b._volume) : a.ReferenceInvariant := by
  unfold SceneGraphNode.ReferenceInvariant SceneGraphNode.ownsVolume at hb ⊢
  rw [hr, ho, hv]
  exact hb

/-- The move assignment between two nodes that satisfy the reference invariant leaves
both with the invariant. -/
theorem SceneGraphNode.moveAssignFrom_referenceInvariant {Mat Pivot : Type}
    (self move : SceneGraphNode Mat Pivot) (h : Heap)
    (movedProperties : List (String × String)) (movedChildren : List Int)
    (hm : move.ReferenceInvariant) :
    (SceneGraphNode.moveAssignFrom self move h movedProperties movedChildren).1.ReferenceInvariant
      ∧ (SceneGraphNode.moveAssignFrom self move h movedProperties
          movedChildren).2.1.ReferenceInvariant := by
  constructor
  · exact SceneGraphNode.referenceInvariant_of_fields _ move hm rfl rfl rfl
  · intro hr
    exact absurd rfl hr

/-- C19 as the code has it: `release`, `releaseOwnership`, the move constructor and the
move assignment preserve the invariant that a node whose referencedNodeId is not -1
does not own a volume, for the nodes they read and write; `setVolume(v, t)` (either
overload) preserves it exactly when the node's referencedNodeId is -1, t is false or v
is null, and otherwise leaves a node that owns a volume and has a referencedNodeId
other than -1. -/
theorem C19_reference_invariant_amended {Mat Pivot : Type} (n : SceneGraphNode Mat Pivot)
    (nodes : Nat → SceneGraphNode Mat Pivot) (h : Heap) (thisAddr moveAddr : Nat)
    (movedProperties : List (String × String)) (movedChildren : List Int)
    (volume : VolumePtr) (transferOwnership : Bool)
    (hn : n.ReferenceInvariant) (hnodes : ∀ a, (nodes a).ReferenceInvariant) :
    (n.release h).1.ReferenceInvariant
      ∧ n.releaseOwnership.ReferenceInvariant
      ∧ ((n.moveConstruct movedProperties movedChildren).1.ReferenceInvariant
        ∧ (n.moveConstruct movedProperties movedChildren).2.ReferenceInvariant)
      ∧ (∀ a, ((SceneGraphNode.moveAssign nodes h thisAddr moveAddr movedProperties
          movedChildren).1 a).ReferenceInvariant)
      ∧ ((n.setVolume h volume transferOwnership).1.ReferenceInvariant
          ↔ (n._referencedNodeId = -1 ∨ transferOwnership = false ∨ volume = none))
      ∧ ((n.setVolumeConst h volume transferOwnership).1.ReferenceInvariant
          ↔ (n._referencedNodeId = -1 ∨ transferOwnership = false ∨ volume = none)) := by
  have hset : (n.setVolume h volume transferOwnership).1.ReferenceInvariant
      ↔ (n._referencedNodeId = -1 ∨ transferOwnership = false ∨ volume = none) := by
    simp only [SceneGraphNode.ReferenceInvariant, SceneGraphNode.ownsVolume,
      SceneGraphNode.setVolume, SceneGraphNode.release]
    cases transferOwnership <;> cases volume <;> simp
  refine ⟨?_, ?_, ⟨?_, ?_⟩, ?_, hset, hset⟩
  · intro _
    simp [SceneGraphNode.ownsVolume, SceneGraphNode.release]
  · intro _
    simp [SceneGraphNode.ownsVolume, SceneGraphNode.releaseOwnership]
  · exact SceneGraphNode.referenceInvariant_of_fields _ n hn rfl rfl rfl
  · intro hr
    exact absurd rfl hr
  · intro a
    unfold SceneGraphNode.moveAssign
    by_cases he : moveAddr = thisAddr
    · simp only [he, if_true]
      exact hnodes a
    · simp only [he, if_false]
      by_cases ha : a = thisAddr
      · simp only [ha, if_true]
        exact (SceneGraphNode.moveAssignFrom_referenceInvariant _ _ h movedProperties
          movedChildren (hnodes moveAddr)).1
      · simp only [ha, if_false]
        by_cases hb : a = moveAddr
        · simp only [hb, if_true]
          exact (SceneGraphNode.moveAssignFrom_referenceInvariant _ _ h movedProperties
            movedChildren (hnodes moveAddr)).2
        · simp only [hb, if_false]
          exact hnodes a

/-- Worked instance of the amended C19 on the scenario nodes: binding the reference
node to a volume without ownership keeps the invariant. -/
theorem C19_reference_invariant_amended_witness :
    scenarioReferenceNode.ReferenceInvariant
      ∧ (∀ a, (scenarioNodes a).ReferenceInvariant)
      ∧ (scenarioReferenceNode.setVolume scenarioHeap (some 7) false).1.ReferenceInvariant
      ∧ (scenarioReferenceNode.release scenarioHeap).1.ReferenceInvariant := by
  have hnodes : ∀ a, (scenarioNodes a).ReferenceInvariant := by
    intro a
    unfold scenarioNodes
    split <;> decide
  have key := C19_reference_invariant_amended scenarioReferenceNode scenarioNodes scenarioHeap
    1 2 [] [] (some 7) false (by decide) hnodes
  exact ⟨by decide, hnodes, key.2.2.2.2.1.2 (Or.inr (Or.inl rfl)), key.1⟩

/-- C19 fails as stated: the reference node (referencedNodeId 3, no volume) satisfies
the invariant, and after `setVolume` binds the volume at address 7 to it with
ownership it owns a volume while its referencedNodeId is still 3. -/
theorem C19_setVolume_breaks_reference_invariant :
    scenarioReferenceNode.ReferenceInvariant
      ∧ (scenarioReferenceNode.setVolume scenarioHeap (some 7) true).1._referencedNodeId = 3
      ∧ (scenarioReferenceNode.setVolume scenarioHeap (some 7) true).1.ownsVolume = true
      ∧ ¬ (scenarioReferenceNode.setVolume scenarioHeap (some 7) true).1.ReferenceInvariant := by
  decide

/-! ## Reachable sampler states -/

theorem Sampler.applyOp_consistent (t : Sampler) (h : t.Consistent) (op : SamplerOp) :
    (t.applyOp op).Consistent ∧ (t.applyOp op).mVolume = t.mVolume := by
  cases op with
  | setPosition x y z => exact ⟨Sampler.setPosition_consistent t x y z, rfl⟩
  | movePositiveX => exact ⟨(Sampler.movePositiveX_spec t h).1, (Sampler.movePositiveX_spec t h).2.1⟩
  | movePositiveY => exact ⟨(Sampler.movePositiveY_spec t h).1, (Sampler.movePositiveY_spec t h).2.1⟩
  | movePositiveZ => exact ⟨(Sampler.movePositiveZ_spec t h).1, (Sampler.movePositiveZ_spec t h).2.1⟩
  | moveNegativeX => exact ⟨(Sampler.moveNegativeX_spec t h).1, (Sampler.moveNegativeX_spec t h).2.1⟩
  | moveNegativeY => exact ⟨(Sampler.moveNegativeY_spec t h).1, (Sampler.moveNegativeY_spec t h).2.1⟩
  | moveNegativeZ => exact ⟨(Sampler.moveNegativeZ_spec t h).1, (Sampler.moveNegativeZ_spec t h).2.1⟩

/-- Every sequence of positioning operations keeps the sampler invariant and the volume. -/
theorem Sampler.runOps_consistent (ops : List SamplerOp) :
    ∀ t : Sampler, t.Consistent → (t.runOps ops).Consistent ∧ (t.runOps ops).mVolume = t.mVolume := by
  induction ops with
  | nil => intro t h; exact ⟨h, rfl⟩
  | cons op ops ih =>
    intro t h
    obtain ⟨h1, v1⟩ := Sampler.applyOp_consistent t h op
    obtain ⟨h2, v2⟩ := ih (t.applyOp op) h1
    exact ⟨h2, v2.trans v1⟩

theorem Region.containsPointInX_iff (r : Region) (x : Int) :
    r.containsPointInX x = true ↔ r.getLowerX ≤ x ∧ x ≤ r.getUpperX := by
  simp [Region.containsPointInX]

theorem Region.containsPointInY_iff (r : Region) (y : Int) :
    r.containsPointInY y = true ↔ r.getLowerY ≤ y ∧ y ≤ r.getUpperY := by
  simp [Region.containsPointInY]

theorem Region.containsPointInZ_iff (r : Region) (z : Int) :
    r.containsPointInZ z = true ↔ r.getLowerZ ≤ z ∧ z ≤ r.getUpperZ := by
  simp [Region.containsPointInZ]

/-- C20: in every sampler state t reachable through `setPosition` and the six move
operations (a `setPosition` followed by any sequence of `setPosition` and moves), each
per-axis validity flag is true exactly when the current coordinate on that axis lies
within the region's bounds on that axis, and whenever all three flags are true the
cached reference designates the cell of the current position, with index
(x - lowerX) + width*(y - lowerY) + width*height*(z - lowerZ);
`isCurrentPositionValid()` is true exactly when the region contains the current
position. -/
theorem C20_sampler_invariant (s0 : Sampler) (x y z : Int) (ops : List SamplerOp)
    (t : Sampler) (ht : t = (s0.setPosition x y z).runOps ops) :
    (t.m_bIsCurrentPositionValidInX = true
        ↔ t.mVolume.getEnclosingRegion.getLowerX ≤ t.mXPosInVolume
          ∧ t.mXPosInVolume ≤ t.mVolume.getEnclosingRegion.getUpperX)
      ∧ (t.m_bIsCurrentPositionValidInY = true
        ↔ t.mVolume.getEnclosingRegion.getLowerY ≤ t.mYPosInVolume
          ∧ t.mYPosInVolume ≤ t.mVolume.getEnclosingRegion.getUpperY)
      ∧ (t.m_bIsCurrentPositionValidInZ = true
        ↔ t.mVolume.getEnclosingRegion.getLowerZ ≤ t.mZPosInVolume
          ∧ t.mZPosInVolume ≤ t.mVolume.getEnclosingRegion.getUpperZ)
      ∧ (t.m_bIsCurrentPositionValidInX = true ∧ t.m_bIsCurrentPositionValidInY = true
          ∧ t.m_bIsCurrentPositionValidInZ = true →
        t.mCurrentVoxel
          = (t.mXPosInVolume - t.mVolume.getEnclosingRegion.getLowerX)
            + t.mVolume.getWidth * (t.mYPosInVolume - t.mVolume.getEnclosingRegion.getLowerY)
            + t.mVolume.getWidth * t.mVolume.getHeight
              * (t.mZPosInVolume - t.mVolume.getEnclosingRegion.getLowerZ))
      ∧ (t.isCurrentPositionValid = true
        ↔ t.mVolume.getEnclosingRegion.containsPoint t.mXPosInVolume t.mYPosInVolume
            t.mZPosInVolume = true)
      ∧ t.mVolume = s0.mVolume := by
  subst ht
  obtain ⟨hc, hv⟩ := Sampler.runOps_consistent ops (s0.setPosition x y z)
    (Sampler.setPosition_consistent s0 x y z)
  have hvalid := Sampler.Consistent.valid_eq _ hc
  obtain ⟨hx, hy, hz, hcache⟩ := hc
  refine ⟨?_, ?_, ?_, ?_, ?_, hv⟩
  · rw [hx]
    exact Region.containsPointInX_iff _ _
  · rw [hy]
    exact Region.containsPointInY_iff _ _
  · rw [hz]
    exact Region.containsPointInZ_iff _ _
  · rintro ⟨fx, fy, fz⟩
    have hall : ((s0.setPosition x y z).runOps ops).isCurrentPositionValid = true := by
      simp [Sampler.isCurrentPositionValid, fx, fy, fz]
    exact hcache hall
  · rw [hvalid]
    rfl

/-- Worked instance of C20 on the scenario sampler: set to (1,1,1), moved out of the
region in +X and back in -X, then one step in -Z: the sampler is at (1,1,0), all flags
are true and the cache is index 3; after the first move alone the X flag is false. -/
theorem C20_sampler_invariant_witness :
    ((scenarioSampler.setPosition 1 1 1).runOps
        [SamplerOp.movePositiveX, SamplerOp.moveNegativeX, SamplerOp.moveNegativeZ]).mCurrentVoxel
        = 3
      ∧ ((scenarioSampler.setPosition 1 1 1).runOps
          [SamplerOp.movePositiveX]).m_bIsCurrentPositionValidInX = false
      ∧ ((scenarioSampler.setPosition 1 1 1).runOps
          [SamplerOp.movePositiveX, SamplerOp.moveNegativeX, SamplerOp.moveNegativeZ]).mVolume
        = scenarioSampler.mVolume :=
  ⟨by decide, by decide,
    (C20_sampler_invariant scenarioSampler 1 1 1
      [SamplerOp.movePositiveX, SamplerOp.moveNegativeX, SamplerOp.moveNegativeZ] _ rfl).2.2.2.2.2⟩

/-! ## The peek operations in every consistent sampler state -/

/-- Setting a consistent sampler to the position it is at changes nothing. -/
theorem Sampler.Consistent.setPosition_self (t : Sampler) (h : t.Consistent) :
    t.setPosition t.mXPosInVolume t.mYPosInVolume t.mZPosInVolume = t := by
  obtain ⟨hx, hy, hz, hc⟩ := h
  rcases t with ⟨vol, x, y, z, c, bx, b2, bz⟩
  simp only [Sampler.isCurrentPositionValid] at hx hy hz hc
  simp only [Sampler.setPosition, ← hx, ← hy, ← hz]
  congr 1
  split
  · rename_i hv
    exact (hc hv).symm
  · rfl

/-- Every source peek operation is the peek of the specification: the guard it tests
and the cell it dereferences are `fastPathGuard` and `fastPathIndex`. -/
theorem Sampler.peekVoxel_eq_peekBySpec (t : Sampler) (dx dy dz : Int)
    (hdx : dx = -1 ∨ dx = 0 ∨ dx = 1) (hdy : dy = -1 ∨ dy = 0 ∨ dy = 1)
    (hdz : dz = -1 ∨ dz = 0 ∨ dz = 1) :
    t.peekVoxel dx dy dz = t.peekBySpec dx dy dz := by
  rcases hdx with rfl | rfl | rfl <;> rcases hdy with rfl | rfl | rfl <;>
    rcases hdz with rfl | rfl | rfl <;>
    simp [Sampler.peekVoxel, Sampler.peekBySpec, Sampler.fastPathGuard, Sampler.fastPathIndex,
      Sampler.peekVoxel1nx1ny1nz, Sampler.peekVoxel1nx1ny0pz, Sampler.peekVoxel1nx1ny1pz, Sampler.peekVoxel1nx0py1nz, Sampler.peekVoxel1nx0py0pz, Sampler.peekVoxel1nx0py1pz, Sampler.peekVoxel1nx1py1nz, Sampler.peekVoxel1nx1py0pz, Sampler.peekVoxel1nx1py1pz, Sampler.peekVoxel0px1ny1nz, Sampler.peekVoxel0px1ny0pz, Sampler.peekVoxel0px1ny1pz, Sampler.peekVoxel0px0py1nz, Sampler.peekVoxel0px0py0pz, Sampler.peekVoxel0px0py1pz, Sampler.peekVoxel0px1py1nz, Sampler.peekVoxel0px1py0pz, Sampler.peekVoxel0px1py1pz, Sampler.peekVoxel1px1ny1nz, Sampler.peekVoxel1px1ny0pz, Sampler.peekVoxel1px1ny1pz, Sampler.peekVoxel1px0py1nz, Sampler.peekVoxel1px0py0pz, Sampler.peekVoxel1px0py1pz, Sampler.peekVoxel1px1py1nz, Sampler.peekVoxel1px1py0pz, Sampler.peekVoxel1px1py1pz, Int.sub_eq_add_neg, Bool.and_assoc]

/-- In a consistent sampler state, inside or outside the region, every peek operation
returns the bounds-checked read at the offset position. -/
theorem Sampler.peekVoxel_of_consistent (t : Sampler) (h : t.Consistent) (dx dy dz : Int)
    (hdx : dx = -1 ∨ dx = 0 ∨ dx = 1) (hdy : dy = -1 ∨ dy = 0 ∨ dy = 1)
    (hdz : dz = -1 ∨ dz = 0 ∨ dz = 1) :
    t.peekVoxel dx dy dz
      = t.mVolume.getVoxel (t.mXPosInVolume + dx) (t.mYPosInVolume + dy)
          (t.mZPosInVolume + dz) := by
  by_cases hc : t.mVolume.m_regValidRegion.containsPoint t.mXPosInVolume t.mYPosInVolume
      t.mZPosInVolume = true
  · have key := Sampler.peekVoxel_setPosition_inside t _ _ _ dx dy dz hc hdx hdy hdz
    rw [Sampler.Consistent.setPosition_self t h] at key
    exact key
  · have hv : t.isCurrentPositionValid = false := by
      rw [Sampler.Consistent.valid_eq t h]
      simpa using hc
    rw [Sampler.peekVoxel_eq_peekBySpec t dx dy dz hdx hdy hdz]
    simp [Sampler.peekBySpec, Sampler.fastPathGuard, hv]

theorem Sampler.mem_peekOffsets (d : Int) (h : d ∈ Sampler.peekOffsets) :
    d = -1 ∨ d = 0 ∨ d = 1 := by
  simpa [Sampler.peekOffsets] using h

/-- Two consistent samplers on the same volume at the same position have the same
observations. -/
theorem Sampler.sameObservations_of_consistent (a b : Sampler) (ha : a.Consistent)
    (hb : b.Consistent) (hv : a.mVolume = b.mVolume) (hx : a.mXPosInVolume = b.mXPosInVolume)
    (hy : a.mYPosInVolume = b.mYPosInVolume) (hz : a.mZPosInVolume = b.mZPosInVolume) :
    a.SameObservations b := by
  refine ⟨hx, hy, hz, ?_, ?_, ?_, ?_, ?_⟩
  · rw [ha.1, hb.1, hv, hx]
  · rw [ha.2.1, hb.2.1, hv, hy]
  · rw [ha.2.2.1, hb.2.2.1, hv, hz]
  · rw [Sampler.Consistent.getVoxel_eq a ha, Sampler.Consistent.getVoxel_eq b hb, hv, hx, hy, hz]
  · intro dx hdx dy hdy dz hdz
    rw [Sampler.peekVoxel_of_consistent a ha dx dy dz (Sampler.mem_peekOffsets dx hdx)
        (Sampler.mem_peekOffsets dy hdy) (Sampler.mem_peekOffsets dz hdz),
      Sampler.peekVoxel_of_consistent b hb dx dy dz (Sampler.mem_peekOffsets dx hdx)
        (Sampler.mem_peekOffsets dy hdy) (Sampler.mem_peekOffsets dz hdz), hv, hx, hy, hz]

/-- C21: for every sampler state reached by `setPosition` at (x,y,z) and each of the
six move operations, the move yields a state observationally equal (same position, same
three validity flags, same `getVoxel()` and same result of every peek) to the state
that `setPosition` at the stepped coordinates produces on any sampler b of the same
volume, e.g. `movePositiveX()` equals `setPosition(x+1,y,z)`; when the stepped
position is valid the cache after the move is the index that `setPosition` computes:
the incremental stride update (1, width, width*height) and the full index
recomputation agree. -/
theorem C21_move_equals_setPosition (s b : Sampler) (x y z : Int)
    (hb : b.mVolume = s.mVolume) :
    ((s.setPosition x y z).movePositiveX.SameObservations (b.setPosition (x + 1) y z)
        ∧ (s.setPosition x y z).moveNegativeX.SameObservations (b.setPosition (x - 1) y z)
        ∧ (s.setPosition x y z).movePositiveY.SameObservations (b.setPosition x (y + 1) z)
        ∧ (s.setPosition x y z).moveNegativeY.SameObservations (b.setPosition x (y - 1) z)
        ∧ (s.setPosition x y z).movePositiveZ.SameObservations (b.setPosition x y (z + 1))
        ∧ (s.setPosition x y z).moveNegativeZ.SameObservations (b.setPosition x y (z - 1)))
      ∧ (((s.setPosition x y z).movePositiveX.isCurrentPositionValid = true →
            (s.setPosition x y z).movePositiveX.mCurrentVoxel
              = (b.setPosition (x + 1) y z).mCurrentVoxel)
        ∧ ((s.setPosition x y z).moveNegativeX.isCurrentPositionValid = true →
            (s.setPosition x y z).moveNegativeX.mCurrentVoxel
              = (b.setPosition (x - 1) y z).mCurrentVoxel)
        ∧ ((s.setPosition x y z).movePositiveY.isCurrentPositionValid = true →
            (s.setPosition x y z).movePositiveY.mCurrentVoxel
              = (b.setPosition x (y + 1) z).mCurrentVoxel)
        ∧ ((s.setPosition x y z).moveNegativeY.isCurrentPositionValid = true →
            (s.setPosition x y z).moveNegativeY.mCurrentVoxel
              = (b.setPosition x (y - 1) z).mCurrentVoxel)
        ∧ ((s.setPosition x y z).movePositiveZ.isCurrentPositionValid = true →
            (s.setPosition x y z).movePositiveZ.mCurrentVoxel
              = (b.setPosition x y (z + 1)).mCurrentVoxel)
        ∧ ((s.setPosition x y z).moveNegativeZ.isCurrentPositionValid = true →
            (s.setPosition x y z).moveNegativeZ.mCurrentVoxel
              = (b.setPosition x y (z - 1)).mCurrentVoxel)) := by
  have hs := Sampler.setPosition_consistent s x y z
  have key : ∀ (m t : Sampler), m.Consistent → t.Consistent → m.mVolume = t.mVolume →
      m.mXPosInVolume = t.mXPosInVolume → m.mYPosInVolume = t.mYPosInVolume →
      m.mZPosInVolume = t.mZPosInVolume →
      m.SameObservations t ∧ (m.isCurrentPositionValid = true →
        m.mCurrentVoxel = t.mCurrentVoxel) := by
    intro m t hm ht hv hx hy hz
    refine ⟨Sampler.sameObservations_of_consistent m t hm ht hv hx hy hz, fun hval => ?_⟩
    have hval2 : t.isCurrentPositionValid = true := by
      rw [Sampler.Consistent.valid_eq t ht, ← hv, ← hx, ← hy, ← hz,
        ← Sampler.Consistent.valid_eq m hm]
      exact hval
    rw [hm.2.2.2 hval, ht.2.2.2 hval2, hv, hx, hy, hz]
  obtain ⟨c1, v1, x1, y1, z1⟩ := Sampler.movePositiveX_spec _ hs
  obtain ⟨c2, v2, x2, y2, z2⟩ := Sampler.moveNegativeX_spec _ hs
  obtain ⟨c3, v3, x3, y3, z3⟩ := Sampler.movePositiveY_spec _ hs
  obtain ⟨c4, v4, x4, y4, z4⟩ := Sampler.moveNegativeY_spec _ hs
  obtain ⟨c5, v5, x5, y5, z5⟩ := Sampler.movePositiveZ_spec _ hs
  obtain ⟨c6, v6, x6, y6, z6⟩ := Sampler.moveNegativeZ_spec _ hs
  have k1 := key _ _ c1 (Sampler.setPosition_consistent b (x + 1) y z) (v1.trans hb.symm) x1 y1 z1
  have k2 := key _ _ c2 (Sampler.setPosition_consistent b (x - 1) y z) (v2.trans hb.symm) x2 y2 z2
  have k3 := key _ _ c3 (Sampler.setPosition_consistent b x (y + 1) z) (v3.trans hb.symm) x3 y3 z3
  have k4 := key _ _ c4 (Sampler.setPosition_consistent b x (y - 1) z) (v4.trans hb.symm) x4 y4 z4
  have k5 := key _ _ c5 (Sampler.setPosition_consistent b x y (z + 1)) (v5.trans hb.symm) x5 y5 z5
  have k6 := key _ _ c6 (Sampler.setPosition_consistent b x y (z - 1)) (v6.trans hb.symm) x6 y6 z6
  exact ⟨⟨k1.1, k2.1, k3.1, k4.1, k5.1, k6.1⟩, k1.2, k2.2, k3.2, k4.2, k5.2, k6.2⟩

/-- Worked instance of C21 on the scenario sampler: one step in +X from (0,1,1) against
`setPosition(1,1,1)`; both read B and have the cache at index 7. -/
theorem C21_move_equals_setPosition_witness :
    scenarioSampler.mVolume = scenarioSampler.mVolume
      ∧ (scenarioSampler.setPosition 0 1 1).movePositiveX.getVoxel = some voxelB
      ∧ (scenarioSampler.setPosition 0 1 1).movePositiveX.mCurrentVoxel = 7
      ∧ (scenarioSampler.setPosition 0 1 1).movePositiveX.SameObservations
          (scenarioSampler.setPosition (0 + 1) 1 1) :=
  ⟨rfl, by decide, by decide,
    (C21_move_equals_setPosition scenarioSampler scenarioSampler 0 1 1 rfl).1.1⟩

/-- At a position inside the region the guard of the fast path holds exactly when the
offset position is inside the region. -/
theorem Sampler.fastPathGuard_setPosition_inside (s : Sampler) (x y z dx dy dz : Int)
    (h : s.mVolume.m_regValidRegion.containsPoint x y z = true)
    (hdx : dx = -1 ∨ dx = 0 ∨ dx = 1) (hdy : dy = -1 ∨ dy = 0 ∨ dy = 1)
    (hdz : dz = -1 ∨ dz = 0 ∨ dz = 1) :
    (s.setPosition x y z).fastPathGuard dx dy dz = true
      ↔ s.mVolume.m_regValidRegion.containsPoint (x + dx) (y + dy) (z + dz) = true := by
  rw [Sampler.setPosition_inside s x y z h, Region.containsPoint_iff]
  have hb := (Region.containsPoint_iff _ _ _ _).1 h
  rcases hdx with rfl | rfl | rfl <;> rcases hdy with rfl | rfl | rfl <;>
    rcases hdz with rfl | rfl | rfl <;>
    simp only [Sampler.fastPathGuard, Sampler.isCurrentPositionValid, Sampler.CAN_GO_NEG_X,
      Sampler.CAN_GO_NEG_Y, Sampler.CAN_GO_NEG_Z, Sampler.CAN_GO_POS_X,
      Sampler.CAN_GO_POS_Y, Sampler.CAN_GO_POS_Z, RawVolume.getEnclosingRegion,
      Region.getLowerX, Region.getLowerY, Region.getLowerZ,
      Region.getUpperX, Region.getUpperY, Region.getUpperZ, Bool.and_eq_true, Bool.true_and,
      Bool.and_self, Bool.and_true, decide_eq_true_eq, gt_iff_lt, if_true, if_false,
      reduceCtorEq, Int.reduceNeg, Int.reduceEq, ite_true, ite_false] <;>
    constructor <;> intro hg <;> first | omega | trivial

/-- C22: for every position P inside the region and every peek offset d, the peek
operation of the source tests the fast-path guard (`isCurrentPositionValid` and the
`CAN_GO_*` test on each axis where d is non-zero) and dereferences the cached pointer
moved by dx + width*dy + width*height*dz; the guard holds if and only if P + d is
inside the region, and whenever it holds the dereferenced cell index,
index(P) + dx + width*dy + width*height*dz, lies in [0, width*height*depth) and equals
index(P + d), so that in a well-formed volume the fast path reads a cell of the buffer. -/
theorem C22_fast_path_guard (s t : Sampler) (x y z dx dy dz : Int)
    (ht : t = s.setPosition x y z)
    (hin : s.mVolume.getEnclosingRegion.containsPoint x y z = true)
    (hdx : dx = -1 ∨ dx = 0 ∨ dx = 1) (hdy : dy = -1 ∨ dy = 0 ∨ dy = 1)
    (hdz : dz = -1 ∨ dz = 0 ∨ dz = 1) :
    t.peekVoxel dx dy dz
        = (if t.fastPathGuard dx dy dz then t.mVolume.load (t.fastPathIndex dx dy dz)
            else t.mVolume.getVoxel (x + dx) (y + dy) (z + dz))
      ∧ (t.fastPathGuard dx dy dz = true
          ↔ s.mVolume.getEnclosingRegion.containsPoint (x + dx) (y + dy) (z + dz) = true)
      ∧ t.fastPathIndex dx dy dz
          = s.mVolume.voxelIndex x y z + dx + s.mVolume.getWidth * dy
            + s.mVolume.getWidth * s.mVolume.getHeight * dz
      ∧ (t.fastPathGuard dx dy dz = true →
          t.fastPathIndex dx dy dz = s.mVolume.voxelIndex (x + dx) (y + dy) (z + dz)
            ∧ 0 ≤ t.fastPathIndex dx dy dz
            ∧ t.fastPathIndex dx dy dz
                < s.mVolume.getWidth * s.mVolume.getHeight * s.mVolume.getDepth)
      ∧ (s.mVolume.WellFormed → t.fastPathGuard dx dy dz = true →
          ∃ val, t.mVolume.load (t.fastPathIndex dx dy dz) = some val) := by
  subst ht
  have hin2 : s.mVolume.m_regValidRegion.containsPoint x y z = true := hin
  have hguard := Sampler.fastPathGuard_setPosition_inside s x y z dx dy dz hin2 hdx hdy hdz
  have hidx : (s.setPosition x y z).fastPathIndex dx dy dz
      = s.mVolume.voxelIndex x y z + dx + s.mVolume.getWidth * dy
        + s.mVolume.getWidth * s.mVolume.getHeight * dz := by
    rw [Sampler.setPosition_inside s x y z hin2]
    rfl
  have hidx2 : (s.setPosition x y z).fastPathIndex dx dy dz
      = s.mVolume.voxelIndex (x + dx) (y + dy) (z + dz) := by
    rw [hidx, RawVolume.voxelIndex_shift]
  refine ⟨?_, hguard, hidx, ?_, ?_⟩
  · rw [Sampler.peekVoxel_eq_peekBySpec _ dx dy dz hdx hdy hdz]
    rfl
  · intro hg
    have hc := hguard.1 hg
    have hbnd := s.mVolume.voxelIndex_bounds _ _ _ hc
    rw [hidx2]
    exact ⟨rfl, hbnd.1, hbnd.2⟩
  · intro hwf hg
    have hc := hguard.1 hg
    obtain ⟨val, hval, _⟩ := s.mVolume.load_voxelIndex_isSome hwf _ _ _ hc
    exact ⟨val, by rw [hidx2]; exact hval⟩

/-- Worked instance of C22 on the scenario sampler at (0,0,0): toward (+1,+1,+1) the
guard holds and the fast path reads index 7; toward (-1,0,0) the guard fails. -/
theorem C22_fast_path_guard_witness :
    scenarioSampler.mVolume.getEnclosingRegion.containsPoint 0 0 0 = true
      ∧ (scenarioSampler.setPosition 0 0 0).fastPathGuard 1 1 1 = true
      ∧ (scenarioSampler.setPosition 0 0 0).fastPathIndex 1 1 1 = 7
      ∧ (scenarioSampler.setPosition 0 0 0).fastPathGuard (-1) 0 0 = false
      ∧ ((scenarioSampler.setPosition 0 0 0).fastPathGuard 1 1 1 = true
          ↔ scenarioSampler.mVolume.getEnclosingRegion.containsPoint (0 + 1) (0 + 1) (0 + 1)
              = true) :=
  ⟨by decide, by decide, by decide, by decide,
    (C22_fast_path_guard scenarioSampler _ 0 0 0 1 1 1 rfl (by decide) (by decide) (by decide)
      (by decide)).2.1⟩

/-- C25: for every sampler position P outside the volume's region and each peek offset
d, the guard of the fast path fails and the peek returns `volume.getVoxel(P + d)`
through the bounds-checked fallback; in particular, when P + d is inside the region of
a well-formed volume (P one step outside a face), the peek returns the stored voxel at
P + d, whatever the border value is. -/
theorem C25_peek_from_outside (s : Sampler) (x y z dx dy dz : Int)
    (hout : s.mVolume.getEnclosingRegion.containsPoint x y z = false)
    (hdx : dx = -1 ∨ dx = 0 ∨ dx = 1) (hdy : dy = -1 ∨ dy = 0 ∨ dy = 1)
    (hdz : dz = -1 ∨ dz = 0 ∨ dz = 1) :
    (s.setPosition x y z).fastPathGuard dx dy dz = false
      ∧ (s.setPosition x y z).peekVoxel dx dy dz
          = s.mVolume.getVoxel (x + dx) (y + dy) (z + dz)
      ∧ (s.mVolume.WellFormed →
          s.mVolume.getEnclosingRegion.containsPoint (x + dx) (y + dy) (z + dz) = true →
          ∃ val, (s.setPosition x y z).peekVoxel dx dy dz = some val
            ∧ s.mVolume.m_pData[(s.mVolume.voxelIndex (x + dx) (y + dy) (z + dz)).toNat]?
                = some val) := by
  obtain ⟨h1, h2, h3, h4, h5⟩ := s.setPosition_fields x y z
  have hout2 : s.mVolume.m_regValidRegion.containsPoint x y z = false := hout
  have hpeek : (s.setPosition x y z).peekVoxel dx dy dz
      = s.mVolume.getVoxel (x + dx) (y + dy) (z + dz) := by
    rw [Sampler.peekVoxel_of_consistent _ (Sampler.setPosition_consistent s x y z) dx dy dz
      hdx hdy hdz, h1, h2, h3, h4]
  refine ⟨?_, hpeek, ?_⟩
  · simp [Sampler.fastPathGuard, h5, hout2]
  · intro hwf hc
    obtain ⟨val, hval, hcell, _⟩ := RawVolume.getVoxel_spec s.mVolume hwf (x + dx) (y + dy)
      (z + dz)
    exact ⟨val, by rw [hpeek, hval], hcell hc⟩

/-- Worked instance of C25 on the scenario sampler: from (2,1,1), one step outside
the +X face, the peek toward (-1,0,0) returns B, the voxel stored at (1,1,1), and not
the border value. -/
theorem C25_peek_from_outside_witness :
    scenarioSampler.mVolume.getEnclosingRegion.containsPoint 2 1 1 = false
      ∧ (scenarioSampler.setPosition 2 1 1).peekVoxel (-1) 0 0 = some voxelB
      ∧ voxelB ≠ scenarioSampler.mVolume.getBorderValue
      ∧ (scenarioSampler.setPosition 2 1 1).peekVoxel (-1) 0 0
          = scenarioSampler.mVolume.getVoxel (2 + -1) (1 + 0) (1 + 0) :=
  ⟨by decide, by decide, by decide,
    (C25_peek_from_outside scenarioSampler 2 1 1 (-1) 0 0 (by decide) (by decide) (by decide)
      (by decide)).2.1⟩

/-! ## The index mapping is a bijection -/

/-- Two mixed-radix numbers with the same value have the same digits. -/
theorem RawVolume.digits_unique (W a k a1 k1 : Int) (ha0 : 0 ≤ a) (haW : a < W)
    (ha1 : 0 ≤ a1) (ha1W : a1 < W) (h : a + W * k = a1 + W * k1) : a = a1 ∧ k = k1 := by
  have hW : 0 < W := lt_of_le_of_lt ha0 haW
  have hk : k = k1 := by
    rcases lt_trichotomy k k1 with hlt | heq | hgt
    · exfalso
      have h1 : W * (k + 1) ≤ W * k1 := mul_le_mul_of_nonneg_left (by omega) (le_of_lt hW)
      nlinarith
    · exact heq
    · exfalso
      have h1 : W * (k1 + 1) ≤ W * k := mul_le_mul_of_nonneg_left (by omega) (le_of_lt hW)
      nlinarith
  subst hk
  exact ⟨by linarith, rfl⟩

/-- Two points inside the region with the same index are the same point. -/
theorem RawVolume.voxelIndex_injective (v : RawVolume) (x y z x1 y1 z1 : Int)
    (h : v.m_regValidRegion.containsPoint x y z = true)
    (h1 : v.m_regValidRegion.containsPoint x1 y1 z1 = true)
    (he : v.voxelIndex x y z = v.voxelIndex x1 y1 z1) : x = x1 ∧ y = y1 ∧ z = z1 := by
  rw [Region.containsPoint_iff] at h h1
  obtain ⟨⟨hx1, hx2⟩, ⟨hy1, hy2⟩, ⟨hz1, hz2⟩⟩ := h
  obtain ⟨⟨gx1, gx2⟩, ⟨gy1, gy2⟩, ⟨gz1, gz2⟩⟩ := h1
  simp only [RawVolume.voxelIndex, RawVolume.getWidth, RawVolume.getHeight,
    Region.getWidthInVoxels, Region.getHeightInVoxels,
    Region.getLowerX, Region.getLowerY, Region.getLowerZ,
    Region.getUpperX, Region.getUpperY] at he
  have e1 := RawVolume.digits_unique
    (v.m_regValidRegion.m_iUpperX - v.m_regValidRegion.m_iLowerX + 1)
    (x - v.m_regValidRegion.m_iLowerX)
    ((y - v.m_regValidRegion.m_iLowerY)
      + (v.m_regValidRegion.m_iUpperY - v.m_regValidRegion.m_iLowerY + 1)
        * (z - v.m_regValidRegion.m_iLowerZ))
    (x1 - v.m_regValidRegion.m_iLowerX)
    ((y1 - v.m_regValidRegion.m_iLowerY)
      + (v.m_regValidRegion.m_iUpperY - v.m_regValidRegion.m_iLowerY + 1)
        * (z1 - v.m_regValidRegion.m_iLowerZ))
    (by omega) (by omega) (by omega) (by omega) (by linarith)
  have e2 := RawVolume.digits_unique
    (v.m_regValidRegion.m_iUpperY - v.m_regValidRegion.m_iLowerY + 1)
    (y - v.m_regValidRegion.m_iLowerY) (z - v.m_regValidRegion.m_iLowerZ)
    (y1 - v.m_regValidRegion.m_iLowerY) (z1 - v.m_regValidRegion.m_iLowerZ)
    (by omega) (by omega) (by omega) (by omega) e1.2
  obtain ⟨ex, _⟩ := e1
  obtain ⟨ey, ez⟩ := e2
  exact ⟨by omega, by omega, by omega⟩

/-- Every index of the buffer of a valid region is the index of a point inside it. -/
theorem RawVolume.voxelIndex_surjective (v : RawVolume)
    (hvalid : v.m_regValidRegion.isValid = true) (i : Int) (h0 : 0 ≤ i)
    (h1 : i < v.getWidth * v.getHeight * v.getDepth) :
    ∃ x y z : Int, v.m_regValidRegion.containsPoint x y z = true ∧ v.voxelIndex x y z = i := by
  simp only [Region.isValid, Bool.and_eq_true, decide_eq_true_eq, Region.getLowerX,
    Region.getLowerY, Region.getLowerZ, Region.getUpperX, Region.getUpperY,
    Region.getUpperZ] at hvalid
  obtain ⟨⟨vx, vy⟩, vz⟩ := hvalid
  simp only [RawVolume.getWidth, RawVolume.getHeight, RawVolume.getDepth,
    Region.getWidthInVoxels, Region.getHeightInVoxels, Region.getDepthInVoxels,
    Region.getLowerX, Region.getLowerY, Region.getLowerZ,
    Region.getUpperX, Region.getUpperY, Region.getUpperZ] at h1
  generalize hW : v.m_regValidRegion.m_iUpperX - v.m_regValidRegion.m_iLowerX + 1 = W at h1
  generalize hH : v.m_regValidRegion.m_iUpperY - v.m_regValidRegion.m_iLowerY + 1 = H at h1
  generalize hD : v.m_regValidRegion.m_iUpperZ - v.m_regValidRegion.m_iLowerZ + 1 = D at h1
  have hWp : 0 < W := by omega
  have hHp : 0 < H := by omega
  have ha0 : 0 ≤ i % W := Int.emod_nonneg i (ne_of_gt hWp)
  have ha1 : i % W < W := Int.emod_lt_of_pos i hWp
  have hk0 : 0 ≤ i / W := Int.ediv_nonneg h0 (le_of_lt hWp)
  have hk1 : i / W < H * D := by
    apply Int.ediv_lt_of_lt_mul hWp
    calc i < W * H * D := h1
      _ = H * D * W := by ring
  have hb0 : 0 ≤ (i / W) % H := Int.emod_nonneg _ (ne_of_gt hHp)
  have hb1 : (i / W) % H < H := Int.emod_lt_of_pos _ hHp
  have hc0 : 0 ≤ (i / W) / H := Int.ediv_nonneg hk0 (le_of_lt hHp)
  have hc1 : (i / W) / H < D := by
    apply Int.ediv_lt_of_lt_mul hHp
    calc i / W < H * D := hk1
      _ = D * H := by ring
  have e1 : i % W + W * (i / W) = i := Int.emod_add_ediv i W
  have e2 : (i / W) % H + H * ((i / W) / H) = i / W := Int.emod_add_ediv (i / W) H
  refine ⟨v.m_regValidRegion.m_iLowerX + i % W, v.m_regValidRegion.m_iLowerY + (i / W) % H,
    v.m_regValidRegion.m_iLowerZ + (i / W) / H, ?_, ?_⟩
  · rw [Region.containsPoint_iff]
    omega
  · simp only [RawVolume.voxelIndex, RawVolume.getWidth, RawVolume.getHeight,
      Region.getWidthInVoxels, Region.getHeightInVoxels,
      Region.getLowerX, Region.getLowerY, Region.getLowerZ,
      Region.getUpperX, Region.getUpperY, hW, hH]
    have e3 : W * ((i / W) % H) + W * H * ((i / W) / H) = W * (i / W) := by
      calc W * ((i / W) % H) + W * H * ((i / W) / H)
          = W * ((i / W) % H + H * ((i / W) / H)) := by ring
        _ = W * (i / W) := by rw [e2]
    calc v.m_regValidRegion.m_iLowerX + i % W - v.m_regValidRegion.m_iLowerX
          + W * (v.m_regValidRegion.m_iLowerY + i / W % H - v.m_regValidRegion.m_iLowerY)
          + W * H * (v.m_regValidRegion.m_iLowerZ + i / W / H - v.m_regValidRegion.m_iLowerZ)
        = i % W + (W * ((i / W) % H) + W * H * ((i / W) / H)) := by ring
      _ = i := by rw [e3, e1]

/-- C23: for every region with lower <= upper on each axis, the index mapping
(x - lowerX) + width*(y - lowerY) + width*height*(z - lowerZ) sends the points inside
the region one-to-one onto the indices 0 .. width*height*depth - 1: every in-range
point gets an index inside the buffer, two different in-range points never share an
index, and every index of the buffer is the index of an in-range point. -/
theorem C23_index_bijection (v : RawVolume)
    (hvalid : v.getEnclosingRegion.isValid = true) :
    (∀ x y z : Int, v.getEnclosingRegion.containsPoint x y z = true →
        v.voxelIndex x y z
            = (x - v.getEnclosingRegion.getLowerX)
              + v.getWidth * (y - v.getEnclosingRegion.getLowerY)
              + v.getWidth * v.getHeight * (z - v.getEnclosingRegion.getLowerZ)
          ∧ 0 ≤ v.voxelIndex x y z
          ∧ v.voxelIndex x y z < v.getWidth * v.getHeight * v.getDepth)
      ∧ (∀ x y z x1 y1 z1 : Int, v.getEnclosingRegion.containsPoint x y z = true →
          v.getEnclosingRegion.containsPoint x1 y1 z1 = true →
          v.voxelIndex x y z = v.voxelIndex x1 y1 z1 → x = x1 ∧ y = y1 ∧ z = z1)
      ∧ (∀ i : Int, 0 ≤ i → i < v.getWidth * v.getHeight * v.getDepth →
          ∃ x y z : Int, v.getEnclosingRegion.containsPoint x y z = true
            ∧ v.voxelIndex x y z = i) :=
  ⟨fun x y z h => ⟨rfl, v.voxelIndex_bounds x y z h⟩,
    fun x y z x1 y1 z1 h h1 he => v.voxelIndex_injective x y z x1 y1 z1 h h1 he,
    fun i h0 h1 => v.voxelIndex_surjective hvalid i h0 h1⟩

/-- Worked instance of C23 on the scenario volume: (1,1,1) has index 7, the last of
the 8 cells, and index 5 is that of (1,0,1). -/
theorem C23_index_bijection_witness :
    scenarioVolume.getEnclosingRegion.isValid = true
      ∧ scenarioVolume.voxelIndex 1 1 1 = 7
      ∧ scenarioVolume.voxelIndex 1 0 1 = 5
      ∧ scenarioVolume.getWidth * scenarioVolume.getHeight * scenarioVolume.getDepth = 8
      ∧ ∃ x y z : Int, scenarioVolume.getEnclosingRegion.containsPoint x y z = true
          ∧ scenarioVolume.voxelIndex x y z = 5 :=
  ⟨by decide, by decide, by decide, by decide,
    (C23_index_bijection scenarioVolume (by decide)).2.2 5 (by decide) (by decide)⟩

/-- C24: for every well-formed volume, every in-range point p and every voxel v,
`setVoxel(p, v)` succeeds and changes only the cell at p: for every point q different
from p, inside or outside the region, `getVoxel(q)` returns the same value after the
write as before it, and the region and the border value are unchanged. -/
theorem C24_setVoxel_frame (v : RawVolume) (x y z : Int) (tValue : Voxel)
    (hwf : v.WellFormed)
    (hin : v.getEnclosingRegion.containsPoint x y z = true) :
    ∃ v1, v.setVoxel x y z tValue = some v1
      ∧ (∀ qx qy qz : Int, ¬ (qx = x ∧ qy = y ∧ qz = z) →
          v1.getVoxel qx qy qz = v.getVoxel qx qy qz)
      ∧ v1.getEnclosingRegion = v.getEnclosingRegion
      ∧ v1.getBorderValue = v.getBorderValue := by
  have hin2 : v.m_regValidRegion.containsPoint x y z = true := hin
  obtain ⟨v1, hv1⟩ := v.store_voxelIndex_isSome hwf x y z hin2 tValue
  obtain ⟨hr, hb, _⟩ := v.store_frame v1 _ _ hv1
  refine ⟨v1, by simp [RawVolume.setVoxel, hin2, hv1], ?_, hr, hb⟩
  intro qx qy qz hne
  by_cases hq : v.m_regValidRegion.containsPoint qx qy qz = true
  · rw [RawVolume.getVoxel_of_contains v1 qx qy qz (by rw [hr]; exact hq),
      RawVolume.getVoxel_of_contains v qx qy qz hq, RawVolume.voxelIndex_congr v v1 hr]
    have hi : v.voxelIndex qx qy qz ≠ v.voxelIndex x y z := fun he =>
      hne (v.voxelIndex_injective qx qy qz x y z hq hin2 he)
    obtain ⟨p0, _⟩ := v.voxelIndex_bounds x y z hin2
    obtain ⟨q0, _⟩ := v.voxelIndex_bounds qx qy qz hq
    unfold RawVolume.store at hv1
    split at hv1
    · cases hv1
      have hn : (v.voxelIndex x y z).toNat ≠ (v.voxelIndex qx qy qz).toNat := by omega
      simp [RawVolume.load, q0, List.getElem?_set_ne hn]
    · cases hv1
  · have hq2 : v.m_regValidRegion.containsPoint qx qy qz = false := by simpa using hq
    rw [RawVolume.getVoxel_of_not_contains v1 qx qy qz (by rw [hr]; exact hq2),
      RawVolume.getVoxel_of_not_contains v qx qy qz hq2, hb]

/-- Worked instance of C24 on the scenario volume: writing A at (1,1,1) leaves the
cell (0,1,1) and the outside point (2,1,1) as they were. -/
theorem C24_setVoxel_frame_witness :
    scenarioVolume.WellFormed
      ∧ scenarioVolume.getEnclosingRegion.containsPoint 1 1 1 = true
      ∧ ∃ v1, scenarioVolume.setVoxel 1 1 1 voxelA = some v1
          ∧ (∀ qx qy qz : Int, ¬ (qx = 1 ∧ qy = 1 ∧ qz = 1) →
              v1.getVoxel qx qy qz = scenarioVolume.getVoxel qx qy qz)
          ∧ v1.getEnclosingRegion = scenarioVolume.getEnclosingRegion
          ∧ v1.getBorderValue = scenarioVolume.getBorderValue :=
  ⟨by decide, by decide,
    C24_setVoxel_frame scenarioVolume 1 1 1 voxelA (by decide) (by decide)⟩

/-! ## Binding a volume that the node already owns -/

/-- The addresses that `release` hands to `delete`. -/
theorem SceneGraphNode.release_freedSince {Mat Pivot : Type} (n : SceneGraphNode Mat Pivot)
    (h : Heap) (a : Nat) :
    (a ∈ h.freedSince (n.release h).2 ↔ (n._volumeOwned = true ∧ n._volume = some a))
      ∧ (¬ (n._volumeOwned = true ∧ n._volume = some a) → (n.release h).2.vol a = h.vol a) := by
  cases ho : n._volumeOwned <;> cases hv : n._volume <;>
    simp [SceneGraphNode.release, Heap.freedSince, Heap.delete, ho, hv]
  · constructor
    · exact eq_comm
    · intro h1 h2
      exact absurd h2.symm h1

/-- C26 as the code has it: after `setVolume(v, t)` with a non-null v the node is bound
to v, and that call has freed v exactly when v is the volume the node owned before the
call; in every other case v is not among the addresses the call freed and the volume
stored at v is untouched. The same holds for the destination of a move assignment and
the volume v of its source. -/
theorem C26_bound_volume_freed_iff_owned_amended {Mat Pivot : Type}
    (n move : SceneGraphNode Mat Pivot) (h : Heap) (volume : VolumePtr)
    (transferOwnership : Bool) (movedProperties : List (String × String))
    (movedChildren : List Int) (a : Nat) (hv : volume = some a) (hm : move._volume = some a) :
    ((n.setVolume h volume transferOwnership).1._volume = some a
        ∧ (a ∈ h.freedSince (n.setVolume h volume transferOwnership).2
            ↔ (n._volumeOwned = true ∧ n._volume = some a))
        ∧ (¬ (n._volumeOwned = true ∧ n._volume = some a) →
            (n.setVolume h volume transferOwnership).2.vol a = h.vol a))
      ∧ ((SceneGraphNode.moveAssignFrom n move h movedProperties movedChildren).1._volume
            = some a
        ∧ (a ∈ h.freedSince
              (SceneGraphNode.moveAssignFrom n move h movedProperties movedChildren).2.2
            ↔ (n._volumeOwned = true ∧ n._volume = some a))
        ∧ (¬ (n._volumeOwned = true ∧ n._volume = some a) →
            (SceneGraphNode.moveAssignFrom n move h movedProperties movedChildren).2.2.vol a
              = h.vol a)) :=
  ⟨⟨hv, (SceneGraphNode.release_freedSince n h a).1, (SceneGraphNode.release_freedSince n h a).2⟩,
    ⟨hm, (SceneGraphNode.release_freedSince n h a).1,
      (SceneGraphNode.release_freedSince n h a).2⟩⟩

/-- Worked instance of the amended C26: the alias node, which does not own the volume at
address 7, is bound to it again: nothing is freed and the volume is still there. -/
theorem C26_bound_volume_freed_iff_owned_amended_witness :
    (scenarioAliasNode.setVolume scenarioHeap (some 7) true).2.freed = []
      ∧ (scenarioAliasNode.setVolume scenarioHeap (some 7) true).2.vol 7 = some scenarioVolume
      ∧ (scenarioAliasNode.setVolume scenarioHeap (some 7) true).1._volume = some 7 :=
  ⟨by decide, by decide,
    (C26_bound_volume_freed_iff_owned_amended scenarioAliasNode scenarioAliasNode scenarioHeap
      (some 7) true [] [] 7 rfl rfl).1.1⟩

/-- C26 fails as stated: the scenario node owns the live volume at address 7; after
`setVolume` with that same volume the node is bound to address 7, which the call has
freed; and a move assignment into the scenario node from the alias node, which is bound
to the same volume, leaves the destination bound to the freed address as well. -/
theorem C26_setVolume_frees_bound_volume :
    scenarioNode._volume = some 7 ∧ scenarioNode._volumeOwned = true
      ∧ scenarioHeap.vol 7 = some scenarioVolume
      ∧ (scenarioNode.setVolume scenarioHeap (some 7) true).1._volume = some 7
      ∧ (scenarioNode.setVolume scenarioHeap (some 7) true).2.vol 7 = none
      ∧ scenarioHeap.freedSince (scenarioNode.setVolume scenarioHeap (some 7) true).2 = [7]
      ∧ (SceneGraphNode.moveAssignFrom scenarioNode scenarioAliasNode scenarioHeap [] []).1._volume
          = some 7
      ∧ (SceneGraphNode.moveAssignFrom scenarioNode scenarioAliasNode scenarioHeap [] []).2.2.vol 7
          = none
      ∧ scenarioHeap.freedSince
          (SceneGraphNode.moveAssignFrom scenarioNode scenarioAliasNode scenarioHeap [] []).2.2
          = [7] := by
  decide

/-! ## The source of a move -/

/-- C27 on the code: after the move constructor and after the move assignment the source
node has the same volume pointer, volumeOwned, id, parent, modelId, referencedNodeId,
name, visible, locked, pivot and transform, but its type is `Max` after the
constructor and unchanged after the assignment; for the scenario node, whose type is not
`Max`, the two sources differ. -/
theorem C27_moved_from_type_differs {Mat Pivot : Type} (s a : SceneGraphNode Mat Pivot)
    (h : Heap) (movedProperties : List (String × String)) (movedChildren : List Int) :
    ((s.moveConstruct movedProperties movedChildren).2._volume
          = (SceneGraphNode.moveAssignFrom a s h movedProperties movedChildren).2.1._volume
        ∧ (s.moveConstruct movedProperties movedChildren).2._volumeOwned
          = (SceneGraphNode.moveAssignFrom a s h movedProperties movedChildren).2.1._volumeOwned
        ∧ (s.moveConstruct movedProperties movedChildren).2._id
          = (SceneGraphNode.moveAssignFrom a s h movedProperties movedChildren).2.1._id
        ∧ (s.moveConstruct movedProperties movedChildren).2._parent
          = (SceneGraphNode.moveAssignFrom a s h movedProperties movedChildren).2.1._parent
        ∧ (s.moveConstruct movedProperties movedChildren).2._modelId
          = (SceneGraphNode.moveAssignFrom a s h movedProperties movedChildren).2.1._modelId
        ∧ (s.moveConstruct movedProperties movedChildren).2._referencedNodeId
          = (SceneGraphNode.moveAssignFrom a s h movedProperties
              movedChildren).2.1._referencedNodeId
        ∧ (s.moveConstruct movedProperties movedChildren).2._name
          = (SceneGraphNode.moveAssignFrom a s h movedProperties movedChildren).2.1._name
        ∧ (s.moveConstruct movedProperties movedChildren).2._visible
          = (SceneGraphNode.moveAssignFrom a s h movedProperties movedChildren).2.1._visible
        ∧ (s.moveConstruct movedProperties movedChildren).2._locked
          = (SceneGraphNode.moveAssignFrom a s h movedProperties movedChildren).2.1._locked
        ∧ (s.moveConstruct movedProperties movedChildren).2._pivot
          = (SceneGraphNode.moveAssignFrom a s h movedProperties movedChildren).2.1._pivot
        ∧ (s.moveConstruct movedProperties movedChildren).2._mat
          = (SceneGraphNode.moveAssignFrom a s h movedProperties movedChildren).2.1._mat)
      ∧ ((s.moveConstruct movedProperties movedChildren).2._type = SceneGraphNodeType.Max
        ∧ (SceneGraphNode.moveAssignFrom a s h movedProperties movedChildren).2.1._type
            = s._type)
      ∧ ((scenarioNode.moveConstruct [] []).2._type = SceneGraphNodeType.Max
        ∧ (SceneGraphNode.moveAssignFrom scenarioReferenceNode scenarioNode scenarioHeap
            [] []).2.1._type = SceneGraphNodeType.Other 1
        ∧ (scenarioNode.moveConstruct [] []).2._type
            ≠ (SceneGraphNode.moveAssignFrom scenarioReferenceNode scenarioNode scenarioHeap
                [] []).2.1._type) :=
  ⟨⟨rfl, rfl, rfl, rfl, rfl, rfl, rfl, rfl, rfl, rfl, rfl⟩, ⟨rfl, rfl⟩,
    ⟨by decide, by decide, by decide⟩⟩

end voxel

namespace io

/-! ## File patterns -/

theorem FormatDescription.wildCardLoop_succ (exts : List String) :
    ∀ (i : Nat) (acc : String),
      FormatDescription.wildCardLoop exts (i + 1) acc
        = String.intercalate.go acc "," (exts.map fun ext => "*." ++ ext) := by
  induction exts with
  | nil => intro i acc; rfl
  | cons ext rest ih =>
    intro i acc
    simp only [FormatDescription.wildCardLoop, List.map_cons, String.intercalate.go]
    rw [ih]
    simp

/-- The wild card of a description is the text of its extensions, each after `*.`,
joined by commas. -/
theorem FormatDescription.wildCard_eq (d : FormatDescription) :
    d.wildCard = ",".intercalate (d.exts.map fun ext => "*." ++ ext) := by
  unfold FormatDescription.wildCard
  cases d.exts with
  | nil => rfl
  | cons ext rest =>
    simp only [FormatDescription.wildCardLoop, List.map_cons, String.intercalate]
    rw [FormatDescription.wildCardLoop_succ]
    simp

theorem convertToAllFilePatternLoop_succ (valid : FormatDescription → Bool)
    (term : FormatDescription) (junk : List FormatDescription) (ht : valid term = false)
    (descs : List FormatDescription) :
    (∀ d ∈ descs, valid d = true) → ∀ (j : Nat) (acc : String),
      convertToAllFilePatternLoop valid (descs ++ term :: junk) (j + 1) acc
        = some (j + 1 + descs.length,
            String.intercalate.go acc "," (descs.map FormatDescription.wildCard)) := by
  induction descs with
  | nil =>
    intro _ j acc
    simp [convertToAllFilePatternLoop, ht, String.intercalate.go]
  | cons d rest ih =>
    intro hv j acc
    have hd : valid d = true := hv d (List.mem_cons_self _ _)
    have hrest : ∀ e ∈ rest, valid e = true := fun e he => hv e (List.mem_cons_of_mem _ he)
    simp only [List.cons_append, convertToAllFilePatternLoop, hd, if_true, List.map_cons,
      String.intercalate.go, List.length_cons, List.append_eq]
    rw [ih hrest]
    have hj : j + 1 > 0 := Nat.succ_pos j
    simp only [hj, if_true]
    congr 2
    omega

/-- C29: for every terminated list of format descriptions (the valid descriptions
`descs`, then a cell `term` that is not valid), convertToAllFilePattern returns the
empty string when the list holds fewer than two valid descriptions, and otherwise
returns the `wildCard()` strings of all valid descriptions in list order joined by ',',
where `wildCard()` of a description is its extensions in order, each written as "*."
followed by the extension, joined by ','. -/
theorem C29_convertToAllFilePattern (valid : FormatDescription → Bool)
    (descs : List FormatDescription) (term : FormatDescription)
    (junk : List FormatDescription)
    (hv : ∀ d ∈ descs, valid d = true) (ht : valid term = false) :
    convertToAllFilePattern valid (descs ++ term :: junk)
        = some (if descs.length < 2 then ""
            else ",".intercalate (descs.map FormatDescription.wildCard))
      ∧ ∀ d : FormatDescription,
          d.wildCard = ",".intercalate (d.exts.map fun ext => "*." ++ ext) := by
  refine ⟨?_, FormatDescription.wildCard_eq⟩
  cases descs with
  | nil => simp [convertToAllFilePattern, convertToAllFilePatternLoop, ht]
  | cons d rest =>
    have hd : valid d = true := hv d (List.mem_cons_self _ _)
    have hrest : ∀ e ∈ rest, valid e = true := fun e he => hv e (List.mem_cons_of_mem _ he)
    have hloop := convertToAllFilePatternLoop_succ valid term junk ht rest hrest 0
      ("" ++ d.wildCard)
    simp only [convertToAllFilePattern, List.cons_append, convertToAllFilePatternLoop, hd,
      if_true, List.append_eq, gt_iff_lt, lt_self_iff_false, if_false]
    rw [hloop]
    cases rest with
    | nil => simp
    | cons e rest2 =>
      have hlen : ¬ (rest2.length + 1 + 1 < 2) := by omega
      simp [String.intercalate, hlen]

/-- Worked instance of C29: the image formats of the source, 9 valid descriptions and
the terminating entry. -/
theorem C29_convertToAllFilePattern_witness :
    (∀ d ∈ format.images.take 9, nameNotEmpty d = true)
      ∧ nameNotEmpty ⟨"", [], none, 0⟩ = false
      ∧ format.images = format.images.take 9 ++ ⟨"", [], none, 0⟩ :: []
      ∧ convertToAllFilePattern nameNotEmpty format.images
          = some "*.png,*.jpeg,*.jpg,*.tga,*.bmp,*.psd,*.gif,*.hdr,*.pic,*.pnm"
      ∧ convertToAllFilePattern nameNotEmpty (format.images.take 9 ++ ⟨"", [], none, 0⟩ :: [])
          = some (if (format.images.take 9).length < 2 then ""
              else ",".intercalate ((format.images.take 9).map FormatDescription.wildCard)) :=
  ⟨by decide, by decide, by decide, by decide,
    (C29_convertToAllFilePattern nameNotEmpty (format.images.take 9) ⟨"", [], none, 0⟩ []
      (by decide) (by decide)).1⟩

/-! ## Matching extensions -/

theorem FormatDescription.matchesExtension_iff (toLower : String → String)
    (d : FormatDescription) (fileExt : String) :
    d.matchesExtension toLower fileExt = true ↔ toLower fileExt ∈ d.exts := by
  simp [FormatDescription.matchesExtension, List.any_eq_true]

theorem isALoop_terminated (valid : FormatDescription → Bool) (toLower : String → String)
    (ext : String) (term : FormatDescription) (junk : List FormatDescription)
    (ht : valid term = false) (descs : List FormatDescription) :
    (∀ d ∈ descs, valid d = true) →
      isALoop valid toLower ext (descs ++ term :: junk)
        = some (descs.any fun d => d.matchesExtension toLower ext) := by
  induction descs with
  | nil => intro _; simp [isALoop, ht]
  | cons d rest ih =>
    intro hv
    have hd : valid d = true := hv d (List.mem_cons_self _ _)
    have hrest : ∀ e ∈ rest, valid e = true := fun e he => hv e (List.mem_cons_of_mem _ he)
    simp only [List.cons_append, isALoop, hd, if_true, List.any_cons, List.append_eq]
    cases hm : d.matchesExtension toLower ext
    · simp [ih hrest]
    · simp

theorem Char.toLower_toLower (c : Char) : c.toLower.toLower = c.toLower := by
  by_cases h : c.toNat ≥ 65 ∧ c.toNat ≤ 90
  · have hc : c = Char.ofNat c.toNat := (Char.ofNat_toNat c).symm
    obtain ⟨h1, h2⟩ := h
    generalize c.toNat = n at hc h1 h2
    subst hc
    interval_cases n <;> decide
  · have h2 : c.toLower = c := by
      unfold Char.toLower
      simp only [h, if_false]
    rw [h2, h2]

theorem lowerCase_lowerCase (s : String) : lowerCase (lowerCase s) = lowerCase s := by
  simp [lowerCase, List.map_map, Function.comp_def, Char.toLower_toLower]

/-- C30: for every format description and every extension string e,
`matchesExtension(e)` is true if and only if the lower-cased e equals one of the
description's extensions, so the result is the same for two strings with the same
lower case; and, `toLower` giving back a lower-case text unchanged, `isA(file, list)` on
a terminated list is true if and only if some valid description of the list matches the
file's extension. -/
theorem C30_matchesExtension_isA (valid : FormatDescription → Bool)
    (toLower extractExtension : String → String) (d : FormatDescription) (e e1 file : String)
    (descs : List FormatDescription) (term : FormatDescription)
    (junk : List FormatDescription)
    (hlower : ∀ s, toLower (toLower s) = toLower s)
    (hv : ∀ d ∈ descs, valid d = true) (ht : valid term = false) :
    (d.matchesExtension toLower e = true ↔ ∃ ext ∈ d.exts, toLower e = ext)
      ∧ (toLower e = toLower e1 →
          d.matchesExtension toLower e = d.matchesExtension toLower e1)
      ∧ ∃ b, isA valid toLower extractExtension file (descs ++ term :: junk) = some b
          ∧ (b = true ↔
              ∃ d1 ∈ descs, d1.matchesExtension toLower (extractExtension file) = true) := by
  refine ⟨?_, ?_, ?_⟩
  · rw [FormatDescription.matchesExtension_iff]
    constructor
    · intro hm
      exact ⟨_, hm, rfl⟩
    · rintro ⟨ext, hm, rfl⟩
      exact hm
  · intro he
    simp only [FormatDescription.matchesExtension, he]
  · refine ⟨_, isALoop_terminated valid toLower _ term junk ht descs hv, ?_⟩
    simp only [List.any_eq_true, FormatDescription.matchesExtension_iff, hlower]

/-- Worked instance of C30: among the image formats of the source, the file
"foo/Bar.JPG" is an image and "notes.txt" is not. -/
theorem C30_matchesExtension_isA_witness :
    (∀ d ∈ format.images.take 9, nameNotEmpty d = true)
      ∧ nameNotEmpty ⟨"", [], none, 0⟩ = false
      ∧ isA nameNotEmpty lowerCase extensionAfterDot "foo/Bar.JPG" format.images = some true
      ∧ isA nameNotEmpty lowerCase extensionAfterDot "notes.txt" format.images = some false
      ∧ (FormatDescription.matchesExtension lowerCase ⟨"JPEG", ["jpeg", "jpg"], none, 0⟩ "JPG"
          = true ↔ ∃ ext ∈ ["jpeg", "jpg"], lowerCase "JPG" = ext) :=
  ⟨by decide, by decide, by decide, by decide,
    (C30_matchesExtension_isA nameNotEmpty lowerCase extensionAfterDot
      ⟨"JPEG", ["jpeg", "jpg"], none, 0⟩ "JPG" "jpg" "foo/Bar.JPG" (format.images.take 9)
      ⟨"", [], none, 0⟩ [] lowerCase_lowerCase (by decide) (by decide)).1⟩

/-! ## Group patterns -/

theorem flushGroup_append (temp : List FormatDescription) (lastName : String)
    (groups : List FormatDescription) :
    flushGroup temp lastName groups = groups ++ flushGroup temp lastName [] := by
  unfold flushGroup
  split <;> simp

/-- The second loop of createGroupPatterns and the block after it append `newGroups`. -/
theorem foldl_groupStep_flush (L : List FormatDescription) :
    ∀ st : GroupState,
      flushGroup (L.foldl groupStep st).temp (L.foldl groupStep st).lastName
          (L.foldl groupStep st).groups
        = st.groups ++ newGroups st.temp st.lastName L := by
  induction L with
  | nil =>
    intro st
    exact flushGroup_append _ _ _
  | cons d rest ih =>
    intro st
    rw [List.foldl_cons, ih]
    unfold groupStep
    by_cases hd : st.lastName ≠ firstWord d.name
    · simp only [hd, if_true, newGroups, ne_eq, not_false_eq_true]
      rw [flushGroup_append, List.append_assoc]
    · simp only [hd, if_false, newGroups]

theorem validCells_terminated (valid : FormatDescription → Bool) (term : FormatDescription)
    (junk : List FormatDescription) (ht : valid term = false)
    (descs : List FormatDescription) :
    (∀ d ∈ descs, valid d = true) → validCells valid (descs ++ term :: junk) = some descs := by
  induction descs with
  | nil => intro _; simp [validCells, ht]
  | cons d rest ih =>
    intro hv
    have hd : valid d = true := hv d (List.mem_cons_self _ _)
    have hrest : ∀ e ∈ rest, valid e = true := fun e he => hv e (List.mem_cons_of_mem _ he)
    simp [validCells, hd, ih hrest]

theorem adjacentRuns_suffix (l1 : List String) :
    ∀ l2 : List String, adjacentRuns (l1 ++ l2) = true → adjacentRuns l2 = true := by
  induction l1 with
  | nil => intro l2 h; exact h
  | cons w ws ih =>
    intro l2 h
    simp only [List.cons_append, adjacentRuns, Bool.and_eq_true] at h
    exact ih l2 h.2

/-- In a list with adjacent runs, a word followed by a different word is not among the
words after it. -/
theorem adjacentRuns_not_mem (l1 : List String) (w w1 : String) (l2 : List String)
    (h : adjacentRuns (l1 ++ w :: w1 :: l2) = true) (hne : w1 ≠ w) : w ∉ w1 :: l2 := by
  have h2 := adjacentRuns_suffix l1 _ h
  simp only [adjacentRuns, List.head?_cons, Option.some.injEq, hne, if_false,
    Bool.and_eq_true, Bool.not_eq_true', List.contains_eq_any_beq, List.any_eq_false] at h2
  intro hm
  have h3 := h2.1 w hm
  simp at h3

theorem filter_word_eq_self (temp : List FormatDescription) (lastName : String)
    (h : ∀ t ∈ temp, firstWord t.name = lastName) :
    temp.filter (fun d => decide (firstWord d.name = lastName)) = temp := by
  rw [List.filter_eq_self]
  intro t ht
  simp [h t ht]

theorem filter_word_eq_nil (temp : List FormatDescription) (lastName w : String)
    (h : ∀ t ∈ temp, firstWord t.name = lastName) (hw : ¬ w = lastName) :
    temp.filter (fun d => decide (firstWord d.name = w)) = [] := by
  rw [List.filter_eq_nil_iff]
  intro t ht
  simp only [decide_eq_true_eq, h t ht]
  exact fun e => hw e.symm

theorem filter_name_flushGroup (temp : List FormatDescription) (lastName w : String) :
    (flushGroup temp lastName []).filter (fun g => decide (g.name = w))
      = if w = lastName ∧ 2 ≤ temp.length then
          [{ name := w, exts := collectExts temp, isA := none, flags := 0 }]
        else [] := by
  unfold flushGroup
  by_cases hl : temp.length ≥ 2
  · by_cases hw : w = lastName
    · subst hw
      have hl2 : 2 ≤ temp.length := hl
      simp [hl2]
    · have hw2 : ¬ lastName = w := fun e => hw e.symm
      simp [hl, hw, hw2]
  · have hl2 : ¬ 2 ≤ temp.length := hl
    simp [hl, hl2]

/-- The groups that the loop appends, word by word: one group for a word that two or
more of the descriptions have as first word, none for the other words, when equal first
words are next to each other. -/
theorem newGroups_filter (L : List FormatDescription) :
    ∀ (temp : List FormatDescription) (lastName : String),
      (∀ t ∈ temp, firstWord t.name = lastName) →
      adjacentRuns ((temp ++ L).map fun d => firstWord d.name) = true →
      ∀ w : String,
        (newGroups temp lastName L).filter (fun g => decide (g.name = w))
          = if 2 ≤ ((temp ++ L).filter fun d => decide (firstWord d.name = w)).length then
              [{ name := w
                 exts := collectExts ((temp ++ L).filter fun d => decide (firstWord d.name = w))
                 isA := none, flags := 0 }]
            else [] := by
  induction L with
  | nil =>
    intro temp lastName htemp _ w
    simp only [newGroups, List.append_nil]
    rw [filter_name_flushGroup]
    by_cases hw : w = lastName
    · subst hw
      rw [filter_word_eq_self temp w htemp]
      simp
    · rw [filter_word_eq_nil temp lastName w htemp hw]
      simp [hw]
  | cons d rest ih =>
    intro temp lastName htemp hadj w
    unfold newGroups
    by_cases hd : lastName ≠ firstWord d.name
    · rw [if_pos hd, List.filter_append, List.filter_append]
      have hsuf : adjacentRuns (([d] ++ rest).map fun d => firstWord d.name) = true := by
        rw [List.map_append] at hadj
        exact adjacentRuns_suffix _ _ hadj
      have hone : ∀ t ∈ [d], firstWord t.name = firstWord d.name := by
        intro t ht
        rw [List.mem_singleton.1 ht]
      rw [ih [d] (firstWord d.name) hone hsuf w, filter_name_flushGroup]
      by_cases hw : w = lastName
      · subst hw
        rw [filter_word_eq_self temp w htemp]
        rcases List.eq_nil_or_concat temp with hnil | ⟨temp1, t, hcat⟩
        · subst hnil
          simp
        · have ht : firstWord t.name = w := htemp t (by rw [hcat]; simp)
          have hnot : w ∉ (d :: rest).map fun d => firstWord d.name := by
            have hadj2 : adjacentRuns ((temp1.map fun d => firstWord d.name)
                ++ w :: firstWord d.name :: rest.map fun d => firstWord d.name) = true := by
              rw [hcat] at hadj
              simpa [ht] using hadj
            have hne : firstWord d.name ≠ w := fun e => hd e.symm
            simpa using adjacentRuns_not_mem _ _ _ _ hadj2 hne
          have hnone : (d :: rest).filter (fun d => decide (firstWord d.name = w)) = [] := by
            rw [List.filter_eq_nil_iff]
            intro e he
            simp only [decide_eq_true_eq]
            intro hew
            exact hnot (List.mem_map.2 ⟨e, he, hew⟩)
          have hnone2 : ([d] ++ rest).filter (fun d => decide (firstWord d.name = w)) = [] :=
            hnone
          rw [hnone2, hnone]
          simp
      · rw [filter_word_eq_nil temp lastName w htemp hw]
        simp [hw]
    · have hd2 : lastName = firstWord d.name := by
        by_contra hc
        exact hd hc
      rw [if_neg hd]
      have htemp2 : ∀ t ∈ temp ++ [d], firstWord t.name = lastName := by
        intro t ht
        rcases List.mem_append.1 ht with h1 | h1
        · exact htemp t h1
        · rw [List.mem_singleton.1 h1]
          exact hd2.symm
      have hadj2 : adjacentRuns (((temp ++ [d]) ++ rest).map fun d => firstWord d.name)
          = true := by
        rw [List.append_assoc]
        exact hadj
      have key := ih (temp ++ [d]) lastName htemp2 hadj2 w
      rw [List.append_assoc] at key
      exact key

/-! ## Names without characters below the space -/

theorem take_length_takeWhile (p : Char → Bool) (l : List Char) :
    l.take (l.takeWhile p).length = l.takeWhile p := by
  induction l with
  | nil => rfl
  | cons x xs ih =>
    by_cases hx : p x = true
    · simp [List.takeWhile_cons, hx, ih]
    · simp [List.takeWhile_cons, hx]

/-- The first word of a name is the text before its first space. -/
theorem firstWord_eq_takeWhile (name : String) :
    firstWord name = String.mk (name.data.takeWhile fun c => decide (c ≠ ' ')) := by
  unfold firstWord find_first_of
  by_cases hs : ' ' ∈ name.data
  · simp only [hs, if_true, substr, List.drop_zero]
    rw [take_length_takeWhile]
  · simp only [hs, if_false]
    have hall : name.data.takeWhile (fun c => decide (c ≠ ' ')) = name.data := by
      rw [List.takeWhile_eq_self_iff]
      intro c hc
      simp only [decide_eq_true_eq]
      intro he
      exact hs (he ▸ hc)
    rw [hall]

theorem lex_cons_cons (x y : Char) (a b : List Char) :
    (x :: a) < (y :: b) ↔ x < y ∨ (x = y ∧ a < b) := by
  constructor
  · intro h
    cases h with
    | cons h1 => exact Or.inr ⟨rfl, h1⟩
    | rel h1 => exact Or.inl h1
  · rintro (h | ⟨rfl, h⟩)
    · exact List.Lex.rel h
    · exact List.Lex.cons h

/-- A text without characters below the space that stands, in the order of texts, between
two texts with the same first word has that first word too. -/
theorem takeWhile_between (a : List Char) :
    ∀ b c : List Char, ¬ b < a → ¬ c < b →
      a.takeWhile (fun ch => decide (ch ≠ ' ')) = c.takeWhile (fun ch => decide (ch ≠ ' ')) →
      (∀ ch ∈ b, ' ' ≤ ch) →
      b.takeWhile (fun ch => decide (ch ≠ ' ')) = a.takeWhile (fun ch => decide (ch ≠ ' ')) := by
  induction a with
  | nil =>
    intro b c _ hcb hac hb
    cases b with
    | nil => rfl
    | cons y b1 =>
      cases c with
      | nil => exact absurd (List.nil_lt_cons y b1) hcb
      | cons z c1 =>
        have hz : z = ' ' := by
          by_contra hne
          simp [List.takeWhile_cons, hne] at hac
        subst hz
        have hy1 : ¬ ' ' < y := fun hlt => hcb ((lex_cons_cons _ _ _ _).2 (Or.inl hlt))
        have hy2 : ' ' ≤ y := hb y (List.mem_cons_self _ _)
        have hy : y = ' ' := le_antisymm (not_lt.1 hy1) hy2
        simp [List.takeWhile_cons, hy]
  | cons x a1 ih =>
    intro b c hba hcb hac hb
    cases b with
    | nil => exact absurd (List.nil_lt_cons x a1) hba
    | cons y b1 =>
      cases c with
      | nil => exact absurd (List.nil_lt_cons y b1) hcb
      | cons z c1 =>
        have hxy : x ≤ y := not_lt.1 fun hlt => hba ((lex_cons_cons _ _ _ _).2 (Or.inl hlt))
        have hyz : y ≤ z := not_lt.1 fun hlt => hcb ((lex_cons_cons _ _ _ _).2 (Or.inl hlt))
        by_cases hx : x = ' '
        · subst hx
          have hz : z = ' ' := by
            by_contra hne
            simp [List.takeWhile_cons, hne] at hac
          subst hz
          have hy : y = ' ' := le_antisymm hyz hxy
          simp [List.takeWhile_cons, hy]
        · have hz : z ≠ ' ' := by
            intro he
            subst he
            simp [List.takeWhile_cons, hx] at hac
          simp only [List.takeWhile_cons, hx, hz, ne_eq, not_false_eq_true, decide_True,
            if_true, List.cons.injEq] at hac
          obtain ⟨hxz, hrest⟩ := hac
          subst hxz
          have hy : y = x := le_antisymm hyz hxy
          subst hy
          have hba1 : ¬ b1 < a1 := fun hlt => hba ((lex_cons_cons _ _ _ _).2 (Or.inr ⟨rfl, hlt⟩))
          have hcb1 : ¬ c1 < b1 := fun hlt => hcb ((lex_cons_cons _ _ _ _).2 (Or.inr ⟨rfl, hlt⟩))
          have hb1 : ∀ ch ∈ b1, ' ' ≤ ch := fun ch hch => hb ch (List.mem_cons_of_mem _ hch)
          simp only [List.takeWhile_cons, hx, ne_eq, not_false_eq_true, decide_True, if_true,
            List.cons.injEq, true_and]
          exact ih b1 c1 hba1 hcb1 hrest hb1

theorem firstWord_between (a b c : FormatDescription) (hba : b.less a = false)
    (hcb : c.less b = false) (hac : firstWord a.name = firstWord c.name)
    (hb : ∀ ch ∈ b.name.data, ' ' ≤ ch) : firstWord b.name = firstWord a.name := by
  simp only [FormatDescription.less, FormatDescription.stringLess, decide_eq_false_iff_not]
    at hba hcb
  rw [firstWord_eq_takeWhile, firstWord_eq_takeWhile] at hac
  rw [firstWord_eq_takeWhile, firstWord_eq_takeWhile]
  exact congrArg String.mk (takeWhile_between _ _ _ hba hcb (congrArg String.data hac) hb)

/-- In a list sorted by name whose names have no character below the space, the
descriptions with the same first word are next to each other. -/
theorem adjacentRuns_of_sorted (L : List FormatDescription) :
    L.Pairwise (fun a b => b.less a = false) →
      (∀ d ∈ L, ∀ ch ∈ d.name.data, ' ' ≤ ch) →
      adjacentRuns (L.map fun d => firstWord d.name) = true := by
  induction L with
  | nil => intro _ _; rfl
  | cons a rest ih =>
    intro hs hch
    rw [List.pairwise_cons] at hs
    have hrest := ih hs.2 fun d hd => hch d (List.mem_cons_of_mem _ hd)
    simp only [List.map_cons, adjacentRuns, Bool.and_eq_true, hrest, and_true]
    cases rest with
    | nil => simp
    | cons b rest1 =>
      by_cases hw : firstWord b.name = firstWord a.name
      · simp [hw]
      · have hnot : ∀ c ∈ b :: rest1, firstWord c.name ≠ firstWord a.name := by
          intro c hc hcw
          rcases List.mem_cons.1 hc with rfl | hc1
          · exact hw hcw
          · have hba : b.less a = false := hs.1 b (List.mem_cons_self _ _)
            have hcb : c.less b = false := (List.pairwise_cons.1 hs.2).1 c hc1
            exact hw (firstWord_between a b c hba hcb hcw.symm
              (hch b (List.mem_cons_of_mem _ (List.mem_cons_self _ _))))
        have hb := hnot b (List.mem_cons_self _ _)
        simp only [List.map_cons, List.head?_cons, Option.some.injEq, hb, if_false,
          Bool.not_eq_true', List.contains_eq_any_beq, List.any_eq_false]
        intro w hwm
        simp only [beq_iff_eq]
        intro he
        rcases List.mem_cons.1 hwm with h1 | h1
        · exact hb (h1.symm.trans he.symm ▸ rfl)
        · obtain ⟨c, hc, hcw⟩ := List.mem_map.1 h1
          exact hnot c (List.mem_cons_of_mem _ hc) (hcw.trans he.symm)

/-- C28 as the code has it: for every terminated list of valid format descriptions
whose descriptions with the same first word (the text of a name before its first space,
or the whole name when it has no space) are next to each other once sorted by name,
createGroupPatterns appends exactly one group for each first word that is shared by two
or more descriptions, named by that first word and carrying the extensions of all those
descriptions, in ascending name order, and appends no group for a first word used by
fewer than two descriptions; the descriptions with the same first word are next to each
other whenever no name has a character below the space. `sort` is any function that
returns its argument sorted by name. -/
theorem C28_createGroupPatterns_amended (valid : FormatDescription → Bool)
    (sort : List FormatDescription → List FormatDescription)
    (descs : List FormatDescription) (term : FormatDescription)
    (junk groups : List FormatDescription)
    (hv : ∀ d ∈ descs, valid d = true) (ht : valid term = false)
    (hperm : (sort descs).Perm descs)
    (hsorted : (sort descs).Pairwise fun a b => b.less a = false) :
    ((∀ d ∈ descs, ∀ ch ∈ d.name.data, ' ' ≤ ch) →
        adjacentRuns ((sort descs).map fun d => firstWord d.name) = true)
      ∧ (adjacentRuns ((sort descs).map fun d => firstWord d.name) = true →
        ∃ G, createGroupPatterns valid sort (descs ++ term :: junk) groups = some (groups ++ G)
          ∧ ∀ w : String,
              (2 ≤ (descs.filter fun d => decide (firstWord d.name = w)).length →
                G.filter (fun g => decide (g.name = w))
                    = [{ name := w
                         exts := collectExts
                           ((sort descs).filter fun d => decide (firstWord d.name = w))
                         isA := none, flags := 0 }]
                  ∧ ((sort descs).filter fun d => decide (firstWord d.name = w)).Perm
                      (descs.filter fun d => decide (firstWord d.name = w))
                  ∧ ((sort descs).filter fun d => decide (firstWord d.name = w)).Pairwise
                      fun a b => b.less a = false)
              ∧ ((descs.filter fun d => decide (firstWord d.name = w)).length < 2 →
                  G.filter (fun g => decide (g.name = w)) = [])) := by
  refine ⟨fun hch => adjacentRuns_of_sorted (sort descs) hsorted
    (fun d hd => hch d (hperm.mem_iff.1 hd)), fun hadj => ?_⟩
  refine ⟨newGroups [] "" (sort descs), ?_, ?_⟩
  · simp only [createGroupPatterns, validCells_terminated valid term junk ht descs hv,
      Option.map_some']
    rw [foldl_groupStep_flush]
  · intro w
    have key := newGroups_filter (sort descs) [] "" (fun t ht => absurd ht (List.not_mem_nil t))
      (by simpa using hadj) w
    rw [List.nil_append] at key
    have hlen : ((sort descs).filter fun d => decide (firstWord d.name = w)).length
        = (descs.filter fun d => decide (firstWord d.name = w)).length :=
      (hperm.filter _).length_eq
    constructor
    · intro h2
      rw [key, hlen, if_pos h2]
      exact ⟨rfl, hperm.filter _, hsorted.filter _⟩
    · intro h2
      rw [key, hlen, if_neg (by omega)]

/-- Worked instance of the amended C28: the image formats of the source give one group,
"Portable", with the extensions of "Portable Anymap" and "Portable Network Graphics"
in that order. -/
theorem C28_createGroupPatterns_amended_witness :
    createGroupPatterns nameNotEmpty sortByName format.images []
        = some [⟨"Portable", ["pnm", "png"], none, 0⟩]
      ∧ (∀ d ∈ format.images.take 9, nameNotEmpty d = true)
      ∧ nameNotEmpty ⟨"", [], none, 0⟩ = false
      ∧ (sortByName (format.images.take 9)).Pairwise (fun a b => b.less a = false)
      ∧ adjacentRuns ((sortByName (format.images.take 9)).map fun d => firstWord d.name) = true
      ∧ ∃ G, createGroupPatterns nameNotEmpty sortByName
            (format.images.take 9 ++ ⟨"", [], none, 0⟩ :: []) [] = some ([] ++ G)
          ∧ ∀ w : String,
              (2 ≤ ((format.images.take 9).filter fun d => decide (firstWord d.name = w)).length →
                G.filter (fun g => decide (g.name = w))
                    = [{ name := w
                         exts := collectExts
                           ((sortByName (format.images.take 9)).filter
                             fun d => decide (firstWord d.name = w))
                         isA := none, flags := 0 }]
                  ∧ ((sortByName (format.images.take 9)).filter
                      fun d => decide (firstWord d.name = w)).Perm
                      ((format.images.take 9).filter fun d => decide (firstWord d.name = w))
                  ∧ ((sortByName (format.images.take 9)).filter
                      fun d => decide (firstWord d.name = w)).Pairwise
                      fun a b => b.less a = false)
              ∧ (((format.images.take 9).filter
                    fun d => decide (firstWord d.name = w)).length < 2 →
                  G.filter (fun g => decide (g.name = w)) = []) :=
  ⟨by decide, by decide, by decide, by decide, by decide,
    (C28_createGroupPatterns_amended nameNotEmpty sortByName (format.images.take 9)
      ⟨"", [], none, 0⟩ [] [] (by decide) (by decide) (List.perm_insertionSort _ _)
      (by decide)).2 (by decide)⟩

/-- C28 fails as stated: in the terminated list of the valid descriptions "A", "A B" and
"A<tab>C", the first word "A" is shared by two descriptions, "A" and "A B", but in
ascending name order "A<tab>C" stands between them (the tab is below the space), and
createGroupPatterns appends no group. -/
theorem C28_shared_first_word_without_group :
    (∀ d ∈ [(⟨"A", ["a"], none, 0⟩ : FormatDescription), ⟨"A B", ["b"], none, 0⟩,
        ⟨"A\tC", ["c"], none, 0⟩], nameNotEmpty d = true)
      ∧ nameNotEmpty ⟨"", [], none, 0⟩ = false
      ∧ ([(⟨"A", ["a"], none, 0⟩ : FormatDescription), ⟨"A B", ["b"], none, 0⟩,
          ⟨"A\tC", ["c"], none, 0⟩].filter fun d => decide (firstWord d.name = "A")).length = 2
      ∧ sortByName [⟨"A", ["a"], none, 0⟩, ⟨"A B", ["b"], none, 0⟩, ⟨"A\tC", ["c"], none, 0⟩]
          = [⟨"A", ["a"], none, 0⟩, ⟨"A\tC", ["c"], none, 0⟩, ⟨"A B", ["b"], none, 0⟩]
      ∧ createGroupPatterns nameNotEmpty sortByName
          [⟨"A", ["a"], none, 0⟩, ⟨"A B", ["b"], none, 0⟩, ⟨"A\tC", ["c"], none, 0⟩,
            ⟨"", [], none, 0⟩] [] = some [] := by
  decide

/-! ## Files: path, file name and extension -/

/-- Source: `rfind` gives `npos` exactly when the character does not occur. -/
theorem rfind_eq_none (s : List Char) (c : Char) : rfind s c = none ↔ c ∉ s := by
  induction s with
  | nil => simp [rfind]
  | cons a s ih =>
    unfold rfind
    cases h : rfind s c with
    | none =>
      have h2 := ih.1 h
      by_cases hac : a = c
      · simp [hac]
      · simp [hac, h2, Ne.symm hac]
    | some pos =>
      have h2 : c ∈ s := by
        by_contra hn
        rw [ih.2 hn] at h
        cases h
      simp [h2]

/-- The position that `rfind` gives is the one of the last occurrence. -/
theorem rfind_append (p q : List Char) (c : Char) (hq : c ∉ q) :
    rfind (p ++ c :: q) c = some p.length := by
  induction p with
  | nil => simp [rfind, (rfind_eq_none q c).2 hq]
  | cons a p ih => simp [rfind, ih]

/-- There is no text after the last `c` exactly when `c` does not occur. -/
theorem afterLast_eq_none (s : List Char) (c : Char) : afterLast c s = none ↔ c ∉ s := by
  induction s with
  | nil => simp [afterLast]
  | cons a s ih =>
    unfold afterLast
    cases h : afterLast c s with
    | none =>
      have h2 := ih.1 h
      by_cases hac : a = c
      · simp [hac]
      · simp [hac, h2, Ne.symm hac]
    | some pos =>
      have h2 : c ∈ s := by
        by_contra hn
        rw [ih.2 hn] at h
        cases h
      simp [h2]

/-- The text after the last `c` is what follows an occurrence with no later one. -/
theorem afterLast_append (p q : List Char) (c : Char) (hq : c ∉ q) :
    afterLast c (p ++ c :: q) = some q := by
  induction p with
  | nil => simp [afterLast, (afterLast_eq_none q c).2 hq]
  | cons a p ih => simp [afterLast, ih]

/-- A list in which `c` occurs splits at the last occurrence of `c`. -/
theorem exists_last_split (s : List Char) (c : Char) (h : c ∈ s) :
    ∃ p q, s = p ++ c :: q ∧ c ∉ q := by
  induction s with
  | nil => simp at h
  | cons a s ih =>
    by_cases hs : c ∈ s
    · obtain ⟨p, q, e, hq⟩ := ih hs
      exact ⟨a :: p, q, by rw [e]; rfl, hq⟩
    · have hac : c = a := by
        rcases List.mem_cons.1 h with h1 | h1
        · exact h1
        · exact absurd h1 hs
      exact ⟨[], s, by rw [hac]; rfl, hs⟩

/-- The text after the last `c` is `t` exactly when the list ends in `c` and then `t`,
with no `c` in `t`. -/
theorem afterLast_eq_some_iff (s t : List Char) (c : Char) :
    afterLast c s = some t ↔ ∃ p, s = p ++ c :: t ∧ c ∉ t := by
  constructor
  · intro h
    have hc : c ∈ s := by
      by_contra hn
      rw [(afterLast_eq_none s c).2 hn] at h
      cases h
    obtain ⟨p, q, e, hq⟩ := exists_last_split s c hc
    rw [e, afterLast_append p q c hq] at h
    cases h
    exact ⟨p, e, hq⟩
  · rintro ⟨p, e, hq⟩
    rw [e, afterLast_append p t c hq]

/-- A text without a NUL is its own C string. -/
theorem c_str_eq_self (s : List Char) (h : Char.ofNat 0 ∉ s) : c_str s = s := by
  unfold c_str
  rw [List.takeWhile_eq_self_iff]
  intro x hx
  have : x ≠ Char.ofNat 0 := fun e => h (e ▸ hx)
  simpa using this


/-- In every case `File::extension()` is the text after the last '.' of the C string of
the whole name. -/
theorem extension_eq_afterLast {FileMode SDL_RWops : Type} (f : File FileMode SDL_RWops) :
    f.extension = (afterLast '.' (c_str f.name)).getD [] := by
  unfold File.extension SDL_strrchr
  by_cases h : '.' ∈ c_str f.name
  · obtain ⟨p, q, e, hq⟩ := exists_last_split _ _ h
    rw [e, rfind_append p q _ hq, afterLast_append p q _ hq]
    simp
  · rw [(rfind_eq_none _ _).2 h, (afterLast_eq_none _ _).2 h]
    rfl

/-- The first step of `File::fileName()` computes the last path component. -/
theorem drop_rfind_eq_lastComponent (name : List Char) :
    (match rfind name '/' with
      | some pathPos => name.drop (pathPos + 1)
      | none => name) = lastComponent name := by
  unfold lastComponent
  by_cases h : '/' ∈ name
  · obtain ⟨p, q, e, hq⟩ := exists_last_split _ _ h
    rw [e, rfind_append p q _ hq, afterLast_append p q _ hq]
    simp
  · rw [(rfind_eq_none _ _).2 h, (afterLast_eq_none _ _).2 h]
    rfl

/-- After its first step `File::fileName()` cuts the last path component at its last
'.'. -/
theorem fileName_eq {FileMode SDL_RWops : Type} (f : File FileMode SDL_RWops) :
    f.fileName =
      match rfind (lastComponent f.name) '.' with
      | some extPos => (lastComponent f.name).take extPos
      | none => lastComponent f.name := by
  unfold File.fileName
  simp only [drop_rfind_eq_lastComponent]

/-- When the last path component has a '.', `File::fileName()` strips from it the '.'
and the extension that the specification words. -/
theorem fileName_of_dot {FileMode SDL_RWops : Type} (f : File FileMode SDL_RWops)
    (h : '.' ∈ lastComponent f.name) :
    lastComponent f.name = f.fileName ++ '.' :: extensionOfLastComponent f.name
      ∧ '.' ∉ extensionOfLastComponent f.name := by
  rw [fileName_eq]
  unfold extensionOfLastComponent
  obtain ⟨p, q, e, hq⟩ := exists_last_split _ _ h
  rw [e, rfind_append p q _ hq, afterLast_append p q _ hq]
  simpa using hq

/-- When the last path component has no '.', `File::fileName()` is that component and
the extension that the specification words is empty. -/
theorem fileName_of_no_dot {FileMode SDL_RWops : Type} (f : File FileMode SDL_RWops)
    (h : '.' ∉ lastComponent f.name) :
    f.fileName = lastComponent f.name ∧ extensionOfLastComponent f.name = [] := by
  rw [fileName_eq]
  unfold extensionOfLastComponent
  rw [(rfind_eq_none _ _).2 h, (afterLast_eq_none _ _).2 h]
  exact ⟨rfl, rfl⟩

/-- The last path component has no '/'. -/
theorem lastComponent_no_slash (name : List Char) : '/' ∉ lastComponent name := by
  unfold lastComponent
  by_cases h : '/' ∈ name
  · obtain ⟨p, q, e, hq⟩ := exists_last_split _ _ h
    rw [e, afterLast_append p q _ hq]
    simpa using hq
  · rw [(afterLast_eq_none _ _).2 h]
    simpa using h

/-- For a name without NUL whose last path component has a '.', `File::extension()` is
the extension that the specification words, and it has no '/'. -/
theorem extension_of_dot_in_component {FileMode SDL_RWops : Type}
    (f : File FileMode SDL_RWops) (hnul : Char.ofNat 0 ∉ f.name)
    (h : '.' ∈ lastComponent f.name) :
    f.extension = extensionOfLastComponent f.name ∧ '/' ∉ f.extension := by
  have key : f.extension = extensionOfLastComponent f.name := by
    rw [extension_eq_afterLast, c_str_eq_self _ hnul]
    unfold extensionOfLastComponent
    obtain ⟨p, q, e, hq⟩ := exists_last_split _ _ h
    rw [e, afterLast_append p q _ hq]
    revert e
    unfold lastComponent
    by_cases hs : '/' ∈ f.name
    · obtain ⟨p2, q2, e2, hq2⟩ := exists_last_split _ _ hs
      rw [e2, afterLast_append p2 q2 _ hq2]
      intro e
      simp only [Option.getD_some] at e
      rw [e]
      have e3 : p2 ++ '/' :: (p ++ '.' :: q) = (p2 ++ '/' :: p) ++ '.' :: q := by simp
      rw [e3, afterLast_append _ q _ hq]
    · rw [(afterLast_eq_none _ _).2 hs]
      intro e
      simp only [Option.getD_none] at e
      rw [e, afterLast_append p q _ hq]
  refine ⟨key, ?_⟩
  rw [key]
  intro hmem
  have h1 := (fileName_of_dot f h).1
  have h2 := lastComponent_no_slash f.name
  rw [h1] at h2
  exact h2 (by simp [hmem])

/-- The directory part and the last component of a name that splits at its last '/'. -/
theorem path_append {FileMode SDL_RWops : Type} (f : File FileMode SDL_RWops)
    (p q : List Char) (e : f.name = p ++ '/' :: q) (hq : '/' ∉ q) :
    f.path = p ∧ lastComponent f.name = q := by
  unfold File.path lastComponent
  rw [e, rfind_append p q _ hq, afterLast_append p q _ hq]
  simp

/-- For a name without NUL that has a '.', but none in its last path component,
`File::extension()` is the text after the last '.' of the directory part, a '/' and the
file name. -/
theorem extension_of_dot_in_directory {FileMode SDL_RWops : Type}
    (f : File FileMode SDL_RWops) (hnul : Char.ofNat 0 ∉ f.name)
    (hdot : '.' ∈ f.name) (h : '.' ∉ lastComponent f.name) :
    f.extension = (afterLast '.' f.path).getD [] ++ '/' :: f.fileName
      ∧ extensionOfLastComponent f.name = [] := by
  have hs : '/' ∈ f.name := by
    by_contra hn
    apply h
    unfold lastComponent
    rw [(afterLast_eq_none _ _).2 hn]
    exact hdot
  obtain ⟨p, q, e, hq⟩ := exists_last_split _ _ hs
  obtain ⟨hp, hl⟩ := path_append f p q e hq
  rw [hl] at h
  have hp1 : '.' ∈ p := by
    rw [e] at hdot
    simpa [h] using hdot
  obtain ⟨p1, p2, e1, hp2⟩ := exists_last_split _ _ hp1
  have hf := (fileName_of_no_dot f (by rw [hl]; exact h))
  rw [extension_eq_afterLast, c_str_eq_self _ hnul, hf.1, hl, hp]
  refine ⟨?_, hf.2⟩
  have e3 : f.name = p1 ++ '.' :: (p2 ++ '/' :: q) := by rw [e, e1]; simp
  have hq3 : '.' ∉ p2 ++ '/' :: q := by simp [hp2, h]
  rw [e3, afterLast_append _ _ _ hq3, e1, afterLast_append _ _ _ hp2]
  rfl

/-- A character of the last path component is a character of the name. -/
theorem mem_of_mem_lastComponent (name : List Char) (x : Char)
    (h : x ∈ lastComponent name) : x ∈ name := by
  unfold lastComponent at h
  by_cases hs : '/' ∈ name
  · obtain ⟨p, q, e, hq⟩ := exists_last_split _ _ hs
    rw [e, afterLast_append p q _ hq] at h
    rw [e]
    simp only [Option.getD_some] at h
    simp [h]
  · rw [(afterLast_eq_none _ _).2 hs] at h
    exact h

/-- For a name without NUL, `File::extension()` is the extension that the specification
words exactly when the last path component has a '.' or the whole name has none. -/
theorem extension_eq_extensionOfLastComponent_iff {FileMode SDL_RWops : Type}
    (f : File FileMode SDL_RWops) (hnul : Char.ofNat 0 ∉ f.name) :
    f.extension = extensionOfLastComponent f.name
      ↔ ('.' ∈ lastComponent f.name ∨ '.' ∉ f.name) := by
  constructor
  · intro h
    by_contra hn
    push_neg at hn
    obtain ⟨h1, h2⟩ := extension_of_dot_in_directory f hnul hn.2 hn.1
    rw [h1, h2] at h
    simp at h
  · rintro (h | h)
    · exact (extension_of_dot_in_component f hnul h).1
    · rw [extension_eq_afterLast, c_str_eq_self _ hnul, (afterLast_eq_none _ _).2 h]
      exact (fileName_of_no_dot f fun hl => h (mem_of_mem_lastComponent _ _ hl)).2.symm

/-- C31 on the code: `File::extension()` searches the last '.' in the whole name, where
`File::fileName()` first cuts the name at its last '/'.  For every file whose name has
no NUL and has a '.', but none in its last path component, `extension()` is the text
after the last '.' of the directory part, then a '/', then the file name; so it
contains a '/' and is not the empty text that the last component calls for, while
`fileName()` has stripped nothing from that component. -/
theorem C31_extension_of_dotted_directory {FileMode SDL_RWops : Type}
    (f : File FileMode SDL_RWops) (hnul : Char.ofNat 0 ∉ f.name)
    (hdot : '.' ∈ f.name) (h : '.' ∉ lastComponent f.name) :
    f.extension = (afterLast '.' f.path).getD [] ++ '/' :: f.fileName
      ∧ '/' ∈ f.extension
      ∧ extensionOfLastComponent f.name = []
      ∧ f.extension ≠ extensionOfLastComponent f.name
      ∧ f.fileName = lastComponent f.name := by
  obtain ⟨h1, h2⟩ := extension_of_dot_in_directory f hnul hdot h
  refine ⟨h1, ?_, h2, ?_, (fileName_of_no_dot f h).1⟩
  · rw [h1]
    simp
  · rw [h1, h2]
    simp

/-- C31 at the path `dir.v2/file`: `extension()` is `v2/file` and `fileName()` is
`file`. -/
theorem C31_extension_of_dotted_directory_witness :
    (exampleFile "dir.v2/file").extension = "v2/file".toList
      ∧ (exampleFile "dir.v2/file").fileName = "file".toList
      ∧ lastComponent (exampleFile "dir.v2/file").name = "file".toList
      ∧ ((exampleFile "dir.v2/file").extension
            = (afterLast '.' (exampleFile "dir.v2/file").path).getD []
                ++ '/' :: (exampleFile "dir.v2/file").fileName
          ∧ '/' ∈ (exampleFile "dir.v2/file").extension
          ∧ extensionOfLastComponent (exampleFile "dir.v2/file").name = []
          ∧ (exampleFile "dir.v2/file").extension
              ≠ extensionOfLastComponent (exampleFile "dir.v2/file").name
          ∧ (exampleFile "dir.v2/file").fileName
              = lastComponent (exampleFile "dir.v2/file").name) :=
  ⟨by decide, by decide, by decide,
    C31_extension_of_dotted_directory (exampleFile "dir.v2/file") (by decide) (by decide)
      (by decide)⟩

/-! ## Files: opening -/

/-- Source: on a file without a handle `File::open(mode)` stores the mode, takes the
handle that `SDL_RWFromFile` gives and returns whether there is one. -/
theorem open_of_closed {FileMode SDL_RWops : Type} [DecidableEq FileMode]
    (SDL_RWFromFile : List Char → List Char → Option SDL_RWops) (Write : FileMode)
    (f : File FileMode SDL_RWops) (mode : FileMode) (h : f._file = none) :
    (File.open SDL_RWFromFile Write f mode).2._mode = mode
      ∧ (File.open SDL_RWFromFile Write f mode).2._file
          = SDL_RWFromFile (c_str f._rawPath) (if mode = Write then "wb".toList else "rb".toList)
      ∧ (File.open SDL_RWFromFile Write f mode).2._rawPath = f._rawPath
      ∧ (File.open SDL_RWFromFile Write f mode).1
          = (File.open SDL_RWFromFile Write f mode).2._file.isSome := by
  simp [File.open, File.createRWops, h]

/-- C32 on the code: for every file whose handle is already open and every mode,
`File::open(mode)` leaves the file as it was, handle and stored mode included, and it
returns `true`: the `-1` of `return -1;` converted to `bool`. -/
theorem C32_open_already_open {FileMode SDL_RWops : Type} [DecidableEq FileMode]
    (SDL_RWFromFile : List Char → List Char → Option SDL_RWops) (Write : FileMode)
    (f : File FileMode SDL_RWops) (mode : FileMode) (h : f._file.isSome = true) :
    (File.open SDL_RWFromFile Write f mode).1 = true
      ∧ (File.open SDL_RWFromFile Write f mode).2 = f := by
  simp [File.open, h, boolOfInt]

/-- C32 at a file open in mode 0 with handle 5, opened again for writing. -/
theorem C32_open_already_open_witness :
    (⟨"a.txt".toList, 0, some 5⟩ : File Nat Nat)._file.isSome = true
      ∧ (File.open openAnyFile 1 (⟨"a.txt".toList, 0, some 5⟩ : File Nat Nat) 1).1 = true
      ∧ (File.open openAnyFile 1 (⟨"a.txt".toList, 0, some 5⟩ : File Nat Nat) 1).2
          = ⟨"a.txt".toList, 0, some 5⟩ :=
  ⟨rfl, C32_open_already_open openAnyFile 1 ⟨"a.txt".toList, 0, some 5⟩ 1 rfl⟩

end io

namespace glm

/-! ## The product of affine matrices -/

/-- The sum of two `vec4`, written out. -/
theorem vec4_add_def {T : Type} [Add T] (a b : vec4 T) :
    a + b = ⟨a.x + b.x, a.y + b.y, a.z + b.z, a.w + b.w⟩ := rfl

/-- The product of a `vec4` with a scalar, written out. -/
theorem vec4_mul_def {T : Type} [Mul T] (v : vec4 T) (s : T) :
    v * s = ⟨v.x * s, v.y * s, v.z * s, v.w * s⟩ := rfl

/-- The order of the factors matters: with the two example matrices, transforming by the
product is not transforming by the left factor first. -/
theorem transform_mul_order :
    transform (exampleA * exampleB) ⟨1, 2, 3⟩ = ⟨40, 8, 21⟩
      ∧ transform exampleB (transform exampleA ⟨1, 2, 3⟩) = ⟨8, 20, 25⟩ := by
  decide

/-- C33: over a commutative ring, for all `mat3x4` matrices `a`, `b` and every `vec3`
`v`, transforming `v` by the product `a * b` is transforming it by `b` and the result by
`a`. -/
theorem C33_transform_mul {T : Type} [CommRing T] (a b : mat3x4 T) (v : vec3 T) :
    transform (a * b) v = transform a (transform b v) := by
  show transform (mat3x4.mul a b) v = _
  simp only [transform, mat3x4.mul, column, mat3x4.get, mat3x4.mk3, vec4_add_def, vec4_mul_def,
    Matrix.cons_val_zero, Matrix.cons_val_one, Matrix.cons_val_two, Matrix.head_cons,
    Matrix.tail_cons]
  congr 1 <;> ring

end glm
